import Mathlib

/-!
Settlement, ledger and picks of bets-backend

A shallow embedding of `controllers/settlement_controller.go`
(`SettleEvent`, `updateUserPicksAndPoints`), of the hook `Event.BeforeSave`
(`models/event.go`), of `UpdateTournamentStatus`
(`controllers/tournament_controller.go`), of `DepositMoney`
(`controllers/wallet_controller.go`), of `JoinTournament`
(`controllers/tournament_participant_controller.go`), of
`SubmitPicksBySession` (`controllers/session_controller.go`) and of
`AuthMiddleware` and `RequireAdmin` (`middlewares`), followed by theorems
about them.

Modelling conventions
* A table is the list of its live rows; a primary key or a unique index is a
  `Nodup` hypothesis on the theorems that need it, except for the index on
  `transactions.transaction_number` (see below).
* A gorm transaction is a working copy of the store: `Rollback` gives back the
  store the handler started from, `Commit` gives the working copy.
* Go `uint` is `Nat`, Go `int` is `Int`, `*uint` is `Option Nat`.  The
  addition `totalScore += res.FinalScore` of Go `int`s wraps at 64 bits
  (`wrap64`).  The subtraction `wallet.TokenBalance -= EntryFeeTokens` runs
  only with a fee above 0 and at most the balance, so its result lies between
  0 and the balance.  The sum `total_points + ?` is taken by the store, in
  SQL, not by Go.
* A `float64` value is the rational it denotes, and comparison of finite
  floats is comparison of these rationals.  The conversion `float64(n)` of an
  integer rounds to 53 significant bits, ties to even (`toFloat64`), and every
  sum, difference and product of floats is the exact result rounded to the
  nearest `float64` (`roundFloat64`); negation is exact.  A theorem stated for
  every rational amount holds in particular for every float.  An exact result
  is taken to be below `2 ^ 1024` in magnitude: the overflow of an operation
  to an infinity is outside the model, as are the infinities and NaN
  themselves, which no JSON body carries.
* The store keeps a float as it is written, as the sqlite driver of the tests
  does; a rounding to the two decimals of a `decimal(12,2)` column is not
  modelled.
* The unique index on `transactions.transaction_number` is checked by
  `createTransaction`: a row whose number is already stored is refused.
* A write to the store may fail; `Faults` says which ones do.  A failed write
  changes nothing and hands an error to the handler, which reacts to it
  exactly when the source checks it.
-/

namespace BetsBackend

/-! ## Rows -/

/-- Row of `dtos.CompetitorResult`: one entry of the results list. -/
structure CompetitorResult where
  competitorID : Nat
  finalScore : Int
  position : Int
deriving DecidableEq, Repr

/-- Body of the settle request, `dtos.SetEventResultRequest`. -/
structure SetEventResultRequest where
  results : List CompetitorResult
deriving DecidableEq, Repr

/-- Row of `models.Event` (the columns the handlers read or write). -/
structure Event where
  id : Nat
  tournamentID : Nat
  name : String
  slug : String
  status : String
  resultNote : String
  startTime : Int
deriving DecidableEq, Repr

/-- Row of `models.EventCompetitor`. -/
structure EventCompetitor where
  id : Nat
  eventID : Nat
  name : String
  assignedNumber : Int
  finalScore : Int
  position : Int
  isScratched : Bool
deriving DecidableEq, Repr

/-- Row of `models.PickableSelection` (the runline and odds columns, which no
handler modelled here reads, are left out). -/
structure PickableSelection where
  id : Nat
  eventID : Nat
  description : String
  selectionType : String
  line : ℚ
  competitorID : Option Nat
  pointsForWin : Int
  pointsForPush : Int
  status : String
deriving DecidableEq, Repr

/-- Row of `models.UserPick`. -/
structure UserPick where
  id : Nat
  participantID : Nat
  selectionID : Nat
  sessionID : Nat
  status : String
  awardedPoints : Int
deriving DecidableEq, Repr

/-- Row of `models.TournamentParticipant`. -/
structure TournamentParticipant where
  id : Nat
  userID : Nat
  tournamentID : Nat
  totalPoints : Int
deriving DecidableEq, Repr

/-- Settings of a tournament, `models.TournamentSettings` (the fields read by
the prize distribution and by the submission of picks). -/
structure TournamentSettings where
  prizeDistribution : List ℚ
  selectionsPerSession : Int
  requiredSelectionTypes : List String
deriving DecidableEq, Repr

/-- Row of `models.Tournament`; dates are instants on an integer time line. -/
structure Tournament where
  id : Nat
  name : String
  slug : String
  status : String
  startDate : Int
  endDate : Int
  prizePool : ℚ
  prizeBonus : ℚ
  settings : TournamentSettings
  entryFee : ℚ
  entryFeeTokens : Int
deriving DecidableEq, Repr

/-- Row of `models.Session`; times are instants on the same integer time
line. -/
structure Session where
  id : Nat
  tournamentID : Nat
  sessionNumber : Int
  startTime : Int
  endTime : Int
  description : String
  status : String
deriving DecidableEq, Repr

/-- Row of `models.Wallet`. -/
structure Wallet where
  id : Nat
  userID : Nat
  balance : ℚ
  frozenBalance : ℚ
  bonusBalance : ℚ
  tokenBalance : Int
deriving DecidableEq, Repr

/-- Row of `models.Transaction`. -/
structure Transaction where
  transactionNumber : String
  walletID : Nat
  amount : ℚ
  previousBalance : ℚ
  newBalance : ℚ
  type : String
  currency : String
  description : String
  status : String
deriving DecidableEq, Repr

/-- The relational store: one list of rows per table. -/
structure Store where
  events : List Event := []
  competitors : List EventCompetitor := []
  selections : List PickableSelection := []
  picks : List UserPick := []
  participants : List TournamentParticipant := []
  tournaments : List Tournament := []
  wallets : List Wallet := []
  transactions : List Transaction := []
  sessions : List Session := []
deriving DecidableEq, Repr

/-- What a handler sends back: `utils.Success` / `utils.Error` with the HTTP
status code and the message. -/
structure Response where
  status : Nat
  message : String
deriving DecidableEq, Repr

/-- Which writes of `SettleEvent` fail.  The competitor update is named by the
competitor id of the result entry, the three selection-level writes by the
selection id. -/
structure Faults where
  updateCompetitor : Nat → Bool := fun _ => false
  updateSelection : Nat → Bool := fun _ => false
  updatePicks : Nat → Bool := fun _ => false
  addPoints : Nat → Bool := fun _ => false
  saveEvent : Bool := false

/-- The store that never fails. -/
def Faults.none : Faults := {}

/-! ## SettleEvent -/

/-- Validation that `ShouldBindJSON` runs from the binding tags of
`SetEventResultRequest`: `results` is `required,min=1,dive` and every
`competitor_id` is `required` (non-zero). -/
def bindSetEventResultRequest (input : SetEventResultRequest) : Bool :=
  decide (1 ≤ input.results.length) && input.results.all (fun r => r.competitorID != 0)

/-- The statement `UPDATE event_competitors SET final_score, position WHERE
event_id = ? AND id = ?` of step 2. -/
def updateCompetitorResult (rows : List EventCompetitor) (eventID : Nat)
    (res : CompetitorResult) : List EventCompetitor :=
  rows.map fun c =>
    if c.eventID = eventID ∧ c.id = res.competitorID then
      { c with finalScore := res.finalScore, position := res.position }
    else c

/-- Result of an addition of two Go `int`s, given their exact sum: the value
is reduced into the 64-bit range `-2 ^ 63 .. 2 ^ 63 - 1`. -/
def wrap64 (x : Int) : Int := (x + 2 ^ 63) % 2 ^ 64 - 2 ^ 63

/-- Number of low bits that `float64` drops from a natural number: 0 below
`2 ^ 53`, else one more than for its half.  The fuel 11 used by `roundTo53`
covers every magnitude up to `2 ^ 63`, the range of a Go `int`. -/
def float64Exponent : Nat → Nat → Nat
  | 0, _ => 0
  | fuel + 1, a => if a < 2 ^ 53 then 0 else float64Exponent fuel (a / 2) + 1

/-- Rounding of a natural number to 53 significant bits, to nearest, ties to
even: the magnitude of `float64(n)`. -/
def roundTo53 (a : Nat) : Nat :=
  let e := float64Exponent 11 a
  let q := a / 2 ^ e
  let r := a % 2 ^ e
  if 2 * r > 2 ^ e ∨ (2 * r = 2 ^ e ∧ q % 2 = 1) then (q + 1) * 2 ^ e else q * 2 ^ e

/-- The Go conversion `float64(n)` of an `int`, as the rational it denotes. -/
def toFloat64 (n : Int) : ℚ :=
  if n < 0 then -((roundTo53 n.natAbs : Nat) : ℚ) else ((roundTo53 n.natAbs : Nat) : ℚ)

/-- Number of binary digits of a natural number; `fuel` bounds the recursion
and is given as the number itself. -/
def bitLength : Nat → Nat → Nat
  | 0, _ => 0
  | fuel + 1, n => if n = 0 then 0 else bitLength fuel (n / 2) + 1

/-- Floor of the binary logarithm of the positive rational `n / d`: with `k`
the difference of the bit lengths, `n / d` lies between `2 ^ (k - 1)` and
`2 ^ (k + 1)`, and one comparison decides. -/
def floorLog2 (n d : Nat) : Int :=
  let k : Int := (bitLength n n : Int) - (bitLength d d : Int)
  if 0 ≤ k then (if d * 2 ^ k.toNat ≤ n then k else k - 1)
  else (if d ≤ n * 2 ^ (-k).toNat then k else k - 1)

/-- Rounding of the quotient `a / b` to the nearest integer, ties to even. -/
def roundHalfEven (a b : Nat) : Nat :=
  if 2 * (a % b) > b ∨ (2 * (a % b) = b ∧ (a / b) % 2 = 1) then a / b + 1 else a / b

/-- Rounding of the positive rational `n / d` to the nearest `float64`: a
multiple of `2 ^ e` with a significand of at most 53 bits, where `e` is not
below -1074, the exponent of the subnormal numbers. -/
def roundFloat64Pos (n d : Nat) : ℚ :=
  let e : Int := max (floorLog2 n d - 52) (-1074)
  if 0 ≤ e then ((roundHalfEven n (d * 2 ^ e.toNat) * 2 ^ e.toNat : Nat) : ℚ)
  else ((roundHalfEven (n * 2 ^ (-e).toNat) d : Nat) : ℚ) / ((2 ^ (-e).toNat : Nat) : ℚ)

/-- The result of a `float64` operation whose exact result is `q`: `q` rounded
to the nearest `float64`, ties to even (IEEE 754 binary64).  Results at or
beyond `2 ^ 1024`, which a float turns into an infinity, are outside the
model. -/
def roundFloat64 (q : ℚ) : ℚ :=
  if q < 0 then -roundFloat64Pos q.num.natAbs q.den
  else if q = 0 then 0
  else roundFloat64Pos q.num.natAbs q.den

/-- Step 2 of `SettleEvent`: the loop over `input.Results`.  It carries the Go
map `competitorResults` (an association list, the newest binding first, so a
lookup sees the last assignment), the running `totalScore` (a Go `int`, so
`+=` wraps) and the working copy of the store; `none` is the early return
after a failed update. -/
def applyResults (f : Faults) (eventID : Nat) :
    List CompetitorResult → List (Nat × CompetitorResult) → Int → Store →
    Option (List (Nat × CompetitorResult) × Int × Store)
  | [], competitorResults, totalScore, tx => some (competitorResults, totalScore, tx)
  | res :: rest, competitorResults, totalScore, tx =>
    if f.updateCompetitor res.competitorID then none
    else
      applyResults f eventID rest ((res.competitorID, res) :: competitorResults)
        (wrap64 (totalScore + res.finalScore))
        { tx with competitors := updateCompetitorResult tx.competitors eventID res }

/-- Reading `competitorResults[id].FinalScore`: a missing key gives the zero
value of `CompetitorResult`, whose score is 0. -/
def finalScoreOf (competitorResults : List (Nat × CompetitorResult)) (id : Nat) : Int :=
  match competitorResults.lookup id with
  | some r => r.finalScore
  | none => 0

/-- The `switch selection.SelectionType` of step 3: the status and the points
computed for one selection.  `competitors` is `event.Competitors`; the total
is compared as `float64(totalScore)`. -/
def evaluateSelection (competitors : List EventCompetitor)
    (competitorResults : List (Nat × CompetitorResult)) (totalScore : Int)
    (selection : PickableSelection) : String × Int :=
  if selection.selectionType = "alta" then
    if toFloat64 totalScore > selection.line then ("won", selection.pointsForWin)
    else if toFloat64 totalScore = selection.line then ("push", selection.pointsForPush)
    else ("lost", 0)
  else if selection.selectionType = "baja" then
    if toFloat64 totalScore < selection.line then ("won", selection.pointsForWin)
    else if toFloat64 totalScore = selection.line then ("push", selection.pointsForPush)
    else ("lost", 0)
  else if selection.selectionType = "macho" ∨ selection.selectionType = "hembra"
      ∨ selection.selectionType = "ganador" then
    match selection.competitorID with
    | some cid =>
      match competitorResults.lookup cid with
      | some result =>
        if result.position = 1 then ("won", selection.pointsForWin) else ("lost", 0)
      | none => ("lost", 0)
    | none => ("lost", 0)
  else if selection.selectionType = "empate" then
    match competitors with
    | [c1, c2] =>
      if finalScoreOf competitorResults c1.id = finalScoreOf competitorResults c2.id then
        ("won", selection.pointsForWin)
      else ("lost", 0)
    | _ => ("lost", 0)
  else ("lost", 0)

/-- The statement `UPDATE pickable_selections SET status = ? WHERE id = ?`
issued by `tx.Model(&selection).Update("status", status)`. -/
def updateSelectionStatus (rows : List PickableSelection) (selectionID : Nat)
    (status : String) : List PickableSelection :=
  rows.map fun s => if s.id = selectionID then { s with status := status } else s

/-- The first statement of `updateUserPicksAndPoints`: status and awarded
points of every pick with this `selection_id`. -/
def updatePickRows (rows : List UserPick) (selectionID : Nat) (status : String)
    (points : Int) : List UserPick :=
  rows.map fun p =>
    if p.selectionID = selectionID then { p with status := status, awardedPoints := points }
    else p

/-- The second statement of `updateUserPicksAndPoints`: `total_points =
total_points + ?` for the participants whose id is among the `participant_id`
of the picks with this `selection_id`. -/
def addPointsRows (rows : List TournamentParticipant) (picks : List UserPick)
    (selectionID : Nat) (points : Int) : List TournamentParticipant :=
  rows.map fun p =>
    if picks.any (fun k => decide (k.selectionID = selectionID ∧ k.participantID = p.id)) then
      { p with totalPoints := p.totalPoints + points }
    else p

/-- The function `updateUserPicksAndPoints`; `none` is a returned error. -/
def updateUserPicksAndPoints (f : Faults) (tx : Store) (selectionID : Nat)
    (status : String) (points : Int) : Option Store :=
  if f.updatePicks selectionID then none
  else
    let tx1 := { tx with picks := updatePickRows tx.picks selectionID status points }
    if f.addPoints selectionID then none
    else
      some { tx1 with
        participants := addPointsRows tx1.participants tx1.picks selectionID points }

/-- Steps 3 and 4 of `SettleEvent`: the loop over `event.PickableSelections`.
The error of the status update is not looked at by the source, so a failed
update is skipped and the loop goes on; an error of
`updateUserPicksAndPoints` ends the handler (`none`). -/
def settleSelections (f : Faults) (competitors : List EventCompetitor)
    (competitorResults : List (Nat × CompetitorResult)) (totalScore : Int) :
    List PickableSelection → Store → Option Store
  | [], tx => some tx
  | selection :: rest, tx =>
    let status := (evaluateSelection competitors competitorResults totalScore selection).1
    let points := (evaluateSelection competitors competitorResults totalScore selection).2
    let tx1 : Store :=
      if f.updateSelection selection.id then tx
      else { tx with selections := updateSelectionStatus tx.selections selection.id status }
    if points > 0 then
      match updateUserPicksAndPoints f tx1 selection.id status points with
      | none => none
      | some tx2 => settleSelections f competitors competitorResults totalScore rest tx2
    else settleSelections f competitors competitorResults totalScore rest tx1

/-- The hook `Event.BeforeSave`: the slug is recomputed from a non-empty name
(`mkSlug` stands for `slug.Make` of the library gosimple/slug), and an event
that is `completed` needs a result note of at least 5 bytes; `none` is the
returned error. -/
def Event.BeforeSave (mkSlug : String → String) (e : Event) : Option Event :=
  let e1 := if e.name ≠ "" then { e with slug := mkSlug e.name } else e
  if e1.status = "completed" ∧ e1.resultNote.utf8ByteSize < 5 then none else some e1

/-- The call `tx.Save(&event)`: the hook runs first, then the row with the id
of the event is written.  The competitors and selections preloaded into the
event are re-sent by gorm with `ON CONFLICT (id) DO UPDATE SET event_id`,
which leaves their rows as they are. -/
def saveEvent (mkSlug : String → String) (f : Faults) (tx : Store) (e : Event) :
    Option Store :=
  match Event.BeforeSave mkSlug e with
  | none => none
  | some e1 =>
    if f.saveEvent then none
    else some { tx with events := tx.events.map fun r => if r.id = e1.id then e1 else r }

/-- The response of a settlement that went through. -/
def settledResponse : Response :=
  ⟨200, "Evento liquidado y puntos asignados correctamente"⟩

/-- The response for an event that is already `completed` (AlreadySettled). -/
def alreadySettledResponse : Response :=
  ⟨400, "Este evento ya ha sido liquidado"⟩

/-- The response for a request body that fails binding (ValidationError). -/
def invalidResultsResponse : Response :=
  ⟨400, "Datos de resultado inválidos"⟩

/-- The handler `SettleEvent`: the response and the store after the request.
Every early return of the source follows `tx.Rollback()`, hence it gives back
`db`. -/
def SettleEvent (mkSlug : String → String) (f : Faults) (db : Store) (eventID : Nat)
    (input : SetEventResultRequest) : Response × Store :=
  if bindSetEventResultRequest input = false then (invalidResultsResponse, db)
  else
    match db.events.find? (fun e => decide (e.id = eventID)) with
    | none => (⟨404, "Evento no encontrado"⟩, db)
    | some event =>
      if event.status = "completed" then (alreadySettledResponse, db)
      else
        let competitors := db.competitors.filter (fun c => decide (c.eventID = event.id))
        let selections := db.selections.filter (fun s => decide (s.eventID = event.id))
        match applyResults f event.id input.results [] 0 db with
        | none => (⟨500, "Error al actualizar resultados de competidores"⟩, db)
        | some (competitorResults, totalScore, tx1) =>
          match settleSelections f competitors competitorResults totalScore selections tx1 with
          | none => (⟨500, "Error al actualizar predicciones de usuarios"⟩, db)
          | some tx2 =>
            match saveEvent mkSlug f tx2 { event with status := "completed" } with
            | none => (⟨500, "Error al finalizar el evento"⟩, db)
            | some tx3 => (settledResponse, tx3)

/-- Stored status of the selection with this id. -/
def selectionStatus (db : Store) (selectionID : Nat) : Option String :=
  (db.selections.find? (fun s => decide (s.id = selectionID))).map (fun s => s.status)

/-- Stored status of the event with this id. -/
def eventStatus (db : Store) (eventID : Nat) : Option String :=
  (db.events.find? (fun e => decide (e.id = eventID))).map (fun e => e.status)

/-- Sum of `final_score` over all entries of a results list, as an exact
integer. -/
def scoreSum (results : List CompetitorResult) : Int :=
  (results.map (fun r => r.finalScore)).sum

/-- The variable `totalScore` once the loop of step 2 has run over the whole
results list: the sum taken with 64-bit additions. -/
def totalScoreOf (results : List CompetitorResult) : Int :=
  results.foldl (fun total res => wrap64 (total + res.finalScore)) 0

/-- Whether every value that `totalScore` takes in the loop of step 2, started
at `total`, is the exact sum of the scores read so far: no addition leaves the
range of a Go `int`. -/
def runningSumsInRange : Int → List CompetitorResult → Bool
  | _, [] => true
  | total, res :: rest =>
    decide (-(2 ^ 63) ≤ total + res.finalScore ∧ total + res.finalScore < 2 ^ 63) &&
      runningSumsInRange (total + res.finalScore) rest

/-- A results list whose second addition leaves the range of a Go `int`:
final scores `2 ^ 63 - 1` and 1. -/
def overflowRequest : SetEventResultRequest :=
  { results := [⟨1, 2 ^ 63 - 1, 1⟩, ⟨2, 1, 2⟩] }

/-! ## Sample data -/

/-- A settled-able event: it carries a result note. -/
def sampleEvent : Event :=
  { id := 1, tournamentID := 1, name := "Final", slug := "final",
    status := "scheduled", resultNote := "2 - 1", startTime := 1000 }

/-- Over 2.5 on the event. -/
def sampleAlta : PickableSelection :=
  { id := 1, eventID := 1, description := "Alta 2.5", selectionType := "alta",
    line := 5 / 2, competitorID := none, pointsForWin := 3, pointsForPush := 1,
    status := "pending" }

/-- Under 2.5 on the event. -/
def sampleBaja : PickableSelection :=
  { id := 2, eventID := 1, description := "Baja 2.5", selectionType := "baja",
    line := 5 / 2, competitorID := none, pointsForWin := 3, pointsForPush := 1,
    status := "pending" }

/-- Competitor 1 wins. -/
def sampleMacho : PickableSelection :=
  { id := 3, eventID := 1, description := "Gana A", selectionType := "macho",
    line := 0, competitorID := some 1, pointsForWin := 5, pointsForPush := 0,
    status := "pending" }

/-- The two competitors tie. -/
def sampleEmpate : PickableSelection :=
  { id := 4, eventID := 1, description := "Empate", selectionType := "empate",
    line := 0, competitorID := none, pointsForWin := 7, pointsForPush := 0,
    status := "pending" }

/-- First competitor of the event. -/
def sampleCompetitorA : EventCompetitor :=
  { id := 1, eventID := 1, name := "A", assignedNumber := 1, finalScore := 0,
    position := 0, isScratched := false }

/-- Second competitor of the event. -/
def sampleCompetitorB : EventCompetitor :=
  { id := 2, eventID := 1, name := "B", assignedNumber := 2, finalScore := 0,
    position := 0, isScratched := false }

/-- A store with one event, two competitors, four selections, three picks and
two participants. -/
def sampleStore : Store :=
  { events := [sampleEvent],
    competitors := [sampleCompetitorA, sampleCompetitorB],
    selections := [sampleAlta, sampleBaja, sampleMacho, sampleEmpate],
    picks :=
      [ { id := 1, participantID := 1, selectionID := 1, sessionID := 1,
          status := "pending", awardedPoints := 0 },
        { id := 2, participantID := 1, selectionID := 3, sessionID := 1,
          status := "pending", awardedPoints := 0 },
        { id := 3, participantID := 2, selectionID := 2, sessionID := 1,
          status := "pending", awardedPoints := 0 } ],
    participants :=
      [ { id := 1, userID := 10, tournamentID := 1, totalPoints := 4 },
        { id := 2, userID := 20, tournamentID := 1, totalPoints := 6 } ] }

/-- Final scores 2 and 1, the first competitor in first place. -/
def sampleRequest : SetEventResultRequest :=
  { results := [ { competitorID := 1, finalScore := 2, position := 1 },
                 { competitorID := 2, finalScore := 1, position := 2 } ] }

/-- Final scores 1 and 1. -/
def sampleDrawRequest : SetEventResultRequest :=
  { results := [ { competitorID := 1, finalScore := 1, position := 1 },
                 { competitorID := 2, finalScore := 1, position := 2 } ] }

/-! ## Closed forms used by the proofs -/

/-- The map `competitorResults` once the loop of step 2 has run over the whole
results list. -/
def competitorResultsMap (results : List CompetitorResult) : List (Nat × CompetitorResult) :=
  results.foldl (fun m res => (res.competitorID, res) :: m) []

/-- The status and points that `SettleEvent` computes for a selection of the
event, from the store it starts on and the request. -/
def settlementOutcome (db : Store) (eventID : Nat) (input : SetEventResultRequest)
    (selection : PickableSelection) : String × Int :=
  evaluateSelection (db.competitors.filter (fun c => decide (c.eventID = eventID)))
    (competitorResultsMap input.results) (totalScoreOf input.results) selection

/-- A selection row after the loop of step 3 has run over `sels`, when no
write fails. -/
def selectionRowAfter (ev : PickableSelection → String × Int) (sels : List PickableSelection)
    (s : PickableSelection) : PickableSelection :=
  match sels.find? (fun e => decide (e.id = s.id)) with
  | some e => { s with status := (ev e).1 }
  | none => s

/-- Selections table after the loop of step 3 has run over `sels`, when no
write fails: a row whose id is the id of one of `sels` carries the status
computed for it. -/
def selectionsAfter (ev : PickableSelection → String × Int) (sels : List PickableSelection)
    (rows : List PickableSelection) : List PickableSelection :=
  rows.map (selectionRowAfter ev sels)

/-- Picks table after the loop of step 3 has run over `sels`, when no write
fails: only the picks of a selection with positive points are written. -/
def picksAfter (ev : PickableSelection → String × Int) (sels : List PickableSelection)
    (rows : List UserPick) : List UserPick :=
  rows.map fun p =>
    match sels.find? (fun e => decide (e.id = p.selectionID ∧ (ev e).2 > 0)) with
    | some e => { p with status := (ev e).1, awardedPoints := (ev e).2 }
    | none => p

/-- Sum of the points of the selections among `sels` whose points are positive
and that at least one pick of the participant references. -/
def pointsGained (ev : PickableSelection → String × Int) (sels : List PickableSelection)
    (picks : List UserPick) (participantID : Nat) : Int :=
  ((sels.filter fun e =>
      decide ((ev e).2 > 0) &&
        picks.any (fun k => decide (k.selectionID = e.id ∧ k.participantID = participantID))).map
    fun e => (ev e).2).sum

/-- Participants table after the loop of step 3 has run over `sels`, when no
write fails. -/
def participantsAfter (ev : PickableSelection → String × Int) (sels : List PickableSelection)
    (picks : List UserPick) (rows : List TournamentParticipant) : List TournamentParticipant :=
  rows.map fun p => { p with totalPoints := p.totalPoints + pointsGained ev sels picks p.id }

/-- The event row that `SettleEvent` writes at step 5. -/
def completedEvent (mkSlug : String → String) (event : Event) : Event :=
  if event.name ≠ "" then { event with status := "completed", slug := mkSlug event.name }
  else { event with status := "completed" }

/-- Stored status of the pick with this id. -/
def pickStatus (db : Store) (pickID : Nat) : Option String :=
  (db.picks.find? (fun p => decide (p.id = pickID))).map (fun p => p.status)

/-- The sample store with its event already settled. -/
def completedStore : Store :=
  { sampleStore with events := [{ sampleEvent with status := "completed" }] }

/-- The sample store with the event as `CreateEvent` stores it: status
`scheduled` and no result note. -/
def freshStore : Store :=
  { sampleStore with events := [{ sampleEvent with resultNote := "" }] }

/-- A store on which every update of a selection status fails and every
other write goes through. -/
def selectionUpdateFails : Faults :=
  { updateSelection := fun _ => true }

/-- Stored `total_points` of the participant with this id. -/
def participantPoints (db : Store) (participantID : Nat) : Option Int :=
  (db.participants.find? (fun p => decide (p.id = participantID))).map (fun p => p.totalPoints)

/-! ## UpdateTournamentStatus -/

/-- Body of the status request, `dtos.UpdateStatusRequest`. -/
structure UpdateStatusRequest where
  status : String
deriving DecidableEq, Repr

/-- Which store operations of `UpdateTournamentStatus` fail.  The wallet
lookup is named by the user id, the wallet save and the creation of the
transaction by the wallet id. -/
structure PrizeFaults where
  findWinners : Bool := false
  findWallet : Nat → Bool := fun _ => false
  saveWallet : Nat → Bool := fun _ => false
  createTransaction : Nat → Bool := fun _ => false
  saveTournament : Bool := false

/-- The store that never fails. -/
def PrizeFaults.none : PrizeFaults := {}

/-- Validation from the binding tag `required,oneof=open closed finished`. -/
def bindUpdateStatusRequest (input : UpdateStatusRequest) : Bool :=
  decide (input.status = "open" ∨ input.status = "closed" ∨ input.status = "finished")

/-- The hook `Tournament.BeforeSave`: the slug is recomputed from a non-empty
name and a tournament that ends before it starts is refused (`none`). -/
def Tournament.BeforeSave (mkSlug : String → String) (t : Tournament) : Option Tournament :=
  let t1 := if t.name ≠ "" then { t with slug := mkSlug t.name } else t
  if t1.endDate < t1.startDate then none else some t1

/-- The calls `tx.Save(&tournament)` and `config.DB.Save(&tournament)`: the
handler does not look at their error, so a refused or failed save leaves the
store as it is and the handler goes on. -/
def saveTournament (mkSlug : String → String) (fails : Bool) (tx : Store) (t : Tournament) :
    Store :=
  match Tournament.BeforeSave mkSlug t with
  | none => tx
  | some t1 =>
    if fails then tx
    else { tx with tournaments := tx.tournaments.map fun r => if r.id = t1.id then t1 else r }

/-- The hook `Transaction.BeforeCreate`: an empty transaction number becomes
`TRX-<timestamp>-<wallet id>`; `now` is `time.Now()` in the layout
`20060102150405`. -/
def Transaction.BeforeCreate (now : String) (t : Transaction) : Transaction :=
  if t.transactionNumber = "" then
    { t with transactionNumber := "TRX-" ++ now ++ "-" ++ toString t.walletID }
  else t

/-- The unique index on `transactions.transaction_number`: whether a stored
row already carries this number. -/
def numberTaken (rows : List Transaction) (number : String) : Bool :=
  rows.any (fun r => decide (r.transactionNumber = number))

/-- The call `tx.Create(&transaction)`, whose error no handler looks at: the
hook `BeforeCreate` runs and the row is appended, unless the unique index on
`transaction_number` refuses it because a stored row carries its number;
`fails` is any other failure.  A refused or failed creation leaves the table
as it is. -/
def createTransaction (fails : Bool) (now : String) (rows : List Transaction)
    (t : Transaction) : List Transaction :=
  if fails = true ∨ numberTaken rows (Transaction.BeforeCreate now t).transactionNumber = true
  then rows
  else rows ++ [Transaction.BeforeCreate now t]

/-- The query `Where("tournament_id = ?").Order("total_points desc")`: the
participants of the tournament, highest total first; among equal totals the
order of the table is kept. -/
def rankParticipants (rows : List TournamentParticipant) (tournamentID : Nat) :
    List TournamentParticipant :=
  (rows.filter (fun p => decide (p.tournamentID = tournamentID))).insertionSort
    (fun a b => b.totalPoints ≤ a.totalPoints)

/-- The transaction row built for a prize: `PreviousBalance` and
`TransactionNumber` are not set by the handler, the currency is the column
default. -/
def prizeTransaction (tournament : Tournament) (i : Nat) (walletID : Nat) (prizeAmount : ℚ)
    (newBalance : ℚ) : Transaction :=
  { transactionNumber := "", walletID := walletID, amount := prizeAmount,
    previousBalance := 0, newBalance := newBalance, type := "prize", currency := "USD",
    description := "Premio torneo: " ++ tournament.name ++ " (Posición " ++ toString (i + 1) ++ ")",
    status := "completed" }

/-- The call `tx.Save(&wallet)`: the row with the id of the wallet is written.
The column `balance` carries the constraint `check:balance >= 0`, which
`AutoMigrate` puts on the table, so the write of a negative balance is refused
by the store; `fails` is any other failure.  `none` is the returned error. -/
def saveWalletRow (fails : Bool) (rows : List Wallet) (w : Wallet) : Option (List Wallet) :=
  if fails = true ∨ w.balance < 0 then none
  else some (rows.map fun r => if r.id = w.id then w else r)

/-- Step 3 of the finalization: the loop `for i, winner := range winners`.
`clock i` is the time read when the i-th transaction is created; an error is
the message of the early return.  The product `totalPot * percentage` and the
sum `wallet.Balance += prizeAmount` are float operations. -/
def distributePrizes (f : PrizeFaults) (clock : Nat → String) (tournament : Tournament)
    (totalPot : ℚ) : Nat → List TournamentParticipant → Store → Except String Store
  | _, [], tx => .ok tx
  | i, winner :: rest, tx =>
    match tournament.settings.prizeDistribution[i]? with
    | none => .ok tx
    | some percentage =>
      if roundFloat64 (totalPot * percentage) > 0 then
        if f.findWallet winner.userID then .error "Error buscando billetera de ganador"
        else
          match tx.wallets.find? (fun w => decide (w.userID = winner.userID)) with
          | none => .error "Error buscando billetera de ganador"
          | some wallet =>
            let wallet1 : Wallet :=
              { wallet with
                balance := roundFloat64 (wallet.balance + roundFloat64 (totalPot * percentage)) }
            match saveWalletRow (f.saveWallet wallet.id) tx.wallets wallet1 with
            | none => .error "Error depositando premio"
            | some rows =>
              let tx1 : Store := { tx with wallets := rows }
              let trx := prizeTransaction tournament i wallet1.id
                (roundFloat64 (totalPot * percentage)) wallet1.balance
              let tx2 : Store :=
                { tx1 with
                  transactions := createTransaction (f.createTransaction wallet1.id) (clock i)
                    tx1.transactions trx }
              distributePrizes f clock tournament totalPot (i + 1) rest tx2
      else distributePrizes f clock tournament totalPot (i + 1) rest tx

/-- The answer of `UpdateTournamentStatus` when it reaches its end. -/
def statusUpdatedResponse : Response :=
  ⟨200, "Estado actualizado y premios procesados (si aplica)"⟩

/-- The handler `UpdateTournamentStatus`: the response and the store after the
request. -/
def UpdateTournamentStatus (mkSlug : String → String) (clock : Nat → String) (f : PrizeFaults)
    (db : Store) (id : Nat) (input : UpdateStatusRequest) : Response × Store :=
  if bindUpdateStatusRequest input = false then (⟨400, "Datos inválidos"⟩, db)
  else
    match db.tournaments.find? (fun t => decide (t.id = id)) with
    | none => (⟨404, "Torneo no encontrado"⟩, db)
    | some tournament =>
      if input.status = "finished" ∧ tournament.status ≠ "finished" then
        let limit := tournament.settings.prizeDistribution.length
        if limit > 0 then
          if f.findWinners then (⟨500, "Error al calcular ganadores"⟩, db)
          else
            let winners := (rankParticipants db.participants tournament.id).take limit
            let totalPot := roundFloat64 (tournament.prizePool + tournament.prizeBonus)
            match distributePrizes f clock tournament totalPot 0 winners db with
            | .error msg => (⟨500, msg⟩, db)
            | .ok tx =>
              (statusUpdatedResponse,
                saveTournament mkSlug f.saveTournament tx { tournament with status := "finished" })
        else
          (statusUpdatedResponse,
            saveTournament mkSlug f.saveTournament db { tournament with status := "finished" })
      else
        (statusUpdatedResponse,
          saveTournament mkSlug f.saveTournament db { tournament with status := input.status })

/-- Stored status of the tournament with this id. -/
def tournamentStatus (db : Store) (id : Nat) : Option String :=
  (db.tournaments.find? (fun t => decide (t.id = id))).map (fun t => t.status)

/-- Stored balance of the wallet of this user. -/
def walletBalance (db : Store) (userID : Nat) : Option ℚ :=
  (db.wallets.find? (fun w => decide (w.userID = userID))).map (fun w => w.balance)

/-- The pot of a tournament, the float sum `PrizePool + PrizeBonus`. -/
def totalPotOf (t : Tournament) : ℚ := roundFloat64 (t.prizePool + t.prizeBonus)

/-- The prize of rank `i`: the float product of the pot and the i-th fraction
when that is positive, otherwise nothing; nothing beyond the schedule. -/
def prizeAt (t : Tournament) (i : Nat) : ℚ :=
  match t.settings.prizeDistribution[i]? with
  | some p => if roundFloat64 (totalPotOf t * p) > 0 then roundFloat64 (totalPotOf t * p) else 0
  | none => 0

/-- A balance after a prize: the float sum when the prize is positive, the
balance as it was otherwise. -/
def creditBalance (balance prize : ℚ) : ℚ :=
  if prize > 0 then roundFloat64 (balance + prize) else balance

/-- The balance that the loop over `winners`, entered at rank `i`, leaves in
the wallet of a user whose balance was `balance`. -/
def prizeBalance (t : Tournament) : Nat → List TournamentParticipant → Nat → ℚ → ℚ
  | _, [], _, balance => balance
  | i, w :: rest, u, balance =>
    prizeBalance t (i + 1) rest u
      (if w.userID = u then creditBalance balance (prizeAt t i) else balance)

/-- The `float64` nearest to 0.1. -/
def float01 : ℚ := 3602879701896397 / 36028797018963968

/-- The `float64` nearest to 0.2. -/
def float02 : ℚ := 3602879701896397 / 18014398509481984

/-- The `float64` nearest to 0.7. -/
def float07 : ℚ := 3152519739159347 / 4503599627370496

/-- A closed tournament with pot 90 + 10 and the schedule 0.70, 0.20, 0.10, as
the JSON decoder reads it: the nearest floats. -/
def sampleTournament : Tournament :=
  { id := 1, name := "Quiniela", slug := "quiniela", status := "closed", startDate := 0,
    endDate := 7, prizePool := 90, prizeBonus := 10,
    settings :=
      { prizeDistribution := [float07, float02, float01],
        selectionsPerSession := 2,
        requiredSelectionTypes := ["alta", "macho"] },
    entryFee := 10, entryFeeTokens := 3 }

/-- Four participants of the sample tournament, each with a wallet. -/
def prizeStore : Store :=
  { tournaments := [sampleTournament],
    participants :=
      [ { id := 1, userID := 10, tournamentID := 1, totalPoints := 5 },
        { id := 2, userID := 20, tournamentID := 1, totalPoints := 30 },
        { id := 3, userID := 30, tournamentID := 1, totalPoints := 12 },
        { id := 4, userID := 40, tournamentID := 1, totalPoints := 20 } ],
    wallets :=
      [ { id := 1, userID := 10, balance := 1, frozenBalance := 0, bonusBalance := 0,
          tokenBalance := 0 },
        { id := 2, userID := 20, balance := 2, frozenBalance := 0, bonusBalance := 0,
          tokenBalance := 0 },
        { id := 3, userID := 30, balance := 3, frozenBalance := 0, bonusBalance := 0,
          tokenBalance := 0 },
        { id := 4, userID := 40, balance := 4, frozenBalance := 0, bonusBalance := 0,
          tokenBalance := 0 } ] }

/-- A tournament whose pot is the float nearest to 0.2, all of it for the
first rank. -/
def dimeTournament : Tournament :=
  { sampleTournament with
    prizePool := float02,
    prizeBonus := 0,
    settings := { sampleTournament.settings with prizeDistribution := [1] } }

/-- One participant of `dimeTournament`, whose wallet holds the float nearest
to 0.1. -/
def dimeStore : Store :=
  { tournaments := [dimeTournament],
    participants := [ { id := 1, userID := 10, tournamentID := 1, totalPoints := 5 } ],
    wallets :=
      [ { id := 1, userID := 10, balance := float01, frozenBalance := 0, bonusBalance := 0,
          tokenBalance := 0 } ] }

/-- A clock that stands still. -/
def sampleClock : Nat → String := fun _ => "20260223120000"

/-! ## DepositMoney and JoinTournament -/

/-- Which writes of `DepositMoney` and `JoinTournament` fail. -/
structure LedgerFaults where
  saveWallet : Bool := false
  createParticipant : Bool := false
  createTransaction : Bool := false

/-- The store that never fails. -/
def LedgerFaults.none : LedgerFaults := {}

/-- The method `Wallet.CanAfford`: the float sum of real balance and bonus
covers the amount. -/
def Wallet.CanAfford (w : Wallet) (amount : ℚ) : Bool :=
  decide (roundFloat64 (w.balance + w.bonusBalance) ≥ amount)

/-- The answer of a deposit that went through. -/
def depositResponse : Response := ⟨200, "Depósito exitoso"⟩

/-- The answer to an amount refused by binding `required,gt=0` (InvalidAmount). -/
def invalidAmountResponse : Response := ⟨400, "Monto inválido"⟩

/-- The answer when the user has no wallet (NotFound). -/
def walletNotFoundResponse : Response := ⟨404, "Billetera no encontrada"⟩

/-- The transaction row that `DepositMoney` builds. -/
def depositTransaction (walletID : Nat) (amount previousBalance newBalance : ℚ) : Transaction :=
  { transactionNumber := "", walletID := walletID, amount := amount,
    previousBalance := previousBalance, newBalance := newBalance, type := "deposit",
    currency := "USD", description := "Depósito manual de prueba", status := "completed" }

/-- The handler `DepositMoney`.  The errors of `tx.Save(&wallet)` and of
`tx.Create(&transaction)` are not looked at; `wallet.Balance += input.Amount`
is a float addition. -/
def DepositMoney (now : String) (f : LedgerFaults) (db : Store) (userID : Nat) (amount : ℚ) :
    Response × Store :=
  if ¬ amount > 0 then (invalidAmountResponse, db)
  else
    match db.wallets.find? (fun w => decide (w.userID = userID)) with
    | none => (walletNotFoundResponse, db)
    | some wallet =>
      let previousBalance := wallet.balance
      let wallet1 : Wallet := { wallet with balance := roundFloat64 (wallet.balance + amount) }
      let tx1 : Store :=
        match saveWalletRow f.saveWallet db.wallets wallet1 with
        | none => db
        | some rows => { db with wallets := rows }
      let transaction := depositTransaction wallet1.id amount previousBalance wallet1.balance
      (depositResponse,
        { tx1 with
          transactions := createTransaction f.createTransaction now tx1.transactions transaction })

/-- Body of the join request, `dtos.JoinTournamentRequest`. -/
structure JoinTournamentRequest where
  payWithTokens : Bool
deriving DecidableEq, Repr

/-- The id that the store gives to a new participant row. -/
def nextParticipantID (rows : List TournamentParticipant) : Nat :=
  (rows.map (fun p => p.id)).foldl max 0 + 1

/-- The answer of a join that went through. -/
def joinedResponse : Response := ⟨201, "Inscripción exitosa"⟩

/-- The answer when real balance plus bonus does not cover the entry fee
(InsufficientFunds). -/
def insufficientFundsResponse : Response := ⟨400, "Saldo insuficiente"⟩

/-- The answer when the token balance does not cover the token fee. -/
def insufficientTokensResponse : Response := ⟨400, "Saldo de tokens insuficiente"⟩

/-- The answer to a user who is already a participant (AlreadyJoined). -/
def alreadyJoinedResponse : Response := ⟨409, "Ya estás inscrito en este torneo"⟩

/-- The transaction row that `JoinTournament` builds; `PreviousBalance` is not
set by the handler. -/
def entryTransaction (tournament : Tournament) (walletID : Nat) (cost : ℚ) (currency : String)
    (newBalance : ℚ) : Transaction :=
  { transactionNumber := "", walletID := walletID, amount := -cost, previousBalance := 0,
    newBalance := newBalance, type := "tournament_entry", currency := currency,
    description := "Inscripción a torneo: " ++ tournament.name, status := "completed" }

/-- The end of `JoinTournament`, from `tx.Save(&wallet)` on: the wallet as
debited is saved, the participant is created, the transaction is recorded. -/
def completeJoin (now : String) (f : LedgerFaults) (db : Store) (tournament : Tournament)
    (userID : Nat) (wallet : Wallet) (cost : ℚ) (currency : String) : Response × Store :=
  match saveWalletRow f.saveWallet db.wallets wallet with
  | none => (⟨500, "Error al procesar el pago"⟩, db)
  | some rows =>
    if f.createParticipant then (⟨500, "Error al registrar inscripción"⟩, db)
    else
      let participant : TournamentParticipant :=
        { id := nextParticipantID db.participants, userID := userID,
          tournamentID := tournament.id, totalPoints := 0 }
      let transaction := entryTransaction tournament wallet.id cost currency wallet.balance
      (joinedResponse,
        { db with
          wallets := rows,
          participants := db.participants ++ [participant],
          transactions := createTransaction f.createTransaction now db.transactions transaction })

/-- The handler `JoinTournament`.  The token fee is an `int`, converted with
`float64(...)` for the ledger row; the debit `wallet.Balance -= cost` is a
float subtraction. -/
def JoinTournament (now : String) (f : LedgerFaults) (db : Store) (tournamentID userID : Nat)
    (input : JoinTournamentRequest) : Response × Store :=
  match db.tournaments.find? (fun t => decide (t.id = tournamentID)) with
  | none => (⟨404, "Torneo no encontrado"⟩, db)
  | some tournament =>
    if tournament.status ≠ "open" then
      (⟨400, "El torneo no está abierto para inscripciones"⟩, db)
    else
      match db.participants.find?
          (fun p => decide (p.userID = userID ∧ p.tournamentID = tournament.id)) with
      | some _ => (alreadyJoinedResponse, db)
      | none =>
        match db.wallets.find? (fun w => decide (w.userID = userID)) with
        | none => (⟨500, "Error al obtener billetera"⟩, db)
        | some wallet =>
          if input.payWithTokens = true ∧ tournament.entryFeeTokens > 0 then
            if wallet.tokenBalance < tournament.entryFeeTokens then
              (insufficientTokensResponse, db)
            else
              completeJoin now f db tournament userID
                { wallet with tokenBalance := wallet.tokenBalance - tournament.entryFeeTokens }
                (toFloat64 tournament.entryFeeTokens) "TOKENS"
          else
            if wallet.CanAfford tournament.entryFee = false then
              (insufficientFundsResponse, db)
            else
              completeJoin now f db tournament userID
                { wallet with balance := roundFloat64 (wallet.balance - tournament.entryFee) }
                tournament.entryFee "USD"

/-- One operation on the ledger: a deposit, a join or a status change of a
tournament (which distributes the prizes when it finishes it). -/
inductive LedgerOp where
  | deposit (now : String) (f : LedgerFaults) (userID : Nat) (amount : ℚ)
  | join (now : String) (f : LedgerFaults) (tournamentID userID : Nat)
      (input : JoinTournamentRequest)
  | status (mkSlug : String → String) (clock : Nat → String) (f : PrizeFaults)
      (tournamentID : Nat) (input : UpdateStatusRequest)

/-- The store after one operation. -/
def LedgerOp.apply (db : Store) : LedgerOp → Store
  | .deposit now f userID amount => (DepositMoney now f db userID amount).2
  | .join now f tournamentID userID input => (JoinTournament now f db tournamentID userID input).2
  | .status mkSlug clock f tournamentID input =>
    (UpdateTournamentStatus mkSlug clock f db tournamentID input).2

/-- The store after a sequence of operations, one after the other. -/
def runLedgerOps (ops : List LedgerOp) (db : Store) : Store :=
  ops.foldl LedgerOp.apply db

/-- Every stored wallet has a balance of at least 0. -/
def NonNegBalances (db : Store) : Prop :=
  ∀ w ∈ db.wallets, 0 ≤ w.balance

/-- The stored wallet of this user. -/
def walletOf (db : Store) (userID : Nat) : Option Wallet :=
  db.wallets.find? (fun w => decide (w.userID = userID))

/-- An open tournament with entry fee 10 and token fee 3. -/
def openTournament : Tournament :=
  { id := 2, name := "Copa", slug := "copa", status := "open", startDate := 0,
    endDate := 7, prizePool := 0, prizeBonus := 0,
    settings :=
      { prizeDistribution := [1],
        selectionsPerSession := 2,
        requiredSelectionTypes := ["alta", "macho"] },
    entryFee := 10, entryFeeTokens := 3 }

/-- Users 10 to 40 of the prize store plus the open tournament and three more
wallets: user 50 with balance 5 and no bonus, user 60 with balance 5 and bonus
10, user 70 with balance 50 and 5 tokens. -/
def ledgerStore : Store :=
  { prizeStore with
    tournaments := [sampleTournament, openTournament],
    wallets := prizeStore.wallets ++
      [ { id := 5, userID := 50, balance := 5, frozenBalance := 0, bonusBalance := 0,
          tokenBalance := 0 },
        { id := 6, userID := 60, balance := 5, frozenBalance := 0, bonusBalance := 10,
          tokenBalance := 0 },
        { id := 7, userID := 70, balance := 50, frozenBalance := 0, bonusBalance := 0,
          tokenBalance := 5 } ] }

/-- The prize store after a first request that finishes the sample tournament. -/
def finishedOnce : Store :=
  (UpdateTournamentStatus id sampleClock PrizeFaults.none prizeStore 1 ⟨"finished"⟩).2

/-- The store after a following request that sets the status to `open`. -/
def reopened : Store :=
  (UpdateTournamentStatus id sampleClock PrizeFaults.none finishedOnce 1 ⟨"open"⟩).2

/-- The store after a second request that finishes the tournament, one hour
later. -/
def finishedTwice : Store :=
  (UpdateTournamentStatus id (fun _ => "20260223130000") PrizeFaults.none reopened 1
    ⟨"finished"⟩).2

/-- A deposit, a join that the balance constraint refuses (user 60), a join
that goes through (user 70) and the finalization of the sample tournament. -/
def sampleLedgerOps : List LedgerOp :=
  [ .deposit "20260223120000" LedgerFaults.none 50 (5 / 2),
    .join "20260223120001" LedgerFaults.none 2 60 ⟨false⟩,
    .join "20260223120002" LedgerFaults.none 2 70 ⟨false⟩,
    .status id sampleClock PrizeFaults.none 1 ⟨"finished"⟩ ]

/-! ## SubmitPicksBySession -/

/-- Body of the request, `dtos.SubmitPicksBySessionRequest`. -/
structure SubmitPicksBySessionRequest where
  sessionID : Nat
  selectionIDs : List Nat
deriving DecidableEq, Repr

/-- Which writes of `SubmitPicksBySession` fail: the creation of a pick, named
by the selection id. -/
structure PickFaults where
  createPick : Nat → Bool := fun _ => false

/-- The store that never fails. -/
def PickFaults.none : PickFaults := {}

/-- Validation from the binding tags: `session_id` is `required` (non-zero),
`selection_ids` is `required,min=1`. -/
def bindSubmitPicksBySessionRequest (input : SubmitPicksBySessionRequest) : Bool :=
  input.sessionID != 0 && decide (1 ≤ input.selectionIDs.length)

/-- The zero `time.Time` (1 January of year 1), in seconds of the Unix era. -/
def zeroTime : Int := -62135596800

/-- The zero `Event` that `Preload("Event")` leaves in a selection whose event
row does not exist. -/
def zeroEvent : Event :=
  { id := 0, tournamentID := 0, name := "", slug := "", status := "", resultNote := "",
    startTime := zeroTime }

/-- The id that the store gives to a new pick row. -/
def nextPickID (rows : List UserPick) : Nat :=
  (rows.map (fun p => p.id)).foldl max 0 + 1

/-- Step 6 of `SubmitPicksBySession`: the loop that compares the type of the
i-th submitted selection with the i-th required type; `none` means that the
loop ran to its end, `some` is the answer of the early return. -/
def checkRequiredTypes (db : Store) (required : List String) :
    Nat → List Nat → Option Response
  | _, [] => none
  | i, selectionID :: rest =>
    match db.selections.find? (fun s => decide (s.id = selectionID)) with
    | none => some ⟨404, "Selección #" ++ toString selectionID ++ " no encontrada"⟩
    | some sel =>
      match required[i]? with
      | some requiredType =>
        if sel.selectionType ≠ requiredType then
          some ⟨400, "La selección #" ++ toString (i + 1) ++ " debe ser de tipo \x27"
            ++ requiredType ++ "\x27 (posición " ++ toString (i + 1) ++ ")"⟩
        else checkRequiredTypes db required (i + 1) rest
      | none => checkRequiredTypes db required (i + 1) rest

/-- The event that `Preload("Event")` loads into a selection. -/
def owningEvent (db : Store) (selection : PickableSelection) : Event :=
  (db.events.find? (fun e => decide (e.id = selection.eventID))).getD zeroEvent

/-- Step 7 of `SubmitPicksBySession`: the loop over the submitted selection
ids.  `clock i` is the time read for the i-th id.  A selection that does not
exist is skipped; a pick that exists for (participant, selection, session) is
saved as it is; otherwise a new pending pick is created.  An error is the
answer of the early return. -/
def storePicks (f : PickFaults) (clock : Nat → Int) (tournamentID : Nat)
    (participant : TournamentParticipant) (session : Session) :
    Nat → List Nat → Store → Except Response Store
  | _, [], tx => .ok tx
  | i, selectionID :: rest, tx =>
    match tx.selections.find? (fun s => decide (s.id = selectionID)) with
    | none => storePicks f clock tournamentID participant session (i + 1) rest tx
    | some selection =>
      let event := owningEvent tx selection
      if event.tournamentID ≠ tournamentID then
        .error ⟨400, "La selección no pertenece a este torneo"⟩
      else if clock i > event.startTime then
        .error ⟨400, "El evento ya ha comenzado"⟩
      else
        match tx.picks.find? (fun p => decide (p.participantID = participant.id ∧
            p.selectionID = selection.id ∧ p.sessionID = session.id)) with
        | some _ => storePicks f clock tournamentID participant session (i + 1) rest tx
        | none =>
          if f.createPick selection.id then .error ⟨500, "Error al guardar predicción"⟩
          else
            let newPick : UserPick :=
              { id := nextPickID tx.picks, participantID := participant.id,
                selectionID := selection.id, sessionID := session.id, status := "pending",
                awardedPoints := 0 }
            storePicks f clock tournamentID participant session (i + 1) rest
              { tx with picks := tx.picks ++ [newPick] }

/-- The answer of a submission that went through. -/
def picksSavedResponse : Response :=
  ⟨201, "Predicciones guardadas para la sesión"⟩

/-- The answer to a submission with the wrong number of selections. -/
def wrongCountResponse (required : Int) : Response :=
  ⟨400, "Debe hacer exactamente " ++ toString required ++ " selecciones por sesión"⟩

/-- The handler `SubmitPicksBySession`; `now` is the time read for the check
of the session. -/
def SubmitPicksBySession (now : Int) (clock : Nat → Int) (f : PickFaults) (db : Store)
    (tournamentID userID : Nat) (input : SubmitPicksBySessionRequest) : Response × Store :=
  if bindSubmitPicksBySessionRequest input = false then (⟨400, "Datos inválidos"⟩, db)
  else
    match db.participants.find?
        (fun p => decide (p.userID = userID ∧ p.tournamentID = tournamentID)) with
    | none => (⟨403, "No estás inscrito en este torneo"⟩, db)
    | some participant =>
      match db.sessions.find? (fun s => decide (s.id = input.sessionID)) with
      | none => (⟨404, "Sesión no encontrada"⟩, db)
      | some session =>
        if session.tournamentID ≠ tournamentID then
          (⟨400, "La sesión no pertenece a este torneo"⟩, db)
        else if session.status ≠ "open" then
          (⟨400, "La sesión no está abierta para predicciones"⟩, db)
        else if now > session.endTime then
          (⟨400, "Ya cerró la hora límite para hacer selecciones en esta sesión"⟩, db)
        else
          match db.tournaments.find? (fun t => decide (t.id = tournamentID)) with
          | none => (⟨404, "Torneo no encontrado"⟩, db)
          | some tournament =>
            if (input.selectionIDs.length : Int) ≠ tournament.settings.selectionsPerSession then
              (wrongCountResponse tournament.settings.selectionsPerSession, db)
            else
              match (if tournament.settings.requiredSelectionTypes.length > 0 then
                  checkRequiredTypes db tournament.settings.requiredSelectionTypes 0
                    input.selectionIDs
                else none) with
              | some response => (response, db)
              | none =>
                match storePicks f clock tournamentID participant session 0
                    input.selectionIDs db with
                | .error response => (response, db)
                | .ok tx => (picksSavedResponse, tx)

/-- An event of the open tournament that starts at 1000. -/
def pickEvent : Event :=
  { sampleEvent with tournamentID := 2 }

/-- An open session of the open tournament that ends at 500. -/
def pickSession : Session :=
  { id := 1, tournamentID := 2, sessionNumber := 1, startTime := 0, endTime := 500,
    description := "Lunes", status := "open" }

/-- User 70 is a participant of the open tournament, which asks for two
selections of types alta, macho; the event has the sample selections. -/
def pickStore : Store :=
  { tournaments := [openTournament],
    participants := [{ id := 1, userID := 70, tournamentID := 2, totalPoints := 0 }],
    sessions := [pickSession],
    events := [pickEvent],
    selections := [sampleAlta, sampleBaja, sampleMacho, sampleEmpate] }

/-- A submission of the alta and the macho selection, in the required order. -/
def pickRequest : SubmitPicksBySessionRequest :=
  { sessionID := 1, selectionIDs := [1, 3] }

/-! ## Sequences of submissions -/

/-- One call of `SubmitPicksBySession` with everything it reads from outside
the store: the two clocks, the failures of the store, the route parameter, the
authenticated user and the body. -/
structure Submission where
  now : Int
  clock : Nat → Int
  faults : PickFaults
  tournamentID : Nat
  userID : Nat
  input : SubmitPicksBySessionRequest

/-- The store after one submission. -/
def Submission.apply (db : Store) (c : Submission) : Store :=
  (SubmitPicksBySession c.now c.clock c.faults db c.tournamentID c.userID c.input).2

/-- The store after a sequence of submissions, one after the other. -/
def runSubmissions (calls : List Submission) (db : Store) : Store :=
  calls.foldl Submission.apply db

/-- The (participant, selection, session) key of every stored pick. -/
def pickKeys (db : Store) : List (Nat × Nat × Nat) :=
  db.picks.map fun p => (p.participantID, p.selectionID, p.sessionID)

/-- The (participant, selection) pair of every stored pick. -/
def pickPairs (db : Store) : List (Nat × Nat) :=
  db.picks.map fun p => (p.participantID, p.selectionID)

/-- A second open session of the open tournament. -/
def secondSession : Session :=
  { id := 2, tournamentID := 2, sessionNumber := 2, startTime := 0, endTime := 800,
    description := "Martes", status := "open" }

/-- The pick store with two open sessions and no pick. -/
def twoSessionStore : Store :=
  { pickStore with sessions := [pickSession, secondSession] }

/-- The sample submission in the first session, then the same two selections
in the second session. -/
def twoSessionCalls : List Submission :=
  [ { now := 100, clock := fun _ => 100, faults := PickFaults.none, tournamentID := 2,
      userID := 70, input := pickRequest },
    { now := 200, clock := fun _ => 200, faults := PickFaults.none, tournamentID := 2,
      userID := 70, input := { sessionID := 2, selectionIDs := [1, 3] } } ]

/-- A status that a settlement gives: won, lost or push. -/
def Settled (status : String) : Prop :=
  status = "won" ∨ status = "lost" ∨ status = "push"

/-! ## Operations on the store -/

/-- One request to one of the handlers that write to the store, with
everything the handler reads from outside the store. -/
inductive Operation where
  | settle (mkSlug : String → String) (f : Faults) (eventID : Nat)
      (input : SetEventResultRequest)
  | join (now : String) (f : LedgerFaults) (tournamentID userID : Nat)
      (input : JoinTournamentRequest)
  | submit (c : Submission)
  | status (mkSlug : String → String) (clock : Nat → String) (f : PrizeFaults)
      (tournamentID : Nat) (input : UpdateStatusRequest)
  | deposit (now : String) (f : LedgerFaults) (userID : Nat) (amount : ℚ)

/-- The store after one operation. -/
def Operation.apply (db : Store) : Operation → Store
  | .settle mkSlug f eventID input => (SettleEvent mkSlug f db eventID input).2
  | .join now f tournamentID userID input =>
    (JoinTournament now f db tournamentID userID input).2
  | .submit c => Submission.apply db c
  | .status mkSlug clock f tournamentID input =>
    (UpdateTournamentStatus mkSlug clock f db tournamentID input).2
  | .deposit now f userID amount => (DepositMoney now f db userID amount).2

/-- Every participant row of `before` is still there in `after`, in its place,
with the same id, user and tournament and with `total_points` not lower. -/
def PointsKept (before after : List TournamentParticipant) : Prop :=
  ∀ (i : Nat) (p : TournamentParticipant), before[i]? = some p →
    ∃ q : TournamentParticipant, after[i]? = some q ∧ q.id = p.id ∧ q.userID = p.userID ∧
      q.tournamentID = p.tournamentID ∧ p.totalPoints ≤ q.totalPoints

/-- A selection of a type that the settlement does not know, with 4 points for
a win. -/
def sampleRunline : PickableSelection :=
  { id := 5, eventID := 1, description := "Runline -1.5", selectionType := "runline",
    line := -3 / 2, competitorID := some 1, pointsForWin := 4, pointsForPush := 2,
    status := "pending" }

/-- A selection that takes points away when it wins. -/
def samplePenalty : PickableSelection :=
  { id := 6, eventID := 1, description := "Gana B", selectionType := "ganador",
    line := 0, competitorID := some 2, pointsForWin := -2, pointsForPush := 0,
    status := "pending" }

/-- The sample store with the runline and the penalty selection added, each
picked by participant 2. -/
def penaltyStore : Store :=
  { sampleStore with
    selections := sampleStore.selections ++ [sampleRunline, samplePenalty],
    picks := sampleStore.picks ++
      [ { id := 4, participantID := 2, selectionID := 5, sessionID := 1,
          status := "pending", awardedPoints := 0 },
        { id := 5, participantID := 2, selectionID := 6, sessionID := 1,
          status := "pending", awardedPoints := 0 } ] }

/-- Final scores 1 and 3, the second competitor in first place. -/
def penaltyRequest : SetEventResultRequest :=
  { results := [ { competitorID := 1, finalScore := 1, position := 2 },
                 { competitorID := 2, finalScore := 3, position := 1 } ] }

/-- The ledger store after a deposit of 2.5 by user 50. -/
def afterFirstDeposit : Store :=
  (DepositMoney "20260223120000" LedgerFaults.none ledgerStore 50 (5 / 2)).2

/-- A store that refuses the creation of the transaction row, as the unique
index on `transaction_number` does for a number that is already stored. -/
def secondRowRefused : LedgerFaults :=
  { createTransaction := true }

/-! ## AuthMiddleware and the protected routes -/

/-- Payload of a token, `utils.Claims` (the registered claims left out). -/
structure Claims where
  userID : Nat
  username : String
  role : String
deriving DecidableEq, Repr

/-- What a chain of gin handlers works on: the `Authorization` header of the
request, the keys that `AuthMiddleware` sets in the context, the response
written so far, whether `c.Abort()` was called, and the store. -/
structure Context where
  authorization : String
  claims : Option Claims := none
  response : Option Response := none
  aborted : Bool := false
  db : Store

/-- The library function `strings.TrimPrefix`: `s` without the leading `pre`
when it starts with it, `s` itself otherwise. -/
def TrimPrefix (s pre : String) : String :=
  if pre.toList.isPrefixOf s.toList then String.mk (s.toList.drop pre.length) else s

/-- The calls `utils.Error(c, status, message, nil)` and `c.Abort()`. -/
def abortWith (c : Context) (status : Nat) (message : String) : Context :=
  { c with response := some ⟨status, message⟩, aborted := true }

/-- The middleware `AuthMiddleware`.  `validateToken` is `utils.ValidateToken`
(`none` is a returned error) and `next` is the rest of the chain, which
`c.Next()` runs; after `c.Abort()` nothing of it runs. -/
def AuthMiddleware (validateToken : String → Option Claims) (next : Context → Context)
    (c : Context) : Context :=
  let authHeader := c.authorization
  if authHeader = "" then abortWith c 401 "Se requiere token de autorización"
  else
    let tokenString := TrimPrefix authHeader "Bearer "
    if tokenString = authHeader then abortWith c 401 "Formato de token inválido"
    else
      match validateToken tokenString with
      | none => abortWith c 401 "Token inválido o expirado"
      | some claims => next { c with claims := some claims }

/-- The middleware `RequireAdmin`: the key `role` must exist and be `admin`. -/
def RequireAdmin (next : Context → Context) (c : Context) : Context :=
  match c.claims with
  | none => abortWith c 401 "No autorizado"
  | some claims =>
    if claims.role ≠ "admin" then
      abortWith c 403 "Acceso denegado. Se requiere rol de administrador"
    else next c

/-- A route of the group `protected` of `SetupRouter`: `AuthMiddleware`, then
the handler of the route. -/
def protectedRoute (validateToken : String → Option Claims) (handler : Context → Context) :
    Context → Context :=
  AuthMiddleware validateToken handler

/-- A route of the group `admin` of `SetupRouter`: `AuthMiddleware`, then
`RequireAdmin`, then the handler of the route. -/
def adminRoute (validateToken : String → Option Claims) (handler : Context → Context) :
    Context → Context :=
  AuthMiddleware validateToken (RequireAdmin handler)

/-- The route `POST /wallet/deposit` for a deposit of this amount at this
time: the handler takes the user from the key `userID`. -/
def depositHandler (now : String) (amount : ℚ) (c : Context) : Context :=
  let userID := (c.claims.map fun k => k.userID).getD 0
  { c with
    response := some (DepositMoney now LedgerFaults.none c.db userID amount).1,
    db := (DepositMoney now LedgerFaults.none c.db userID amount).2 }

/-- A validation that accepts the token `good` only, as user 50. -/
def sampleValidateToken (token : String) : Option Claims :=
  if token = "good" then some { userID := 50, username := "ana", role := "user" } else none

/-- Final scores 2 and 1 with no positions submitted, as for a match between
two teams. -/
def scoreOnlyRequest : SetEventResultRequest :=
  { results := [ { competitorID := 1, finalScore := 2, position := 0 },
                 { competitorID := 2, finalScore := 1, position := 0 } ] }

/-- Sum of the balances of all wallets. -/
def balanceSum (db : Store) : ℚ :=
  (db.wallets.map fun w => w.balance).sum

/-- Sum of the amounts of a list of transaction rows. -/
def amountSum (rows : List Transaction) : ℚ :=
  (rows.map fun t => t.amount).sum

/-- The pick store with a tournament that asks for two selections per session
and has no required selection types. -/
def freeStore : Store :=
  { pickStore with
    tournaments :=
      [ { openTournament with
          settings :=
            { prizeDistribution := [1],
              selectionsPerSession := 2,
              requiredSelectionTypes := [] } } ] }

/-- Sum of `awarded_points` over the picks of a participant that reference a
selection of the event. -/
def awardedOnEvent (db : Store) (eventID participantID : Nat) : Int :=
  ((db.picks.filter fun k =>
      decide (k.participantID = participantID) &&
        db.selections.any (fun s => decide (s.id = k.selectionID ∧ s.eventID = eventID))).map
    fun k => k.awardedPoints).sum

/-- The store reached from the two-session store by the two sample
submissions: participant 1 holds a pick on selection 1 and one on selection 3
in each of the two sessions. -/
def afterTwoSessions : Store :=
  runSubmissions twoSessionCalls twoSessionStore

/-- The points that the loop of step 3, run over `sels`, writes into a pick:
those of the selection of `sels` that the pick references when they are
positive, nothing otherwise. -/
def awardFor (ev : PickableSelection → String × Int) (sels : List PickableSelection)
    (k : UserPick) : Int :=
  match sels.find? (fun e => decide (e.id = k.selectionID ∧ (ev e).2 > 0)) with
  | some e => (ev e).2
  | none => 0

/-- A pick row after the loop of step 3 has run over `sels`, when no write
fails. -/
def pickRowAfter (ev : PickableSelection → String × Int) (sels : List PickableSelection)
    (p : UserPick) : UserPick :=
  match sels.find? (fun e => decide (e.id = p.selectionID ∧ (ev e).2 > 0)) with
  | some e => { p with status := (ev e).1, awardedPoints := (ev e).2 }
  | none => p

/-- The `float64` nearest to 0.3. -/
def float03 : ℚ := 5404319552844595 / 18014398509481984

/-- The `float64` nearest to 0.8. -/
def float08 : ℚ := 3602879701896397 / 4503599627370496

/-- An open tournament whose entry fee is the float nearest to 0.8. -/
def centsTournament : Tournament :=
  { openTournament with entryFee := float08 }

/-- The tournament `centsTournament` and user 80, whose wallet holds 0.5 and a
bonus of the float nearest to 0.3. -/
def centsStore : Store :=
  { tournaments := [centsTournament],
    wallets :=
      [ { id := 8, userID := 80, balance := 1 / 2, frozenBalance := 0, bonusBalance := float03,
          tokenBalance := 0 } ] }

/-- The ledger store after user 70 has joined the open tournament with money;
the 5 tokens of the wallet are still there. -/
def enrolledStore : Store :=
  (JoinTournament "20260223120000" LedgerFaults.none ledgerStore 2 70 ⟨false⟩).2

/-- The number that `Transaction.BeforeCreate` gives to the prize row of the
wallet `walletID`, created in iteration `i` of the loop over the winners. -/
def prizeNumber (clock : Nat → String) (i walletID : Nat) : String :=
  "TRX-" ++ clock i ++ "-" ++ toString walletID

/-- The sample tournament with the schedule 0.5, 0.25, 0.25, whose products
with the pot 100 are exact. -/
def dyadicTournament : Tournament :=
  { sampleTournament with
    settings := { sampleTournament.settings with prizeDistribution := [1 / 2, 1 / 4, 1 / 4] } }

/-- The sample participants and wallets with the tournament `dyadicTournament`. -/
def dyadicStore : Store :=
  { prizeStore with tournaments := [dyadicTournament] }

/-! ## Lemmas on the two loops of SettleEvent -/

theorem applyResults_none (eventID : Nat) (results : List CompetitorResult) :
    ∀ (m : List (Nat × CompetitorResult)) (total : Int) (tx : Store),
      applyResults Faults.none eventID results m total tx =
        some (results.foldl (fun m res => (res.competitorID, res) :: m) m,
          results.foldl (fun t res => wrap64 (t + res.finalScore)) total,
          { tx with competitors :=
              (results.foldl (fun cs res => updateCompetitorResult cs eventID res)
                tx.competitors) }) := by
  induction results with
  | nil => intro m total tx; simp [applyResults]
  | cons res rest ih =>
    intro m total tx
    simp only [applyResults, Faults.none, Bool.false_eq_true, if_false]
    have h := ih ((res.competitorID, res) :: m) (wrap64 (total + res.finalScore))
      { tx with competitors := updateCompetitorResult tx.competitors eventID res }
    simp only [Faults.none] at h
    rw [h]
    simp

theorem applyResults_some (f : Faults) (eventID : Nat) (results : List CompetitorResult) :
    ∀ (m : List (Nat × CompetitorResult)) (total : Int) (tx : Store)
      (out : List (Nat × CompetitorResult) × Int × Store),
      applyResults f eventID results m total tx = some out →
        out.1 = results.foldl (fun m res => (res.competitorID, res) :: m) m ∧
        out.2.1 = results.foldl (fun t res => wrap64 (t + res.finalScore)) total ∧
        out.2.2.picks = tx.picks ∧ out.2.2.participants = tx.participants := by
  induction results with
  | nil =>
    intro m total tx out h
    simp only [applyResults, Option.some.injEq] at h
    subst h
    simp
  | cons res rest ih =>
    intro m total tx out h
    simp only [applyResults] at h
    split_ifs at h
    obtain ⟨h1, h2, h3, h4⟩ := ih _ _ _ out h
    exact ⟨h1, h2, h3, h4⟩

theorem lookup_foldl_of_not_mem (results : List CompetitorResult) (cid : Nat)
    (h : cid ∉ results.map (fun r => r.competitorID)) :
    ∀ m : List (Nat × CompetitorResult),
      (results.foldl (fun m res => (res.competitorID, res) :: m) m).lookup cid
        = m.lookup cid := by
  induction results with
  | nil => intro m; rfl
  | cons res rest ih =>
    intro m
    simp only [List.map_cons, List.mem_cons, not_or] at h
    simp only [List.foldl_cons]
    rw [ih h.2]
    have hne : (cid == res.competitorID) = false := by simpa using h.1
    simp [List.lookup, hne]

theorem lookup_foldl_sound (results : List CompetitorResult) (cid : Nat)
    (r : CompetitorResult) :
    ∀ m : List (Nat × CompetitorResult),
      (results.foldl (fun m res => (res.competitorID, res) :: m) m).lookup cid = some r →
        (r ∈ results ∧ r.competitorID = cid) ∨ m.lookup cid = some r := by
  induction results with
  | nil => intro m h; exact Or.inr h
  | cons res rest ih =>
    intro m h
    simp only [List.foldl_cons] at h
    rcases ih _ h with h1 | h1
    · exact Or.inl ⟨List.mem_cons_of_mem _ h1.1, h1.2⟩
    · by_cases hc : cid = res.competitorID
      · subst hc
        simp [List.lookup] at h1
        subst h1
        exact Or.inl ⟨List.mem_cons_self _ _, rfl⟩
      · have hne : (cid == res.competitorID) = false := by simpa using hc
        simp [List.lookup, hne] at h1
        exact Or.inr h1

theorem lookup_foldl_complete (results : List CompetitorResult)
    (hnd : (results.map (fun r => r.competitorID)).Nodup) (r : CompetitorResult)
    (hr : r ∈ results) :
    ∀ m : List (Nat × CompetitorResult),
      (results.foldl (fun m res => (res.competitorID, res) :: m) m).lookup r.competitorID
        = some r := by
  induction results with
  | nil => cases hr
  | cons res rest ih =>
    intro m
    simp only [List.map_cons, List.nodup_cons] at hnd
    simp only [List.foldl_cons]
    rcases List.mem_cons.1 hr with h | h
    · subst h
      rw [lookup_foldl_of_not_mem rest _ hnd.1]
      simp [List.lookup]
    · exact ih hnd.2 h _

theorem any_updatePickRows (picks : List UserPick) (sid : Nat) (st : String) (pts : Int)
    (x y : Nat) :
    (updatePickRows picks sid st pts).any
        (fun k => decide (k.selectionID = x ∧ k.participantID = y))
      = picks.any (fun k => decide (k.selectionID = x ∧ k.participantID = y)) := by
  induction picks with
  | nil => rfl
  | cons k rest ih =>
    simp only [updatePickRows, List.map_cons, List.any_cons] at ih ⊢
    rw [ih]
    congr 1
    split <;> rfl

theorem pointsGained_updatePickRows (ev : PickableSelection → String × Int)
    (sels : List PickableSelection) (picks : List UserPick) (sid : Nat) (st : String)
    (pts : Int) (pid : Nat) :
    pointsGained ev sels (updatePickRows picks sid st pts) pid = pointsGained ev sels picks pid := by
  unfold pointsGained
  simp only [any_updatePickRows]

theorem find_id_eq_none (rest : List PickableSelection) (x : Nat)
    (h : x ∉ rest.map (fun e => e.id)) (q : PickableSelection → Prop) [DecidablePred q] :
    rest.find? (fun e => decide (e.id = x ∧ q e)) = none := by
  rw [List.find?_eq_none]
  intro e he
  simp only [decide_eq_true_eq, not_and]
  intro hid
  exact absurd (List.mem_map.2 ⟨e, he, hid⟩) h

theorem selectionsAfter_cons (ev : PickableSelection → String × Int) (e : PickableSelection)
    (rest : List PickableSelection) (h : e.id ∉ rest.map (fun e => e.id))
    (rows : List PickableSelection) :
    selectionsAfter ev rest (updateSelectionStatus rows e.id (ev e).1)
      = selectionsAfter ev (e :: rest) rows := by
  unfold selectionsAfter updateSelectionStatus
  rw [List.map_map]
  unfold selectionRowAfter
  apply List.map_congr_left
  intro s _
  have hnone : rest.find? (fun e1 => decide (e1.id = e.id)) = none := by
    have := find_id_eq_none rest e.id h (fun _ => True)
    simpa using this
  by_cases hs : s.id = e.id
  · have hs2 : e.id = s.id := hs.symm
    simp [List.find?_cons, hs, hnone]
  · have hs2 : ¬ e.id = s.id := fun h1 => hs h1.symm
    simp [List.find?_cons, hs, hs2]

theorem picksAfter_cons_pos (ev : PickableSelection → String × Int) (e : PickableSelection)
    (rest : List PickableSelection) (h : e.id ∉ rest.map (fun e => e.id))
    (hpos : (ev e).2 > 0) (rows : List UserPick) :
    picksAfter ev rest (updatePickRows rows e.id (ev e).1 (ev e).2)
      = picksAfter ev (e :: rest) rows := by
  unfold picksAfter updatePickRows
  rw [List.map_map]
  apply List.map_congr_left
  intro p _
  have hnone : rest.find? (fun e1 => decide (e1.id = e.id ∧ (ev e1).2 > 0)) = none :=
    find_id_eq_none rest e.id h (fun e1 => (ev e1).2 > 0)
  by_cases hs : p.selectionID = e.id
  · have hs2 : e.id = p.selectionID := hs.symm
    have hd : decide (e.id = p.selectionID ∧ (ev e).2 > 0) = true :=
      decide_eq_true ⟨hs2, hpos⟩
    rw [← hs] at hnone
    simp only [Function.comp, if_pos hs, List.find?_cons, hd, hnone]
  · have hs2 : ¬ e.id = p.selectionID := fun h1 => hs h1.symm
    have hd : decide (e.id = p.selectionID ∧ (ev e).2 > 0) = false :=
      decide_eq_false (fun h1 => hs2 h1.1)
    simp only [Function.comp, if_neg hs, List.find?_cons, hd]

theorem picksAfter_cons_nonpos (ev : PickableSelection → String × Int) (e : PickableSelection)
    (rest : List PickableSelection) (hpos : ¬ (ev e).2 > 0) (rows : List UserPick) :
    picksAfter ev rest rows = picksAfter ev (e :: rest) rows := by
  unfold picksAfter
  apply List.map_congr_left
  intro p _
  simp [List.find?_cons, hpos]

theorem pointsGained_cons (ev : PickableSelection → String × Int) (e : PickableSelection)
    (rest : List PickableSelection) (picks : List UserPick) (pid : Nat) :
    pointsGained ev (e :: rest) picks pid =
      (if (ev e).2 > 0 ∧
          picks.any (fun k => decide (k.selectionID = e.id ∧ k.participantID = pid)) = true
        then (ev e).2 else 0) + pointsGained ev rest picks pid := by
  unfold pointsGained
  by_cases h1 : (ev e).2 > 0
  · by_cases h2 :
        picks.any (fun k => decide (k.selectionID = e.id ∧ k.participantID = pid)) = true
    · rw [List.filter_cons_of_pos (by simp only [decide_eq_true h1, h2, Bool.and_self])]
      rw [if_pos ⟨h1, h2⟩]
      simp only [List.map_cons, List.sum_cons]
    · rw [List.filter_cons_of_neg (by simp only [h2, Bool.and_false, Bool.false_eq_true,
        not_false_eq_true])]
      rw [if_neg (fun h => h2 h.2)]
      simp only [zero_add]
  · rw [List.filter_cons_of_neg (by simp [h1])]
    rw [if_neg (fun h => h1 h.1)]
    simp only [zero_add]

theorem participantsAfter_cons_pos (ev : PickableSelection → String × Int) (e : PickableSelection)
    (rest : List PickableSelection) (hpos : (ev e).2 > 0) (picks : List UserPick)
    (rows : List TournamentParticipant) :
    participantsAfter ev rest (updatePickRows picks e.id (ev e).1 (ev e).2)
        (addPointsRows rows (updatePickRows picks e.id (ev e).1 (ev e).2) e.id (ev e).2)
      = participantsAfter ev (e :: rest) picks rows := by
  unfold participantsAfter addPointsRows
  rw [List.map_map]
  apply List.map_congr_left
  intro p _
  simp only [Function.comp, any_updatePickRows, pointsGained_updatePickRows, pointsGained_cons]
  by_cases hk : picks.any (fun k => decide (k.selectionID = e.id ∧ k.participantID = p.id)) = true
  · rw [if_pos hk, if_pos ⟨hpos, hk⟩]
    simp only [add_assoc]
  · rw [if_neg hk, if_neg (fun h => hk h.2)]
    simp only [zero_add]

theorem participantsAfter_cons_nonpos (ev : PickableSelection → String × Int)
    (e : PickableSelection) (rest : List PickableSelection) (hpos : ¬ (ev e).2 > 0)
    (picks : List UserPick) (rows : List TournamentParticipant) :
    participantsAfter ev rest picks rows = participantsAfter ev (e :: rest) picks rows := by
  unfold participantsAfter
  apply List.map_congr_left
  intro p _
  rw [pointsGained_cons, if_neg (fun h => hpos h.1), zero_add]

theorem settleSelections_none (competitors : List EventCompetitor)
    (m : List (Nat × CompetitorResult)) (total : Int) (sels : List PickableSelection)
    (hnd : (sels.map (fun e => e.id)).Nodup) :
    ∀ tx : Store,
      settleSelections Faults.none competitors m total sels tx =
        some { tx with
          selections := selectionsAfter (evaluateSelection competitors m total) sels tx.selections,
          picks := picksAfter (evaluateSelection competitors m total) sels tx.picks,
          participants :=
            participantsAfter (evaluateSelection competitors m total) sels tx.picks
              tx.participants } := by
  induction sels with
  | nil =>
    intro tx
    have hrow : selectionRowAfter (evaluateSelection competitors m total) [] = id :=
      funext fun _ => rfl
    simp [settleSelections, selectionsAfter, hrow, picksAfter, participantsAfter, pointsGained]
  | cons e rest ih =>
    intro tx
    simp only [List.map_cons, List.nodup_cons] at hnd
    by_cases hpos : (evaluateSelection competitors m total e).2 > 0
    · simp only [settleSelections, Faults.none, Bool.false_eq_true, if_false, if_pos hpos,
        updateUserPicksAndPoints]
      have h := ih hnd.2
      simp only [Faults.none] at h
      rw [h]
      simp only [selectionsAfter_cons _ e rest hnd.1, picksAfter_cons_pos _ e rest hnd.1 hpos,
        participantsAfter_cons_pos _ e rest hpos]
    · simp only [settleSelections, Faults.none, Bool.false_eq_true, if_false, if_neg hpos]
      have h := ih hnd.2
      simp only [Faults.none] at h
      rw [h]
      simp only [selectionsAfter_cons _ e rest hnd.1, ← picksAfter_cons_nonpos _ e rest hpos,
        ← participantsAfter_cons_nonpos _ e rest hpos]

theorem find_event_id (events : List Event) (eventID : Nat) (event : Event)
    (h : events.find? (fun e => decide (e.id = eventID)) = some event) : event.id = eventID := by
  have := List.find?_some h
  simpa using this

theorem nodup_filter_ids (rows : List PickableSelection)
    (h : (rows.map (fun e => e.id)).Nodup) (q : PickableSelection → Bool) :
    ((rows.filter q).map (fun e => e.id)).Nodup :=
  (List.filter_sublist rows).map (fun e => e.id) |>.nodup h

/-- Closed form of a settlement on a store that does not fail. -/
theorem SettleEvent_none (mkSlug : String → String) (db : Store) (eventID : Nat)
    (input : SetEventResultRequest) (event : Event)
    (hbind : bindSetEventResultRequest input = true)
    (hev : db.events.find? (fun e => decide (e.id = eventID)) = some event)
    (hst : event.status ≠ "completed")
    (hnote : 5 ≤ event.resultNote.utf8ByteSize)
    (hpk : (db.selections.map (fun s => s.id)).Nodup) :
    SettleEvent mkSlug Faults.none db eventID input =
      (settledResponse,
        { db with
          competitors :=
            (input.results.foldl (fun cs res => updateCompetitorResult cs eventID res)
              db.competitors),
          selections :=
            selectionsAfter (settlementOutcome db eventID input)
              (db.selections.filter (fun s => decide (s.eventID = eventID))) db.selections,
          picks :=
            picksAfter (settlementOutcome db eventID input)
              (db.selections.filter (fun s => decide (s.eventID = eventID))) db.picks,
          participants :=
            participantsAfter (settlementOutcome db eventID input)
              (db.selections.filter (fun s => decide (s.eventID = eventID))) db.picks
              db.participants,
          events :=
            db.events.map fun r =>
              if r.id = eventID then completedEvent mkSlug event else r }) := by
  have hid := find_event_id _ _ _ hev
  subst hid
  have hsave : ∀ tx : Store,
      saveEvent mkSlug Faults.none tx { event with status := "completed" } =
        some { tx with events := tx.events.map fun r =>
          if r.id = event.id then completedEvent mkSlug event else r } := by
    intro tx
    have hn : ¬ event.resultNote.utf8ByteSize < 5 := not_lt.2 hnote
    unfold saveEvent Event.BeforeSave completedEvent
    by_cases hname : event.name = ""
    · simp [hname, hn, Faults.none]
    · simp [hname, hn, Faults.none]
  unfold SettleEvent
  rw [hbind, hev]
  simp only [Bool.true_eq_false, if_false, if_neg hst]
  rw [applyResults_none]
  simp only []
  rw [settleSelections_none _ _ _ _ (nodup_filter_ids _ hpk _)]
  simp only []
  rw [hsave]
  rfl

theorem find_selection_of_nodup (rows : List PickableSelection)
    (hnd : (rows.map (fun e => e.id)).Nodup) (sel : PickableSelection) (hsel : sel ∈ rows) :
    rows.find? (fun e => decide (e.id = sel.id)) = some sel := by
  induction rows with
  | nil => cases hsel
  | cons a rest ih =>
    simp only [List.map_cons, List.nodup_cons] at hnd
    rcases List.mem_cons.1 hsel with h | h
    · subst h
      simp [List.find?_cons]
    · have hne : ¬ a.id = sel.id := by
        intro h1
        exact hnd.1 (List.mem_map.2 ⟨sel, h, h1.symm⟩)
      simp only [List.find?_cons, decide_eq_false hne]
      exact ih hnd.2 h

theorem selectionRowAfter_id (ev : PickableSelection → String × Int)
    (sels : List PickableSelection) (s : PickableSelection) :
    (selectionRowAfter ev sels s).id = s.id := by
  unfold selectionRowAfter
  split <;> rfl

theorem find_selectionsAfter (ev : PickableSelection → String × Int)
    (sels rows : List PickableSelection) (x : Nat) :
    (selectionsAfter ev sels rows).find? (fun s => decide (s.id = x)) =
      (rows.find? (fun s => decide (s.id = x))).map (selectionRowAfter ev sels) := by
  unfold selectionsAfter
  induction rows with
  | nil => rfl
  | cons a rest ih =>
    by_cases ha : a.id = x
    · simp only [List.map_cons, List.find?_cons, selectionRowAfter_id, decide_eq_true ha,
        Option.map_some']
    · simp only [List.map_cons, List.find?_cons, selectionRowAfter_id, decide_eq_false ha]
      exact ih

/-- The status stored for a selection of the event after a settlement on a
store that does not fail is the status computed for it. -/
theorem selectionStatus_settled (mkSlug : String → String) (db : Store) (eventID : Nat)
    (input : SetEventResultRequest) (event : Event) (sel : PickableSelection)
    (hbind : bindSetEventResultRequest input = true)
    (hev : db.events.find? (fun e => decide (e.id = eventID)) = some event)
    (hst : event.status ≠ "completed")
    (hnote : 5 ≤ event.resultNote.utf8ByteSize)
    (hpk : (db.selections.map (fun s => s.id)).Nodup)
    (hsel : sel ∈ db.selections) (hse : sel.eventID = eventID) :
    selectionStatus (SettleEvent mkSlug Faults.none db eventID input).2 sel.id =
      some (settlementOutcome db eventID input sel).1 := by
  rw [SettleEvent_none mkSlug db eventID input event hbind hev hst hnote hpk]
  unfold selectionStatus
  simp only []
  rw [find_selectionsAfter, find_selection_of_nodup _ hpk sel hsel]
  have hmem : sel ∈ db.selections.filter (fun s => decide (s.eventID = eventID)) :=
    List.mem_filter.2 ⟨hsel, decide_eq_true hse⟩
  rw [Option.map_some']
  unfold selectionRowAfter
  rw [find_selection_of_nodup _ (nodup_filter_ids _ hpk _) sel hmem]
  rfl

theorem lookup_of_filter_singleton (x : Nat) (r : CompetitorResult)
    (results : List CompetitorResult) :
    ∀ m : List (Nat × CompetitorResult),
      results.filter (fun e => decide (e.competitorID = x)) = [r] →
        (results.foldl (fun m res => (res.competitorID, res) :: m) m).lookup x = some r := by
  induction results with
  | nil => intro m h; simp at h
  | cons a rest ih =>
    intro m h
    simp only [List.foldl_cons]
    by_cases ha : a.competitorID = x
    · simp only [List.filter_cons, decide_eq_true ha, if_true] at h
      have h1 : a = r := (List.cons.inj h).1
      have h2 : rest.filter (fun e => decide (e.competitorID = x)) = [] := (List.cons.inj h).2
      have hnot : x ∉ rest.map (fun e => e.competitorID) := by
        intro hx
        obtain ⟨e, he, hex⟩ := List.mem_map.1 hx
        have : e ∈ rest.filter (fun e => decide (e.competitorID = x)) :=
          List.mem_filter.2 ⟨he, decide_eq_true hex⟩
        rw [h2] at this
        cases this
      rw [lookup_foldl_of_not_mem rest x hnot, ← h1, ← ha]
      simp [List.lookup]
    · simp only [List.filter_cons, decide_eq_false ha, Bool.false_eq_true, if_false] at h
      exact ih _ h

/-! ## Evaluation of the selections (C1 to C4) -/

theorem wrap64_of_range (x : Int) (h1 : -(2 ^ 63) ≤ x) (h2 : x < 2 ^ 63) : wrap64 x = x := by
  unfold wrap64
  rw [Int.emod_eq_of_lt (by omega) (by omega)]
  omega

theorem roundTo53_of_lt (a : Nat) (h : a < 2 ^ 53) : roundTo53 a = a := by
  unfold roundTo53
  have he : float64Exponent 11 a = 0 := by
    unfold float64Exponent
    rw [if_pos h]
  simp [he, Nat.mod_one]

/-- The conversion `float64(n)` is exact below `2 ^ 53`. -/
theorem toFloat64_of_lt (n : Int) (h : n.natAbs < 2 ^ 53) : toFloat64 n = (n : ℚ) := by
  unfold toFloat64
  rw [roundTo53_of_lt _ h]
  split_ifs with hn
  · rw [Nat.cast_natAbs]; simp [abs_of_neg hn]
  · rw [Nat.cast_natAbs]; simp [abs_of_nonneg (not_lt.mp hn)]

theorem roundFloat64Pos_nonneg (n d : Nat) : 0 ≤ roundFloat64Pos n d := by
  unfold roundFloat64Pos
  dsimp only
  split_ifs
  · exact Nat.cast_nonneg _
  · exact div_nonneg (Nat.cast_nonneg _) (Nat.cast_nonneg _)

/-- A float operation whose exact result is not negative gives a result that
is not negative. -/
theorem roundFloat64_nonneg (q : ℚ) (h : 0 ≤ q) : 0 ≤ roundFloat64 q := by
  unfold roundFloat64
  rw [if_neg (not_lt.2 h)]
  split_ifs
  · exact le_refl 0
  · exact roundFloat64Pos_nonneg _ _

/-- While no addition leaves the 64-bit range, the running total is the exact
sum. -/
theorem foldl_wrap64_of_range (results : List CompetitorResult) :
    ∀ total : Int, runningSumsInRange total results = true →
      results.foldl (fun t res => wrap64 (t + res.finalScore)) total
        = total + scoreSum results := by
  induction results with
  | nil => intro total _; simp [scoreSum]
  | cons r rest ih =>
    intro total h
    simp only [runningSumsInRange, Bool.and_eq_true, decide_eq_true_eq] at h
    rw [List.foldl_cons, wrap64_of_range _ h.1.1 h.1.2, ih _ h.2]
    simp [scoreSum, add_assoc]

theorem totalScoreOf_of_range (results : List CompetitorResult)
    (h : runningSumsInRange 0 results = true) : totalScoreOf results = scoreSum results := by
  unfold totalScoreOf
  rw [foldl_wrap64_of_range results 0 h, zero_add]

/-- The branch "alta" of the switch. -/
theorem evaluateSelection_alta (competitors : List EventCompetitor)
    (m : List (Nat × CompetitorResult)) (total : Int) (sel : PickableSelection)
    (htype : sel.selectionType = "alta") :
    evaluateSelection competitors m total sel =
      (if toFloat64 total > sel.line then ("won", sel.pointsForWin)
        else if toFloat64 total = sel.line then ("push", sel.pointsForPush)
        else ("lost", 0)) := by
  simp only [evaluateSelection, if_pos htype]

/-- The branch "baja" of the switch. -/
theorem evaluateSelection_baja (competitors : List EventCompetitor)
    (m : List (Nat × CompetitorResult)) (total : Int) (sel : PickableSelection)
    (htype : sel.selectionType = "baja") :
    evaluateSelection competitors m total sel =
      (if toFloat64 total < sel.line then ("won", sel.pointsForWin)
        else if toFloat64 total = sel.line then ("push", sel.pointsForPush)
        else ("lost", 0)) := by
  have hna : ¬ sel.selectionType = "alta" := by rw [htype]; decide
  simp only [evaluateSelection, if_neg hna, if_pos htype]

/-- The branch "macho", "hembra", "ganador" of the switch, on the map that the
loop of step 2 builds from a results list with pairwise distinct competitor
ids. -/
theorem evaluateSelection_winner (competitors : List EventCompetitor)
    (results : List CompetitorResult) (total : Int) (sel : PickableSelection)
    (hnd : (results.map (fun r => r.competitorID)).Nodup)
    (htype : sel.selectionType = "macho" ∨ sel.selectionType = "hembra"
      ∨ sel.selectionType = "ganador") :
    ((∃ cid r, sel.competitorID = some cid ∧ r ∈ results ∧ r.competitorID = cid
        ∧ r.position = 1) →
      evaluateSelection competitors (competitorResultsMap results) total sel
        = ("won", sel.pointsForWin)) ∧
    ((¬ ∃ cid r, sel.competitorID = some cid ∧ r ∈ results ∧ r.competitorID = cid
        ∧ r.position = 1) →
      evaluateSelection competitors (competitorResultsMap results) total sel
        = ("lost", 0)) := by
  have hna : ¬ sel.selectionType = "alta" := by
    rcases htype with h | h | h <;> rw [h] <;> decide
  have hnb : ¬ sel.selectionType = "baja" := by
    rcases htype with h | h | h <;> rw [h] <;> decide
  refine ⟨?_, ?_⟩
  · rintro ⟨cid, r, hc, hr, hrc, hpos⟩
    subst hrc
    have hl := lookup_foldl_complete results hnd r hr []
    simp only [evaluateSelection, if_neg hna, if_neg hnb, if_pos htype, hc,
      competitorResultsMap, hl, if_pos hpos]
  · intro hno
    simp only [evaluateSelection, if_neg hna, if_neg hnb, if_pos htype,
      competitorResultsMap]
    cases hc : sel.competitorID with
    | none => rfl
    | some cid =>
      simp only []
      cases hl : (results.foldl (fun m res => (res.competitorID, res) :: m) []).lookup cid with
      | none => rfl
      | some r =>
        simp only []
        by_cases hpos : r.position = 1
        · rcases lookup_foldl_sound results cid r [] hl with h | h
          · exact absurd ⟨cid, r, hc, h.1, h.2, hpos⟩ hno
          · simp [List.lookup] at h
        · rw [if_neg hpos]

/-- The branch "empate" of the switch, on the map that the loop of step 2
builds from the results list. -/
theorem evaluateSelection_tie (results : List CompetitorResult) (total : Int)
    (sel : PickableSelection) (htype : sel.selectionType = "empate") :
    (∀ c1 c2 r1 r2,
      results.filter (fun r => decide (r.competitorID = c1.id)) = [r1] →
      results.filter (fun r => decide (r.competitorID = c2.id)) = [r2] →
      evaluateSelection [c1, c2] (competitorResultsMap results) total sel =
        (if r1.finalScore = r2.finalScore then ("won", sel.pointsForWin) else ("lost", 0))) ∧
    (∀ (competitors : List EventCompetitor) (m : List (Nat × CompetitorResult)),
      competitors.length ≠ 2 → evaluateSelection competitors m total sel = ("lost", 0)) := by
  have hna : ¬ sel.selectionType = "alta" := by rw [htype]; decide
  have hnb : ¬ sel.selectionType = "baja" := by rw [htype]; decide
  have hnw : ¬ (sel.selectionType = "macho" ∨ sel.selectionType = "hembra"
      ∨ sel.selectionType = "ganador") := by rw [htype]; decide
  refine ⟨?_, ?_⟩
  · intro c1 c2 r1 r2 h1 h2
    have hl1 := lookup_of_filter_singleton c1.id r1 results [] h1
    have hl2 := lookup_of_filter_singleton c2.id r2 results [] h2
    simp only [evaluateSelection, if_neg hna, if_neg hnb, if_neg hnw,
      if_pos htype, finalScoreOf, competitorResultsMap, hl1, hl2]
  · intro competitors m hlen
    simp only [evaluateSelection, if_neg hna, if_neg hnb, if_neg hnw, if_pos htype]
    split
    · rename_i c1 c2
      exact absurd rfl hlen
    · rfl

/-- The map and the total that the loop of step 2 hands to the evaluation,
whichever writes of the loop the store refuses: when the loop does not return
early they are the map of the whole results list and its 64-bit total. -/
theorem applyResults_outcome (f : Faults) (eventID : Nat) (results : List CompetitorResult)
    (tx : Store) (out : List (Nat × CompetitorResult) × Int × Store)
    (h : applyResults f eventID results [] 0 tx = some out) :
    out.1 = competitorResultsMap results ∧ out.2.1 = totalScoreOf results := by
  obtain ⟨h1, h2, _, _⟩ := applyResults_some f eventID results [] 0 tx out h
  exact ⟨h1, h2⟩

/-- The status stored for an "alta" or "baja" selection of the event by a
settlement on a store that does not fail, in terms of `float64(totalScore)`. -/
theorem SettleEvent_over_under_stored (mkSlug : String → String) (db : Store) (eventID : Nat)
    (input : SetEventResultRequest) (event : Event) (sel : PickableSelection)
    (hbind : bindSetEventResultRequest input = true)
    (hev : db.events.find? (fun e => decide (e.id = eventID)) = some event)
    (hst : event.status ≠ "completed")
    (hnote : 5 ≤ event.resultNote.utf8ByteSize)
    (hpk : (db.selections.map (fun s => s.id)).Nodup)
    (hsel : sel ∈ db.selections) (hse : sel.eventID = eventID) :
    (SettleEvent mkSlug Faults.none db eventID input).1 = settledResponse ∧
    (sel.selectionType = "alta" →
      selectionStatus (SettleEvent mkSlug Faults.none db eventID input).2 sel.id =
        some (if toFloat64 (totalScoreOf input.results) > sel.line then "won"
          else if toFloat64 (totalScoreOf input.results) = sel.line then "push" else "lost")) ∧
    (sel.selectionType = "baja" →
      selectionStatus (SettleEvent mkSlug Faults.none db eventID input).2 sel.id =
        some (if toFloat64 (totalScoreOf input.results) < sel.line then "won"
          else if toFloat64 (totalScoreOf input.results) = sel.line then "push" else "lost")) := by
  refine ⟨?_, ?_, ?_⟩
  · rw [SettleEvent_none mkSlug db eventID input event hbind hev hst hnote hpk]
  · intro htype
    rw [selectionStatus_settled mkSlug db eventID input event sel hbind hev hst hnote hpk hsel hse]
    simp only [settlementOutcome, evaluateSelection, if_pos htype]
    split_ifs <;> rfl
  · intro htype
    have hna : ¬ sel.selectionType = "alta" := by rw [htype]; decide
    rw [selectionStatus_settled mkSlug db eventID input event sel hbind hev hst hnote hpk hsel hse]
    simp only [settlementOutcome, evaluateSelection, if_neg hna, if_pos htype]
    split_ifs <;> rfl

/-- C1, counterexample: the total is a Go `int` and is compared as a
`float64`.  With final scores `2 ^ 63 - 1` and 1 the sum S is `2 ^ 63`, above
the line 2.5, yet the second addition wraps to `-2 ^ 63` and the settlement
stores the "alta" selection as lost and the "baja" selection as won; and a
total of `2 ^ 53 + 1` is compared as `2 ^ 53`, so an "alta" selection with
line `2 ^ 53` is a push although S > line. -/
theorem SettleEvent_over_under_out_of_range :
    bindSetEventResultRequest overflowRequest = true ∧
    scoreSum overflowRequest.results = 2 ^ 63 ∧
    sampleAlta.line = 5 / 2 ∧ sampleBaja.line = 5 / 2 ∧
    totalScoreOf overflowRequest.results = -(2 ^ 63) ∧
    (SettleEvent id Faults.none sampleStore 1 overflowRequest).1 = settledResponse ∧
    selectionStatus (SettleEvent id Faults.none sampleStore 1 overflowRequest).2 sampleAlta.id
      = some "lost" ∧
    selectionStatus (SettleEvent id Faults.none sampleStore 1 overflowRequest).2 sampleBaja.id
      = some "won" ∧
    toFloat64 (2 ^ 53 + 1) = 2 ^ 53 ∧
    evaluateSelection [] [] (2 ^ 53 + 1) { sampleAlta with line := 2 ^ 53 }
      = ("push", sampleAlta.pointsForPush) := by
  refine ⟨by decide, by decide, by decide!, by decide!, by decide, by decide!, by decide!,
    by decide!, ?_, ?_⟩
  · have h : toFloat64 (2 ^ 53 + 1) = 9007199254740992 := by decide!
    rw [h]; norm_num
  · have h : evaluateSelection [] [] (2 ^ 53 + 1)
        { sampleAlta with line := 9007199254740992 } = ("push", sampleAlta.pointsForPush) := by
      decide!
    have h2 : (2 ^ 53 : ℚ) = 9007199254740992 := by norm_num
    rw [h2]; exact h

/-- C1 (amended): let S be the exact sum of `final_score` over the results
list, and let every running total of the loop stay in the range of a Go `int`
and |S| be below `2 ^ 53`.  Then (1) whichever writes the store refuses, the
total that the loop of step 2 hands to the evaluation is S; (2) the switch
resolves an "alta" selection to won if S > line, to push if S = line and to
lost otherwise, and a "baja" selection to won if S < line, to push if S = line
and to lost otherwise, with the points of that status; (3) on a store that
does not fail, a settlement of an existing, not yet completed event with a
result note, whose request passes binding, succeeds and stores these statuses
for the selections of the event. -/
theorem SettleEvent_over_under (results : List CompetitorResult) (sel : PickableSelection)
    (hrange : runningSumsInRange 0 results = true)
    (hexact : (scoreSum results).natAbs < 2 ^ 53) :
    (∀ (f : Faults) (eventID : Nat) (tx : Store)
        (out : List (Nat × CompetitorResult) × Int × Store),
        applyResults f eventID results [] 0 tx = some out → out.2.1 = scoreSum results) ∧
    (∀ (competitors : List EventCompetitor) (m : List (Nat × CompetitorResult)),
      (sel.selectionType = "alta" →
        evaluateSelection competitors m (scoreSum results) sel =
          (if (scoreSum results : ℚ) > sel.line then ("won", sel.pointsForWin)
            else if (scoreSum results : ℚ) = sel.line then ("push", sel.pointsForPush)
            else ("lost", 0))) ∧
      (sel.selectionType = "baja" →
        evaluateSelection competitors m (scoreSum results) sel =
          (if (scoreSum results : ℚ) < sel.line then ("won", sel.pointsForWin)
            else if (scoreSum results : ℚ) = sel.line then ("push", sel.pointsForPush)
            else ("lost", 0)))) ∧
    (∀ (mkSlug : String → String) (db : Store) (eventID : Nat) (event : Event),
      bindSetEventResultRequest ⟨results⟩ = true →
      db.events.find? (fun e => decide (e.id = eventID)) = some event →
      event.status ≠ "completed" →
      5 ≤ event.resultNote.utf8ByteSize →
      (db.selections.map (fun s => s.id)).Nodup →
      sel ∈ db.selections → sel.eventID = eventID →
      (SettleEvent mkSlug Faults.none db eventID ⟨results⟩).1 = settledResponse ∧
      (sel.selectionType = "alta" →
        selectionStatus (SettleEvent mkSlug Faults.none db eventID ⟨results⟩).2 sel.id =
          some (if (scoreSum results : ℚ) > sel.line then "won"
            else if (scoreSum results : ℚ) = sel.line then "push" else "lost")) ∧
      (sel.selectionType = "baja" →
        selectionStatus (SettleEvent mkSlug Faults.none db eventID ⟨results⟩).2 sel.id =
          some (if (scoreSum results : ℚ) < sel.line then "won"
            else if (scoreSum results : ℚ) = sel.line then "push" else "lost"))) := by
  have htot := totalScoreOf_of_range results hrange
  have hfl := toFloat64_of_lt (scoreSum results) hexact
  refine ⟨?_, ?_, ?_⟩
  · intro f eventID tx out h
    rw [(applyResults_outcome f eventID results tx out h).2, htot]
  · intro competitors m
    refine ⟨fun htype => ?_, fun htype => ?_⟩
    · rw [evaluateSelection_alta competitors m _ sel htype, hfl]
    · rw [evaluateSelection_baja competitors m _ sel htype, hfl]
  · intro mkSlug db eventID event hbind hev hst hnote hpk hsel hse
    have h := SettleEvent_over_under_stored mkSlug db eventID ⟨results⟩ event sel hbind hev hst
      hnote hpk hsel hse
    simp only [htot, hfl] at h
    exact h

/-- Witness of C1: the scenario of the spec, line 2.5 and final scores 2 and
1; the total is 3, the "alta" selection is evaluated and stored as won. -/
theorem SettleEvent_over_under_witness :
    (runningSumsInRange 0 sampleRequest.results = true ∧
      (scoreSum sampleRequest.results).natAbs < 2 ^ 53) ∧
    evaluateSelection [] [] (scoreSum sampleRequest.results) sampleAlta
      = ("won", sampleAlta.pointsForWin) ∧
    (SettleEvent id Faults.none sampleStore 1 sampleRequest).1 = settledResponse ∧
    selectionStatus (SettleEvent id Faults.none sampleStore 1 sampleRequest).2 sampleAlta.id
      = some "won" := by
  have hA := SettleEvent_over_under sampleRequest.results sampleAlta (by decide) (by decide)
  have h3 := hA.2.2 id sampleStore 1 sampleEvent (by decide) (by decide) (by decide)
    (by decide) (by decide) (by simp [sampleStore]) rfl
  refine ⟨⟨by decide, by decide⟩, ?_, h3.1, ?_⟩
  · exact ((hA.2.1 [] []).1 rfl).trans (by decide!)
  · exact (h3.2.1 rfl).trans (by decide!)

/-- The status stored for a "macho", "hembra" or "ganador" selection of the
event by a settlement on a store that does not fail. -/
theorem SettleEvent_winner_stored (mkSlug : String → String) (db : Store) (eventID : Nat)
    (input : SetEventResultRequest) (event : Event) (sel : PickableSelection)
    (hbind : bindSetEventResultRequest input = true)
    (hev : db.events.find? (fun e => decide (e.id = eventID)) = some event)
    (hst : event.status ≠ "completed")
    (hnote : 5 ≤ event.resultNote.utf8ByteSize)
    (hpk : (db.selections.map (fun s => s.id)).Nodup)
    (hsel : sel ∈ db.selections) (hse : sel.eventID = eventID)
    (hnd : (input.results.map (fun r => r.competitorID)).Nodup)
    (htype : sel.selectionType = "macho" ∨ sel.selectionType = "hembra"
      ∨ sel.selectionType = "ganador") :
    (SettleEvent mkSlug Faults.none db eventID input).1 = settledResponse ∧
    ((∃ cid r, sel.competitorID = some cid ∧ r ∈ input.results ∧ r.competitorID = cid
        ∧ r.position = 1) →
      selectionStatus (SettleEvent mkSlug Faults.none db eventID input).2 sel.id
        = some "won") ∧
    ((¬ ∃ cid r, sel.competitorID = some cid ∧ r ∈ input.results ∧ r.competitorID = cid
        ∧ r.position = 1) →
      selectionStatus (SettleEvent mkSlug Faults.none db eventID input).2 sel.id
        = some "lost") := by
  have hev2 := evaluateSelection_winner
    (db.competitors.filter (fun c => decide (c.eventID = eventID))) input.results
    (totalScoreOf input.results) sel hnd htype
  rw [selectionStatus_settled mkSlug db eventID input event sel hbind hev hst hnote hpk hsel hse]
  refine ⟨?_, ?_, ?_⟩
  · rw [SettleEvent_none mkSlug db eventID input event hbind hev hst hnote hpk]
  · intro h
    unfold settlementOutcome
    rw [hev2.1 h]
  · intro h
    unfold settlementOutcome
    rw [hev2.2 h]

/-- C2: for a results list with pairwise distinct competitor ids and a
selection of type "macho", "hembra" or "ganador": (1) on the map that the loop
of step 2 builds from the results list, for every list of competitors and
every total, the switch resolves the selection to won with `points_for_win`
if the selection references a competitor for which the results list has an
entry with position 1, and to lost with 0 points in every other case; (2)
whichever writes the store refuses, the map that the loop hands to the
evaluation is that map; (3) on a store that does not fail, a settlement of an
existing, not yet completed event with a result note, whose request passes
binding, succeeds and stores that status for a selection of the event. -/
theorem SettleEvent_winner (results : List CompetitorResult) (sel : PickableSelection)
    (hnd : (results.map (fun r => r.competitorID)).Nodup)
    (htype : sel.selectionType = "macho" ∨ sel.selectionType = "hembra"
      ∨ sel.selectionType = "ganador") :
    (∀ (competitors : List EventCompetitor) (total : Int),
      ((∃ cid r, sel.competitorID = some cid ∧ r ∈ results ∧ r.competitorID = cid
          ∧ r.position = 1) →
        evaluateSelection competitors (competitorResultsMap results) total sel
          = ("won", sel.pointsForWin)) ∧
      ((¬ ∃ cid r, sel.competitorID = some cid ∧ r ∈ results ∧ r.competitorID = cid
          ∧ r.position = 1) →
        evaluateSelection competitors (competitorResultsMap results) total sel
          = ("lost", 0))) ∧
    (∀ (f : Faults) (eventID : Nat) (tx : Store)
        (out : List (Nat × CompetitorResult) × Int × Store),
        applyResults f eventID results [] 0 tx = some out →
          out.1 = competitorResultsMap results) ∧
    (∀ (mkSlug : String → String) (db : Store) (eventID : Nat) (event : Event),
      bindSetEventResultRequest ⟨results⟩ = true →
      db.events.find? (fun e => decide (e.id = eventID)) = some event →
      event.status ≠ "completed" →
      5 ≤ event.resultNote.utf8ByteSize →
      (db.selections.map (fun s => s.id)).Nodup →
      sel ∈ db.selections → sel.eventID = eventID →
      (SettleEvent mkSlug Faults.none db eventID ⟨results⟩).1 = settledResponse ∧
      ((∃ cid r, sel.competitorID = some cid ∧ r ∈ results ∧ r.competitorID = cid
          ∧ r.position = 1) →
        selectionStatus (SettleEvent mkSlug Faults.none db eventID ⟨results⟩).2 sel.id
          = some "won") ∧
      ((¬ ∃ cid r, sel.competitorID = some cid ∧ r ∈ results ∧ r.competitorID = cid
          ∧ r.position = 1) →
        selectionStatus (SettleEvent mkSlug Faults.none db eventID ⟨results⟩).2 sel.id
          = some "lost")) := by
  refine ⟨?_, ?_, ?_⟩
  · intro competitors total
    exact evaluateSelection_winner competitors results total sel hnd htype
  · intro f eventID tx out h
    exact (applyResults_outcome f eventID results tx out h).1
  · intro mkSlug db eventID event hbind hev hst hnote hpk hsel hse
    exact SettleEvent_winner_stored mkSlug db eventID ⟨results⟩ event sel hbind hev hst hnote
      hpk hsel hse hnd htype

/-- Witness of C2: competitor 1 finishes first, the "macho" selection on it is
evaluated as won and stored as won. -/
theorem SettleEvent_winner_witness :
    ((sampleRequest.results.map (fun r => r.competitorID)).Nodup ∧
      sampleMacho.selectionType = "macho") ∧
    evaluateSelection [] (competitorResultsMap sampleRequest.results) 0 sampleMacho
      = ("won", sampleMacho.pointsForWin) ∧
    (SettleEvent id Faults.none sampleStore 1 sampleRequest).1 = settledResponse ∧
    selectionStatus (SettleEvent id Faults.none sampleStore 1 sampleRequest).2 sampleMacho.id
      = some "won" := by
  have h := SettleEvent_winner sampleRequest.results sampleMacho (by decide) (Or.inl rfl)
  have hex : ∃ cid r, sampleMacho.competitorID = some cid ∧ r ∈ sampleRequest.results ∧
      r.competitorID = cid ∧ r.position = 1 :=
    ⟨1, ⟨1, 2, 1⟩, rfl, by simp [sampleRequest], rfl, rfl⟩
  have h3 := h.2.2 id sampleStore 1 sampleEvent (by decide) (by decide) (by decide)
    (by decide) (by decide) (by simp [sampleStore]) rfl
  exact ⟨⟨by decide, rfl⟩, (h.1 [] 0).1 hex, h3.1, h3.2.1 hex⟩

/-- The status stored for an "empate" selection of the event by a settlement
on a store that does not fail. -/
theorem SettleEvent_tie_stored (mkSlug : String → String) (db : Store) (eventID : Nat)
    (input : SetEventResultRequest) (event : Event) (sel : PickableSelection)
    (hbind : bindSetEventResultRequest input = true)
    (hev : db.events.find? (fun e => decide (e.id = eventID)) = some event)
    (hst : event.status ≠ "completed")
    (hnote : 5 ≤ event.resultNote.utf8ByteSize)
    (hpk : (db.selections.map (fun s => s.id)).Nodup)
    (hsel : sel ∈ db.selections) (hse : sel.eventID = eventID)
    (htype : sel.selectionType = "empate") :
    (SettleEvent mkSlug Faults.none db eventID input).1 = settledResponse ∧
    (∀ c1 c2 r1 r2,
      db.competitors.filter (fun c => decide (c.eventID = eventID)) = [c1, c2] →
      input.results.filter (fun r => decide (r.competitorID = c1.id)) = [r1] →
      input.results.filter (fun r => decide (r.competitorID = c2.id)) = [r2] →
      selectionStatus (SettleEvent mkSlug Faults.none db eventID input).2 sel.id =
        some (if r1.finalScore = r2.finalScore then "won" else "lost")) ∧
    ((db.competitors.filter (fun c => decide (c.eventID = eventID))).length ≠ 2 →
      selectionStatus (SettleEvent mkSlug Faults.none db eventID input).2 sel.id
        = some "lost") := by
  have hev2 := evaluateSelection_tie input.results (totalScoreOf input.results) sel htype
  rw [selectionStatus_settled mkSlug db eventID input event sel hbind hev hst hnote hpk hsel hse]
  refine ⟨?_, ?_, ?_⟩
  · rw [SettleEvent_none mkSlug db eventID input event hbind hev hst hnote hpk]
  · intro c1 c2 r1 r2 hc h1 h2
    unfold settlementOutcome
    rw [hc, hev2.1 c1 c2 r1 r2 h1 h2]
    split_ifs <;> rfl
  · intro hlen
    unfold settlementOutcome
    rw [hev2.2 _ _ hlen]

/-- C3: for an "empate" selection: (1) on the map that the loop of step 2
builds from the results list, for an event with exactly two competitors and a
results list with exactly one entry for each of them, the switch resolves the
selection to won with `points_for_win` if the two submitted final scores are
equal and to lost with 0 points otherwise, and for a list of competitors whose
length is not 2 it resolves it to lost with 0 points, on every map and total;
(2) whichever writes the store refuses, the map that the loop hands to the
evaluation is that map; (3) on a store that does not fail, a settlement of an
existing, not yet completed event with a result note, whose request passes
binding, succeeds and stores that status for a selection of the event, the
competitors being the rows of the event. -/
theorem SettleEvent_tie (results : List CompetitorResult) (sel : PickableSelection)
    (htype : sel.selectionType = "empate") :
    ((∀ (total : Int) (c1 c2 : EventCompetitor) (r1 r2 : CompetitorResult),
        results.filter (fun r => decide (r.competitorID = c1.id)) = [r1] →
        results.filter (fun r => decide (r.competitorID = c2.id)) = [r2] →
        evaluateSelection [c1, c2] (competitorResultsMap results) total sel =
          (if r1.finalScore = r2.finalScore then ("won", sel.pointsForWin)
            else ("lost", 0))) ∧
      (∀ (total : Int) (competitors : List EventCompetitor)
        (m : List (Nat × CompetitorResult)),
        competitors.length ≠ 2 → evaluateSelection competitors m total sel = ("lost", 0))) ∧
    (∀ (f : Faults) (eventID : Nat) (tx : Store)
        (out : List (Nat × CompetitorResult) × Int × Store),
        applyResults f eventID results [] 0 tx = some out →
          out.1 = competitorResultsMap results) ∧
    (∀ (mkSlug : String → String) (db : Store) (eventID : Nat) (event : Event),
      bindSetEventResultRequest ⟨results⟩ = true →
      db.events.find? (fun e => decide (e.id = eventID)) = some event →
      event.status ≠ "completed" →
      5 ≤ event.resultNote.utf8ByteSize →
      (db.selections.map (fun s => s.id)).Nodup →
      sel ∈ db.selections → sel.eventID = eventID →
      (SettleEvent mkSlug Faults.none db eventID ⟨results⟩).1 = settledResponse ∧
      (∀ c1 c2 r1 r2,
        db.competitors.filter (fun c => decide (c.eventID = eventID)) = [c1, c2] →
        results.filter (fun r => decide (r.competitorID = c1.id)) = [r1] →
        results.filter (fun r => decide (r.competitorID = c2.id)) = [r2] →
        selectionStatus (SettleEvent mkSlug Faults.none db eventID ⟨results⟩).2 sel.id =
          some (if r1.finalScore = r2.finalScore then "won" else "lost")) ∧
      ((db.competitors.filter (fun c => decide (c.eventID = eventID))).length ≠ 2 →
        selectionStatus (SettleEvent mkSlug Faults.none db eventID ⟨results⟩).2 sel.id
          = some "lost")) := by
  refine ⟨⟨?_, ?_⟩, ?_, ?_⟩
  · intro total c1 c2 r1 r2 h1 h2
    exact (evaluateSelection_tie results total sel htype).1 c1 c2 r1 r2 h1 h2
  · intro total competitors m hlen
    exact (evaluateSelection_tie results total sel htype).2 competitors m hlen
  · intro f eventID tx out h
    exact (applyResults_outcome f eventID results tx out h).1
  · intro mkSlug db eventID event hbind hev hst hnote hpk hsel hse
    exact SettleEvent_tie_stored mkSlug db eventID ⟨results⟩ event sel hbind hev hst hnote
      hpk hsel hse htype

/-- Witness of C3: two competitors with final scores 1 and 1, the "empate"
selection is evaluated as won and stored as won. -/
theorem SettleEvent_tie_witness :
    sampleEmpate.selectionType = "empate" ∧
    evaluateSelection [sampleCompetitorA, sampleCompetitorB]
      (competitorResultsMap sampleDrawRequest.results) 0 sampleEmpate
      = ("won", sampleEmpate.pointsForWin) ∧
    (SettleEvent id Faults.none sampleStore 1 sampleDrawRequest).1 = settledResponse ∧
    selectionStatus (SettleEvent id Faults.none sampleStore 1 sampleDrawRequest).2
      sampleEmpate.id = some "won" := by
  have h := SettleEvent_tie sampleDrawRequest.results sampleEmpate rfl
  have h3 := h.2.2 id sampleStore 1 sampleEvent (by decide) (by decide) (by decide)
    (by decide) (by decide) (by simp [sampleStore]) rfl
  refine ⟨rfl, ?_, h3.1, ?_⟩
  · exact (h.1.1 0 sampleCompetitorA sampleCompetitorB ⟨1, 1, 1⟩ ⟨2, 1, 2⟩ (by decide)
      (by decide)).trans (by decide)
  · exact h3.2.1 sampleCompetitorA sampleCompetitorB ⟨1, 1, 1⟩ ⟨2, 1, 2⟩ (by decide) (by decide)
      (by decide)

/-- C4: for every selection, every results map and every total score, the
points computed together with the status are `points_for_win` when the status
is won, `points_for_push` when it is push and 0 when it is lost, and the
status is one of the three. -/
theorem evaluateSelection_points (competitors : List EventCompetitor)
    (competitorResults : List (Nat × CompetitorResult)) (totalScore : Int)
    (selection : PickableSelection) :
    ((evaluateSelection competitors competitorResults totalScore selection).1 = "won" ∧
      (evaluateSelection competitors competitorResults totalScore selection).2
        = selection.pointsForWin) ∨
    ((evaluateSelection competitors competitorResults totalScore selection).1 = "push" ∧
      (evaluateSelection competitors competitorResults totalScore selection).2
        = selection.pointsForPush) ∨
    ((evaluateSelection competitors competitorResults totalScore selection).1 = "lost" ∧
      (evaluateSelection competitors competitorResults totalScore selection).2 = 0) := by
  unfold evaluateSelection
  split_ifs
  all_goals first
    | exact Or.inl ⟨rfl, rfl⟩
    | exact Or.inr (Or.inl ⟨rfl, rfl⟩)
    | exact Or.inr (Or.inr ⟨rfl, rfl⟩)
    | skip
  · split
    · split
      · split_ifs
        · exact Or.inl ⟨rfl, rfl⟩
        · exact Or.inr (Or.inr ⟨rfl, rfl⟩)
      · exact Or.inr (Or.inr ⟨rfl, rfl⟩)
    · exact Or.inr (Or.inr ⟨rfl, rfl⟩)
  · split
    · split_ifs
      · exact Or.inl ⟨rfl, rfl⟩
      · exact Or.inr (Or.inr ⟨rfl, rfl⟩)
    · exact Or.inr (Or.inr ⟨rfl, rfl⟩)

/-! ## Guards, failures and propagation (C5 to C9) -/

/-- C5, as stated, fails: for a completed event and the empty results list the
handler stops at request binding and answers with the validation error, not
with the already-settled error. -/
theorem SettleEvent_completed_empty_results :
    eventStatus completedStore 1 = some "completed" ∧
    (SettleEvent id Faults.none completedStore 1 { results := [] }).1
      = invalidResultsResponse ∧
    (SettleEvent id Faults.none completedStore 1 { results := [] }).1
      ≠ alreadySettledResponse := by
  decide

/-- C5, amended: if the event is already `completed`, then for every results
list and every failure pattern of the store `SettleEvent` leaves the store
(competitors, selections, picks, participants, event) as it was, it answers
with the already-settled error when the request passes binding and with the
validation error when it does not. -/
theorem SettleEvent_completed (mkSlug : String → String) (f : Faults) (db : Store)
    (eventID : Nat) (input : SetEventResultRequest) (event : Event)
    (hev : db.events.find? (fun e => decide (e.id = eventID)) = some event)
    (hst : event.status = "completed") :
    (SettleEvent mkSlug f db eventID input).2 = db ∧
    (bindSetEventResultRequest input = true →
      (SettleEvent mkSlug f db eventID input).1 = alreadySettledResponse) ∧
    (bindSetEventResultRequest input = false →
      (SettleEvent mkSlug f db eventID input).1 = invalidResultsResponse) := by
  unfold SettleEvent
  cases hb : bindSetEventResultRequest input with
  | false => simp
  | true => simp [hev, hst]

/-- Witness of C5 amended: the completed sample event and the sample request. -/
theorem SettleEvent_completed_witness :
    (completedStore.events.find? (fun e => decide (e.id = 1))
        = some { sampleEvent with status := "completed" }) ∧
    (SettleEvent id Faults.none completedStore 1 sampleRequest).2 = completedStore ∧
    (SettleEvent id Faults.none completedStore 1 sampleRequest).1 = alreadySettledResponse :=
  ⟨by decide,
    (SettleEvent_completed id Faults.none completedStore 1 sampleRequest
      { sampleEvent with status := "completed" } (by decide) rfl).1,
    (SettleEvent_completed id Faults.none completedStore 1 sampleRequest
      { sampleEvent with status := "completed" } (by decide) rfl).2.1 (by decide)⟩

/-- C6 fails on the code: an event as `CreateEvent` stores it (no result
note), not completed, with a valid non-empty results list and a store that
does not fail; `Event.BeforeSave` rejects the save of step 5, the handler
answers 500 and the store is rolled back, so the event is not `completed`. -/
theorem SettleEvent_without_result_note :
    eventStatus freshStore 1 = some "scheduled" ∧
    bindSetEventResultRequest sampleRequest = true ∧
    SettleEvent id Faults.none freshStore 1 sampleRequest
      = (⟨500, "Error al finalizar el evento"⟩, freshStore) ∧
    eventStatus (SettleEvent id Faults.none freshStore 1 sampleRequest).2 1
      = some "scheduled" := by
  decide!

/-- Whatever the store does, a settlement of an event whose result note is
shorter than 5 bytes never succeeds and changes nothing. -/
theorem SettleEvent_short_note (mkSlug : String → String) (f : Faults) (db : Store)
    (eventID : Nat) (input : SetEventResultRequest) (event : Event)
    (hev : db.events.find? (fun e => decide (e.id = eventID)) = some event)
    (hnote : event.resultNote.utf8ByteSize < 5) :
    (SettleEvent mkSlug f db eventID input).1 ≠ settledResponse ∧
    (SettleEvent mkSlug f db eventID input).2 = db := by
  have hsave : ∀ tx : Store, saveEvent mkSlug f tx { event with status := "completed" } = none := by
    intro tx
    unfold saveEvent Event.BeforeSave
    by_cases hname : event.name = ""
    · simp [hname, hnote]
    · simp [hname, hnote]
  have hne : ∀ r : Response, r.status ≠ 200 → r ≠ settledResponse := by
    intro r hr h
    exact hr (by rw [h]; rfl)
  unfold SettleEvent
  simp only [hev, hsave]
  split_ifs
  · exact ⟨hne _ (by simp [invalidResultsResponse]), rfl⟩
  · exact ⟨hne _ (by simp [alreadySettledResponse]), rfl⟩
  · split
    · exact ⟨hne _ (by simp), rfl⟩
    · split <;> exact ⟨hne _ (by simp), rfl⟩

theorem settleSelections_participants (f : Faults) (competitors : List EventCompetitor)
    (m : List (Nat × CompetitorResult)) (total : Int) (sels : List PickableSelection) :
    ∀ tx out : Store,
      settleSelections f competitors m total sels tx = some out →
        out.participants =
          participantsAfter (evaluateSelection competitors m total) sels tx.picks
            tx.participants := by
  induction sels with
  | nil =>
    intro tx out h
    simp only [settleSelections, Option.some.injEq] at h
    subst h
    simp [participantsAfter, pointsGained]
  | cons e rest ih =>
    intro tx out h
    by_cases hpos : (evaluateSelection competitors m total e).2 > 0
    · simp only [settleSelections, if_pos hpos, updateUserPicksAndPoints] at h
      split_ifs at h
      all_goals
        simp only [] at h
        rw [ih _ out h, ← participantsAfter_cons_pos _ e rest hpos]
    · simp only [settleSelections, if_neg hpos] at h
      rw [← participantsAfter_cons_nonpos _ e rest hpos]
      split_ifs at h
      all_goals
        have h2 := ih _ out h
        exact h2

theorem saveEvent_participants (mkSlug : String → String) (f : Faults) (tx out : Store)
    (e : Event) (h : saveEvent mkSlug f tx e = some out) :
    out.participants = tx.participants := by
  unfold saveEvent at h
  split at h
  · cases h
  · split_ifs at h
    cases h
    rfl

/-- C7: after every successful `SettleEvent`, whatever the store did on the
way, every participant row carries its former `total_points` plus the sum of
the points of the selections of the event whose points are positive and that
at least one of its picks references; a participant without a pick on such a
selection gains 0. -/
theorem SettleEvent_total_points (mkSlug : String → String) (f : Faults) (db : Store)
    (eventID : Nat) (input : SetEventResultRequest)
    (hok : (SettleEvent mkSlug f db eventID input).1 = settledResponse) :
    (SettleEvent mkSlug f db eventID input).2.participants =
      db.participants.map (fun p =>
        { p with totalPoints := (p.totalPoints +
            pointsGained (settlementOutcome db eventID input)
              (db.selections.filter (fun s => decide (s.eventID = eventID))) db.picks p.id) }) ∧
    (∀ pid : Nat,
      (∀ s ∈ db.selections, s.eventID = eventID →
        (settlementOutcome db eventID input s).2 > 0 →
          ∀ k ∈ db.picks, ¬ (k.selectionID = s.id ∧ k.participantID = pid)) →
      pointsGained (settlementOutcome db eventID input)
        (db.selections.filter (fun s => decide (s.eventID = eventID))) db.picks pid = 0) := by
  constructor
  · have hne : ∀ r : Response, r.status ≠ 200 → r ≠ settledResponse := by
      intro r hr h
      exact hr (by rw [h]; rfl)
    revert hok
    unfold SettleEvent
    split_ifs
    · intro h; exact absurd h (hne _ (by simp [invalidResultsResponse]))
    · split
      · intro h; exact absurd h (hne _ (by simp))
      · rename_i event hev
        have hid := find_event_id _ _ _ hev
        split_ifs
        · intro h; exact absurd h (hne _ (by simp [alreadySettledResponse]))
        · split
          · intro h; exact absurd h (hne _ (by simp))
          · rename_i m total tx1 hres
            obtain ⟨hm, htot, hpk, hpa⟩ := applyResults_some f _ _ _ _ _ _ hres
            simp only [] at hm htot hpk hpa
            dsimp only
            split
            · intro h; exact absurd h (hne _ (by simp))
            · rename_i tx2 hsel
              split
              · intro h; exact absurd h (hne _ (by simp))
              · rename_i tx3 hsave
                intro _
                simp only []
                rw [saveEvent_participants mkSlug f tx2 tx3 _ hsave,
                  settleSelections_participants f _ _ _ _ tx1 tx2 hsel, hpk, hpa, hm, htot, hid]
                rfl
  · intro pid hno
    unfold pointsGained
    have hnil : (db.selections.filter (fun s => decide (s.eventID = eventID))).filter
        (fun e => decide ((settlementOutcome db eventID input e).2 > 0) &&
          db.picks.any (fun k => decide (k.selectionID = e.id ∧ k.participantID = pid))) = [] := by
      rw [List.filter_eq_nil_iff]
      intro s hs
      have hs1 := List.mem_filter.1 hs
      have hse : s.eventID = eventID := of_decide_eq_true hs1.2
      intro hc
      rw [Bool.and_eq_true] at hc
      have hpos := of_decide_eq_true hc.1
      obtain ⟨k, hk, hkp⟩ := List.any_eq_true.1 hc.2
      exact hno s hs1.1 hse hpos k hk (of_decide_eq_true hkp)
    rw [hnil]
    rfl

/-- Witness of C7: participant 1 holds picks on the "alta" (3 points) and the
"macho" (5 points) selections, both won, and goes from 4 to 12; participant 2
holds a pick on the lost "baja" selection and stays at 6. -/
theorem SettleEvent_total_points_witness :
    (SettleEvent id Faults.none sampleStore 1 sampleRequest).1 = settledResponse ∧
    participantPoints sampleStore 1 = some 4 ∧
    participantPoints sampleStore 2 = some 6 ∧
    participantPoints (SettleEvent id Faults.none sampleStore 1 sampleRequest).2 1 = some 12 ∧
    participantPoints (SettleEvent id Faults.none sampleStore 1 sampleRequest).2 2 = some 6 := by
  have h := SettleEvent_total_points id Faults.none sampleStore 1 sampleRequest (by decide!)
  refine ⟨by decide!, by decide, by decide, ?_, ?_⟩
  · unfold participantPoints
    rw [h.1]
    decide!
  · unfold participantPoints
    rw [h.1]
    decide!

/-- C8 fails on the code: the settlement succeeds, the "baja" selection
(id 2) is stored as lost, and the pick that references it (id 3) keeps the
status `pending`, because the picks are written only when the points are
positive. -/
theorem SettleEvent_lost_pick_stays_pending :
    (SettleEvent id Faults.none sampleStore 1 sampleRequest).1 = settledResponse ∧
    selectionStatus (SettleEvent id Faults.none sampleStore 1 sampleRequest).2 2
      = some "lost" ∧
    (sampleStore.picks.find? (fun p => decide (p.id = 3))).map (fun p => p.selectionID)
      = some 2 ∧
    pickStatus (SettleEvent id Faults.none sampleStore 1 sampleRequest).2 3
      = some "pending" := by
  decide!

/-- C9 fails on the code: when the update of a selection status fails, the
error is not looked at; the handler goes on, commits and answers 200, the
event is `completed`, the pick on the "alta" selection is `won` and the
selection itself is still `pending`. -/
theorem SettleEvent_selection_update_failure :
    (SettleEvent id selectionUpdateFails sampleStore 1 sampleRequest).1 = settledResponse ∧
    (SettleEvent id selectionUpdateFails sampleStore 1 sampleRequest).2 ≠ sampleStore ∧
    eventStatus (SettleEvent id selectionUpdateFails sampleStore 1 sampleRequest).2 1
      = some "completed" ∧
    selectionStatus (SettleEvent id selectionUpdateFails sampleStore 1 sampleRequest).2 1
      = some "pending" ∧
    pickStatus (SettleEvent id selectionUpdateFails sampleStore 1 sampleRequest).2 1
      = some "won" ∧
    participantPoints (SettleEvent id selectionUpdateFails sampleStore 1 sampleRequest).2 1
      = some 12 := by
  decide!

/-- Every answer of `SettleEvent` other than the success answer comes with the
store it started from: the checked failures (competitor update, picks update,
points update, event save) roll the transaction back. -/
theorem SettleEvent_rollback (mkSlug : String → String) (f : Faults) (db : Store)
    (eventID : Nat) (input : SetEventResultRequest)
    (h : (SettleEvent mkSlug f db eventID input).1 ≠ settledResponse) :
    (SettleEvent mkSlug f db eventID input).2 = db := by
  revert h
  unfold SettleEvent
  split_ifs
  · intro _; rfl
  · split
    · intro _; rfl
    · split_ifs
      · intro _; rfl
      · split
        · intro _; rfl
        · dsimp only
          split
          · intro _; rfl
          · split
            · intro _; rfl
            · intro h; exact absurd rfl h

/-! ## Prize distribution (C10) -/

theorem prizeAt_of_le (t : Tournament) (i : Nat)
    (h : t.settings.prizeDistribution.length ≤ i) : prizeAt t i = 0 := by
  unfold prizeAt
  rw [List.getElem?_eq_none h]

theorem creditBalance_zero (b : ℚ) : creditBalance b 0 = b := by
  unfold creditBalance
  rw [if_neg (lt_irrefl 0)]

theorem prizeBalance_of_le (t : Tournament) (ws : List TournamentParticipant) (u : Nat) :
    ∀ (i : Nat) (b : ℚ), t.settings.prizeDistribution.length ≤ i →
      prizeBalance t i ws u b = b := by
  induction ws with
  | nil => intro i b _; rfl
  | cons w rest ih =>
    intro i b h
    simp only [prizeBalance, prizeAt_of_le t i h, creditBalance_zero, ite_self]
    exact ih (i + 1) b (Nat.le_succ_of_le h)

theorem prizeBalance_of_not_mem (t : Tournament) (ws : List TournamentParticipant) (u : Nat)
    (h : u ∉ ws.map (fun w => w.userID)) : ∀ (i : Nat) (b : ℚ), prizeBalance t i ws u b = b := by
  induction ws with
  | nil => intro i b; rfl
  | cons w rest ih =>
    intro i b
    simp only [List.map_cons, List.mem_cons, not_or] at h
    have hne : ¬ w.userID = u := fun h1 => h.1 h1.symm
    simp only [prizeBalance, if_neg hne]
    exact ih h.2 (i + 1) b

theorem prizeBalance_at (t : Tournament) (ws : List TournamentParticipant)
    (hnd : (ws.map (fun w => w.userID)).Nodup) :
    ∀ (i j : Nat) (w : TournamentParticipant) (b : ℚ), ws[j]? = some w →
      prizeBalance t i ws w.userID b = creditBalance b (prizeAt t (i + j)) := by
  induction ws with
  | nil => intro i j w b h; simp at h
  | cons a rest ih =>
    intro i j w b h
    simp only [List.map_cons, List.nodup_cons] at hnd
    cases j with
    | zero =>
      simp only [List.getElem?_cons_zero, Option.some.injEq] at h
      subst h
      simp only [prizeBalance, if_true, prizeBalance_of_not_mem t rest a.userID hnd.1, add_zero]
    | succ j =>
      simp only [List.getElem?_cons_succ] at h
      have hw : w.userID ∈ rest.map (fun w => w.userID) :=
        List.mem_map.2 ⟨w, List.getElem?_mem h, rfl⟩
      have hne : ¬ a.userID = w.userID := fun h1 => hnd.1 (h1 ▸ hw)
      simp only [prizeBalance, if_neg hne]
      rw [ih hnd.2 (i + 1) j w b h]
      congr 2
      omega

/-- The wallets table as the loop over the winners leaves it. -/
theorem distributePrizes_wallets (f : PrizeFaults) (clock : Nat → String) (t : Tournament)
    (ws : List TournamentParticipant) :
    ∀ (i : Nat) (tx tx2 : Store),
      distributePrizes f clock t (totalPotOf t) i ws tx = .ok tx2 →
      (tx.wallets.map (fun w => w.id)).Nodup →
      (tx.wallets.map (fun w => w.userID)).Nodup →
      tx2.tournaments = tx.tournaments ∧ tx2.participants = tx.participants ∧
      tx2.wallets = tx.wallets.map (fun w =>
        { w with balance := prizeBalance t i ws w.userID w.balance }) := by
  induction ws with
  | nil =>
    intro i tx tx2 h _ _
    simp only [distributePrizes, Except.ok.injEq] at h
    subst h
    simp [prizeBalance]
  | cons winner rest ih =>
    intro i tx tx2 h hid huid
    simp only [distributePrizes] at h
    cases hp : t.settings.prizeDistribution[i]? with
    | none =>
      simp only [hp, Except.ok.injEq] at h
      subst h
      have hle : t.settings.prizeDistribution.length ≤ i := by
        by_contra hlt
        rw [List.getElem?_eq_getElem (not_le.1 hlt)] at hp
        cases hp
      simp [prizeBalance_of_le t _ _ i _ hle]
    | some p =>
      simp only [hp] at h
      by_cases hpos : roundFloat64 (totalPotOf t * p) > 0
      · simp only [if_pos hpos] at h
        cases hfw : f.findWallet winner.userID with
        | true => simp [hfw] at h
        | false =>
          simp only [hfw, Bool.false_eq_true, if_false] at h
          cases hw : tx.wallets.find? (fun w => decide (w.userID = winner.userID)) with
          | none => simp [hw] at h
          | some wallet =>
            simp only [hw] at h
            cases hsw : saveWalletRow (f.saveWallet wallet.id) tx.wallets
                { wallet with
                  balance := roundFloat64 (wallet.balance + roundFloat64 (totalPotOf t * p)) } with
            | none => simp [hsw] at h
            | some rows =>
              simp only [hsw] at h
              have hrows : rows = tx.wallets.map (fun w => if w.id = wallet.id then
                    { wallet with
                      balance :=
                        roundFloat64 (wallet.balance + roundFloat64 (totalPotOf t * p)) }
                  else w) := by
                unfold saveWalletRow at hsw
                split_ifs at hsw
                cases hsw
                rfl
              subst hrows
              have hwm : wallet ∈ tx.wallets := List.mem_of_find?_eq_some hw
              have hwu : wallet.userID = winner.userID := by
                have := List.find?_some hw
                simpa using this
              have hpa : prizeAt t i = roundFloat64 (totalPotOf t * p) := by
                unfold prizeAt
                simp only [hp, if_pos hpos]
              have hmap : tx.wallets.map (fun w => if w.id = wallet.id then
                    { wallet with
                      balance :=
                        roundFloat64 (wallet.balance + roundFloat64 (totalPotOf t * p)) }
                  else w)
                  = tx.wallets.map (fun w => { w with balance :=
                      (if winner.userID = w.userID then creditBalance w.balance (prizeAt t i)
                        else w.balance) }) := by
                apply List.map_congr_left
                intro x hx
                by_cases hxi : x.id = wallet.id
                · have hxw : x = wallet := List.inj_on_of_nodup_map hid hx hwm hxi
                  subst hxw
                  simp only [if_true, if_pos hwu.symm, hpa, creditBalance, if_pos hpos]
                · have hxu : ¬ winner.userID = x.userID := by
                    intro h1
                    exact hxi (congrArg (fun w => w.id)
                      (List.inj_on_of_nodup_map huid hx hwm (h1.symm.trans hwu.symm)))
                  simp only [if_neg hxi, if_neg hxu]
              have hid2 : ((tx.wallets.map (fun w => { w with balance :=
                      (if winner.userID = w.userID then creditBalance w.balance (prizeAt t i)
                        else w.balance) })).map
                    (fun w => w.id)).Nodup := by
                rw [List.map_map]; exact hid
              have huid2 : ((tx.wallets.map (fun w => { w with balance :=
                      (if winner.userID = w.userID then creditBalance w.balance (prizeAt t i)
                        else w.balance) })).map
                    (fun w => w.userID)).Nodup := by
                rw [List.map_map]; exact huid
              rw [hmap] at h
              obtain ⟨h1, h2, h3⟩ := ih (i + 1) _ tx2 h hid2 huid2
              refine ⟨h1, h2, ?_⟩
              rw [h3, List.map_map]
              apply List.map_congr_left
              intro x _
              simp only [Function.comp, prizeBalance]
      · simp only [if_neg hpos] at h
        obtain ⟨h1, h2, h3⟩ := ih (i + 1) tx tx2 h hid huid
        refine ⟨h1, h2, ?_⟩
        rw [h3]
        apply List.map_congr_left
        intro x _
        have hpa : prizeAt t i = 0 := by
          unfold prizeAt
          simp only [hp, if_neg hpos]
        simp only [prizeBalance, hpa, creditBalance_zero, ite_self]

theorem saveTournament_wallets (mkSlug : String → String) (b : Bool) (tx : Store)
    (t : Tournament) : (saveTournament mkSlug b tx t).wallets = tx.wallets := by
  unfold saveTournament
  split
  · rfl
  · split <;> rfl

theorem find_tournament_replace (rows : List Tournament) (tid : Nat) (t0 t1 : Tournament)
    (h : rows.find? (fun r => decide (r.id = tid)) = some t0) (h1 : t1.id = tid) :
    (rows.map (fun r => if r.id = t1.id then t1 else r)).find? (fun r => decide (r.id = tid))
      = some t1 := by
  induction rows with
  | nil => simp at h
  | cons a rest ih =>
    by_cases ha : a.id = tid
    · have ha1 : a.id = t1.id := ha.trans h1.symm
      simp only [List.map_cons, if_pos ha1, List.find?_cons, decide_eq_true h1]
    · have ha1 : ¬ a.id = t1.id := fun h2 => ha (h2.trans h1)
      simp only [List.find?_cons, decide_eq_false ha] at h
      simp only [List.map_cons, if_neg ha1, List.find?_cons, decide_eq_false ha]
      exact ih h

theorem Tournament.BeforeSave_some (mkSlug : String → String) (t1 t2 : Tournament)
    (h : Tournament.BeforeSave mkSlug t1 = some t2) : t2.id = t1.id ∧ t2.status = t1.status := by
  unfold Tournament.BeforeSave at h
  by_cases hname : t1.name = ""
  · simp only [hname, ne_eq, not_true_eq_false, if_false] at h
    split_ifs at h
    cases h
    exact ⟨rfl, rfl⟩
  · simp only [ne_eq, hname, not_false_eq_true, if_true] at h
    split_ifs at h
    cases h
    exact ⟨rfl, rfl⟩

theorem saveTournament_status (mkSlug : String → String) (b : Bool) (tx : Store)
    (tid : Nat) (t0 t1 : Tournament)
    (h : tx.tournaments.find? (fun r => decide (r.id = tid)) = some t0) (h1 : t1.id = tid) :
    tournamentStatus (saveTournament mkSlug b tx t1) tid = some t0.status ∨
    tournamentStatus (saveTournament mkSlug b tx t1) tid = some t1.status := by
  unfold saveTournament
  cases hbs : Tournament.BeforeSave mkSlug t1 with
  | none => left; simp [tournamentStatus, h]
  | some t2 =>
    obtain ⟨hid2, hst2⟩ := Tournament.BeforeSave_some mkSlug t1 t2 hbs
    cases b with
    | true => left; simp [tournamentStatus, h]
    | false =>
      right
      simp only [Bool.false_eq_true, if_false, tournamentStatus]
      rw [find_tournament_replace _ tid t0 t2 h (hid2.trans h1), Option.map_some', hst2]

/-- The wallets table after a request that made the tournament `finished`. -/
theorem UpdateTournamentStatus_wallets (mkSlug : String → String) (clock : Nat → String)
    (f : PrizeFaults) (db : Store) (tid : Nat) (input : UpdateStatusRequest) (t : Tournament)
    (hfind : db.tournaments.find? (fun r => decide (r.id = tid)) = some t)
    (hstatus : t.status ≠ "finished")
    (hfin : tournamentStatus (UpdateTournamentStatus mkSlug clock f db tid input).2 tid
      = some "finished")
    (hwid : (db.wallets.map (fun w => w.id)).Nodup)
    (hwuser : (db.wallets.map (fun w => w.userID)).Nodup) :
    (UpdateTournamentStatus mkSlug clock f db tid input).2.wallets =
      db.wallets.map (fun w =>
        { w with balance := (prizeBalance t 0
            ((rankParticipants db.participants tid).take t.settings.prizeDistribution.length)
            w.userID w.balance) }) := by
  have hid : t.id = tid := by
    have := List.find?_some hfind
    simpa using this
  have hdb : tournamentStatus db tid = some t.status := by
    simp [tournamentStatus, hfind]
  have hne : some t.status ≠ some "finished" := fun h => hstatus (Option.some.inj h)
  revert hfin
  unfold UpdateTournamentStatus
  simp only [hfind]
  split_ifs with hb hc hl hfw
  · intro hfin
    exact absurd (hdb.symm.trans hfin) hne
  · intro hfin
    exact absurd (hdb.symm.trans hfin) hne
  · split
    · intro hfin
      exact absurd (hdb.symm.trans hfin) hne
    · rename_i tx hok
      intro _
      rw [saveTournament_wallets]
      rw [hid] at hok
      exact (distributePrizes_wallets f clock t _ 0 db tx hok hwid hwuser).2.2
  · intro _
    rw [saveTournament_wallets]
    have hnil : t.settings.prizeDistribution.length = 0 := by omega
    rw [hnil]
    simp [prizeBalance]
  · intro hfin
    have hin : ¬ input.status = "finished" := fun h1 => hc ⟨h1, hstatus⟩
    rcases saveTournament_status mkSlug f.saveTournament db tid t
        { t with status := input.status } hfind hid with h | h
    · exact absurd (h.symm.trans hfin) hne
    · exact absurd (Option.some.inj (h.symm.trans hfin)) hin

theorem find_wallet_map (g : Wallet → Wallet) (hg : ∀ w, (g w).userID = w.userID)
    (rows : List Wallet) (u : Nat) :
    (rows.map g).find? (fun w => decide (w.userID = u))
      = (rows.find? (fun w => decide (w.userID = u))).map g := by
  induction rows with
  | nil => rfl
  | cons a rest ih =>
    by_cases ha : a.userID = u
    · simp only [List.map_cons, List.find?_cons, hg, decide_eq_true ha, Option.map_some']
    · simp only [List.map_cons, List.find?_cons, hg, decide_eq_false ha]
      exact ih

theorem nodup_rankParticipants (rows : List TournamentParticipant) (tid : Nat)
    (h : ((rows.filter (fun p => decide (p.tournamentID = tid))).map
      (fun p => p.userID)).Nodup) :
    ((rankParticipants rows tid).map (fun p => p.userID)).Nodup := by
  unfold rankParticipants
  exact ((List.perm_insertionSort _ _).map _).nodup_iff.2 h

/-- C10, counterexample: prizes are computed and added as `float64`.  The
wallet holds the float nearest to 0.1, the pot is the float nearest to 0.2 and
the schedule is [1.0]: the prize is the pot, and the balance stored for the
winner is the float 0.30000000000000004, which is not the balance plus
pot × 1.0. -/
theorem UpdateTournamentStatus_prize_rounded :
    roundFloat64 float01 = float01 ∧ roundFloat64 float02 = float02 ∧
    walletBalance dimeStore 10 = some float01 ∧
    dimeTournament.prizePool + dimeTournament.prizeBonus = float02 ∧
    dimeTournament.settings.prizeDistribution = [1] ∧
    tournamentStatus
      (UpdateTournamentStatus id sampleClock PrizeFaults.none dimeStore 1 ⟨"finished"⟩).2 1
      = some "finished" ∧
    walletBalance
      (UpdateTournamentStatus id sampleClock PrizeFaults.none dimeStore 1 ⟨"finished"⟩).2 10
      = some (1351079888211149 / 4503599627370496) ∧
    float01 + float02 * 1 ≠ 1351079888211149 / 4503599627370496 := by
  refine ⟨by decide!, by decide!, by decide!, by decide!, by decide!, by decide!, by decide!,
    by decide!⟩

/-- C10 (amended): when a request makes a tournament `finished` (it was not
before), with schedule f, pot the float sum of `prize_pool` and `prize_bonus`
and the participants ranked by total points, the wallet balance of the
participant at rank i (i below the length of f) becomes the float sum of the
balance and the float product pot × f[i] when that product is positive and is
unchanged otherwise, and the wallet of a participant ranked at or beyond the
length of f is unchanged; this holds whichever writes the store refuses.  The
unique indexes on (user, tournament), on the wallet id and on the wallet user
are hypotheses. -/
theorem UpdateTournamentStatus_prizes (mkSlug : String → String) (clock : Nat → String)
    (f : PrizeFaults) (db : Store) (tid : Nat) (input : UpdateStatusRequest) (t : Tournament)
    (hfind : db.tournaments.find? (fun r => decide (r.id = tid)) = some t)
    (hstatus : t.status ≠ "finished")
    (hfin : tournamentStatus (UpdateTournamentStatus mkSlug clock f db tid input).2 tid
      = some "finished")
    (hpart : ((db.participants.filter (fun p => decide (p.tournamentID = tid))).map
      (fun p => p.userID)).Nodup)
    (hwid : (db.wallets.map (fun w => w.id)).Nodup)
    (hwuser : (db.wallets.map (fun w => w.userID)).Nodup) :
    (∀ (i : Nat) (p : ℚ) (w : TournamentParticipant),
      t.settings.prizeDistribution[i]? = some p →
      (rankParticipants db.participants tid)[i]? = some w →
      walletBalance (UpdateTournamentStatus mkSlug clock f db tid input).2 w.userID =
        (walletBalance db w.userID).map (fun b =>
          if roundFloat64 (roundFloat64 (t.prizePool + t.prizeBonus) * p) > 0 then
            roundFloat64 (b + roundFloat64 (roundFloat64 (t.prizePool + t.prizeBonus) * p))
          else b)) ∧
    (∀ (i : Nat) (w : TournamentParticipant),
      t.settings.prizeDistribution.length ≤ i →
      (rankParticipants db.participants tid)[i]? = some w →
      walletBalance (UpdateTournamentStatus mkSlug clock f db tid input).2 w.userID =
        walletBalance db w.userID) := by
  have hw := UpdateTournamentStatus_wallets mkSlug clock f db tid input t hfind hstatus hfin
    hwid hwuser
  have hbal : ∀ u : Nat,
      walletBalance (UpdateTournamentStatus mkSlug clock f db tid input).2 u =
        (walletBalance db u).map (fun b => prizeBalance t 0
          ((rankParticipants db.participants tid).take t.settings.prizeDistribution.length)
          u b) := by
    intro u
    unfold walletBalance
    rw [hw, find_wallet_map (fun w => { w with balance := (prizeBalance t 0
      ((rankParticipants db.participants tid).take t.settings.prizeDistribution.length)
      w.userID w.balance) }) (fun _ => rfl)]
    cases hfw : db.wallets.find? (fun w => decide (w.userID = u)) with
    | none => rfl
    | some w =>
      have hu : w.userID = u := by
        have := List.find?_some hfw
        simpa using this
      simp only [Option.map_some', hu]
  have hnd := nodup_rankParticipants db.participants tid hpart
  have hndtake : (((rankParticipants db.participants tid).take
      t.settings.prizeDistribution.length).map (fun p => p.userID)).Nodup :=
    ((List.take_sublist _ _).map _).nodup hnd
  constructor
  · intro i p w hp hr
    have hi : i < t.settings.prizeDistribution.length := by
      by_contra hge
      rw [List.getElem?_eq_none (not_lt.1 hge)] at hp
      cases hp
    have hr2 : ((rankParticipants db.participants tid).take
        t.settings.prizeDistribution.length)[i]? = some w := by
      rw [List.getElem?_take_of_lt hi]; exact hr
    rw [hbal]
    congr 1
    funext b
    rw [prizeBalance_at t _ hndtake 0 i w b hr2, zero_add]
    unfold prizeAt creditBalance totalPotOf
    simp only [hp]
    by_cases h1 : roundFloat64 (roundFloat64 (t.prizePool + t.prizeBonus) * p) > 0
    · simp only [if_pos h1]
    · simp only [if_neg h1, gt_iff_lt, lt_self_iff_false, if_false]
  · intro i w hi hr
    have hwd : w ∈ (rankParticipants db.participants tid).drop
        t.settings.prizeDistribution.length := by
      apply List.getElem?_mem (n := i - t.settings.prizeDistribution.length)
      rw [List.getElem?_drop]
      rw [Nat.add_sub_cancel' hi]
      exact hr
    have hsplit : ((rankParticipants db.participants tid).take
          t.settings.prizeDistribution.length).map (fun p => p.userID) ++
        ((rankParticipants db.participants tid).drop
          t.settings.prizeDistribution.length).map (fun p => p.userID)
        = (rankParticipants db.participants tid).map (fun p => p.userID) := by
      rw [← List.map_append, List.take_append_drop]
    have hdis := (List.nodup_append.1 (hsplit ▸ hnd)).2.2
    have hnot : w.userID ∉ ((rankParticipants db.participants tid).take
        t.settings.prizeDistribution.length).map (fun p => p.userID) := by
      intro hmem
      exact hdis hmem (List.mem_map.2 ⟨w, hwd, rfl⟩)
    rw [hbal]
    have hfun : (fun b => prizeBalance t 0
        ((rankParticipants db.participants tid).take t.settings.prizeDistribution.length)
        w.userID b) = id := by
      funext b
      exact prizeBalance_of_not_mem t _ _ hnot 0 b
    rw [hfun]
    simp

/-- Witness of C10: the schedule is made of the floats nearest to 0.70, 0.20
and 0.10 and the pot is 90 + 10 = 100; the three best participants (users 20,
40, 30) receive exactly 70, 20 and 10 on top of their balances 2, 4 and 3, the
fourth (user 10) keeps its balance 1. -/
theorem UpdateTournamentStatus_prizes_witness :
    (prizeStore.tournaments.find? (fun r => decide (r.id = 1)) = some sampleTournament ∧
      sampleTournament.status ≠ "finished" ∧
      tournamentStatus
        (UpdateTournamentStatus id sampleClock PrizeFaults.none prizeStore 1
          ⟨"finished"⟩).2 1
        = some "finished") ∧
    walletBalance
      (UpdateTournamentStatus id sampleClock PrizeFaults.none prizeStore 1 ⟨"finished"⟩).2 20
      = some 72 ∧
    walletBalance
      (UpdateTournamentStatus id sampleClock PrizeFaults.none prizeStore 1 ⟨"finished"⟩).2 40
      = some 24 ∧
    walletBalance
      (UpdateTournamentStatus id sampleClock PrizeFaults.none prizeStore 1 ⟨"finished"⟩).2 30
      = some 13 ∧
    walletBalance
      (UpdateTournamentStatus id sampleClock PrizeFaults.none prizeStore 1 ⟨"finished"⟩).2 10
      = some 1 := by
  have h := UpdateTournamentStatus_prizes id sampleClock PrizeFaults.none prizeStore 1
    ⟨"finished"⟩ sampleTournament (by decide!) (by decide) (by decide!) (by decide) (by decide)
    (by decide)
  refine ⟨⟨by decide!, by decide, by decide!⟩, ?_, ?_, ?_, ?_⟩
  · exact (h.1 0 float07 ⟨2, 20, 1, 30⟩ (by decide!) (by decide!)).trans (by decide!)
  · exact (h.1 1 float02 ⟨4, 40, 1, 20⟩ (by decide!) (by decide!)).trans (by decide!)
  · exact (h.1 2 float01 ⟨3, 30, 1, 12⟩ (by decide!) (by decide!)).trans (by decide!)
  · exact (h.2 3 ⟨1, 10, 1, 5⟩ (by decide) (by decide!)).trans (by decide!)

/-! ## Tournament status and the ledger (C11 to C16) -/

/-- C11 fails on the code: a finished tournament is set back to `open` by a
request with status "open", and the next request with status "finished"
distributes the prizes a second time (user 20: 2, then 72, then 142, with two
prize transactions on wallet 2). -/
theorem UpdateTournamentStatus_reopen_pays_twice :
    tournamentStatus finishedOnce 1 = some "finished" ∧
    tournamentStatus reopened 1 = some "open" ∧
    tournamentStatus finishedTwice 1 = some "finished" ∧
    walletBalance prizeStore 20 = some 2 ∧
    walletBalance finishedOnce 20 = some 72 ∧
    walletBalance finishedTwice 20 = some 142 ∧
    (finishedTwice.transactions.filter
      (fun t => decide (t.type = "prize" ∧ t.walletID = 2))).length = 2 := by
  decide!

theorem saveWalletRow_nonneg (fails : Bool) (rows rows2 : List Wallet) (w : Wallet)
    (h : saveWalletRow fails rows w = some rows2) (hrows : ∀ x ∈ rows, 0 ≤ x.balance) :
    ∀ x ∈ rows2, 0 ≤ x.balance := by
  unfold saveWalletRow at h
  split_ifs at h with hc
  simp only [Option.some.injEq] at h
  subst h
  intro x hx
  obtain ⟨r, hr, hrx⟩ := List.mem_map.1 hx
  split_ifs at hrx
  · subst hrx
    exact not_lt.1 (fun hneg => hc (Or.inr hneg))
  · subst hrx
    exact hrows r hr

theorem distributePrizes_nonneg (f : PrizeFaults) (clock : Nat → String) (t : Tournament)
    (pot : ℚ) (ws : List TournamentParticipant) :
    ∀ (i : Nat) (tx tx2 : Store),
      distributePrizes f clock t pot i ws tx = .ok tx2 →
      NonNegBalances tx → NonNegBalances tx2 := by
  induction ws with
  | nil =>
    intro i tx tx2 h hnn
    simp only [distributePrizes, Except.ok.injEq] at h
    subst h
    exact hnn
  | cons winner rest ih =>
    intro i tx tx2 h hnn
    simp only [distributePrizes] at h
    cases hp : t.settings.prizeDistribution[i]? with
    | none =>
      simp only [hp, Except.ok.injEq] at h
      subst h
      exact hnn
    | some p =>
      simp only [hp] at h
      by_cases hpos : roundFloat64 (pot * p) > 0
      · simp only [if_pos hpos] at h
        cases hfw : f.findWallet winner.userID with
        | true => simp [hfw] at h
        | false =>
          simp only [hfw, Bool.false_eq_true, if_false] at h
          cases hw : tx.wallets.find? (fun w => decide (w.userID = winner.userID)) with
          | none => simp [hw] at h
          | some wallet =>
            simp only [hw] at h
            cases hsw : saveWalletRow (f.saveWallet wallet.id) tx.wallets
                { wallet with balance := roundFloat64 (wallet.balance + roundFloat64 (pot * p)) } with
            | none => simp [hsw] at h
            | some rows =>
              simp only [hsw] at h
              have hrows := saveWalletRow_nonneg _ _ _ _ hsw hnn
              refine ih _ _ _ h ?_
              exact hrows
      · simp only [if_neg hpos] at h
        exact ih _ _ _ h hnn

theorem UpdateTournamentStatus_nonneg (mkSlug : String → String) (clock : Nat → String)
    (f : PrizeFaults) (db : Store) (tid : Nat) (input : UpdateStatusRequest)
    (h : NonNegBalances db) :
    NonNegBalances (UpdateTournamentStatus mkSlug clock f db tid input).2 := by
  have hsave : ∀ (tx : Store) (t : Tournament), NonNegBalances tx →
      NonNegBalances (saveTournament mkSlug f.saveTournament tx t) := by
    intro tx t htx
    unfold NonNegBalances
    rw [saveTournament_wallets]
    exact htx
  unfold UpdateTournamentStatus
  cases hfind : db.tournaments.find? (fun t => decide (t.id = tid)) with
  | none =>
    simp only []
    split_ifs <;> exact h
  | some t =>
    simp only []
    split_ifs with hb hc hl hfw
    · exact h
    · exact h
    · cases hd : distributePrizes f clock t (roundFloat64 (t.prizePool + t.prizeBonus)) 0
          ((rankParticipants db.participants t.id).take t.settings.prizeDistribution.length)
          db with
      | error msg => exact h
      | ok tx => exact hsave _ _ (distributePrizes_nonneg _ _ _ _ _ _ _ _ hd h)
    · exact hsave _ _ h
    · exact hsave _ _ h

theorem DepositMoney_nonneg (now : String) (f : LedgerFaults) (db : Store) (userID : Nat)
    (amount : ℚ) (h : NonNegBalances db) :
    NonNegBalances (DepositMoney now f db userID amount).2 := by
  unfold DepositMoney
  by_cases ha : amount > 0
  · simp only [ha, not_true_eq_false, if_false]
    cases hw : db.wallets.find? (fun w => decide (w.userID = userID)) with
    | none => exact h
    | some wallet =>
      simp only []
      cases hs : saveWalletRow f.saveWallet db.wallets
          { wallet with balance := roundFloat64 (wallet.balance + amount) } with
      | none => exact h
      | some rows => exact saveWalletRow_nonneg _ _ _ _ hs h
  · simp only [ha, not_false_eq_true, if_true]
    exact h

theorem completeJoin_nonneg (now : String) (f : LedgerFaults) (db : Store) (t : Tournament)
    (userID : Nat) (w : Wallet) (cost : ℚ) (currency : String) (h : NonNegBalances db) :
    NonNegBalances (completeJoin now f db t userID w cost currency).2 := by
  unfold completeJoin
  cases hs : saveWalletRow f.saveWallet db.wallets w with
  | none => exact h
  | some rows =>
    simp only []
    cases hc : f.createParticipant with
    | true => exact h
    | false => exact saveWalletRow_nonneg _ _ _ _ hs h

theorem JoinTournament_nonneg (now : String) (f : LedgerFaults) (db : Store)
    (tournamentID userID : Nat) (input : JoinTournamentRequest) (h : NonNegBalances db) :
    NonNegBalances (JoinTournament now f db tournamentID userID input).2 := by
  unfold JoinTournament
  cases ht : db.tournaments.find? (fun t => decide (t.id = tournamentID)) with
  | none => exact h
  | some t =>
    simp only []
    by_cases hopen : t.status = "open"
    · simp only [hopen, ne_eq, not_true_eq_false, if_false]
      cases hp : db.participants.find?
          (fun p => decide (p.userID = userID ∧ p.tournamentID = t.id)) with
      | some _ => exact h
      | none =>
        simp only []
        cases hw : db.wallets.find? (fun w => decide (w.userID = userID)) with
        | none => exact h
        | some wallet =>
          simp only []
          by_cases htok : input.payWithTokens = true ∧ t.entryFeeTokens > 0
          · simp only [if_pos htok]
            by_cases hlt : wallet.tokenBalance < t.entryFeeTokens
            · simp only [if_pos hlt]
              exact h
            · simp only [if_neg hlt]
              exact completeJoin_nonneg _ _ _ _ _ _ _ _ h
          · simp only [if_neg htok]
            by_cases hca : wallet.CanAfford t.entryFee = false
            · simp only [if_pos hca]
              exact h
            · simp only [if_neg hca]
              exact completeJoin_nonneg _ _ _ _ _ _ _ _ h
    · simp only [ne_eq, hopen, not_false_eq_true, if_true]
      exact h

/-- C12: from a store whose wallets all have a balance of at least 0, every
sequence of `DepositMoney`, `JoinTournament` and `UpdateTournamentStatus`
(prize distribution) requests, run one after the other with any arguments and
any failures of the store, leaves every wallet with a balance of at least 0;
in particular so does a single `JoinTournament`, for every balance, bonus and
entry fee.  The debit of `JoinTournament` is computed from `CanAfford`
(balance plus bonus) and, when it would leave the balance negative, it is the
column constraint `balance >= 0` that refuses the save. -/
theorem ledger_balance_nonneg (ops : List LedgerOp) (db : Store) (h : NonNegBalances db) :
    NonNegBalances (runLedgerOps ops db) ∧
    ∀ (now : String) (f : LedgerFaults) (tournamentID userID : Nat)
      (input : JoinTournamentRequest),
      NonNegBalances (JoinTournament now f db tournamentID userID input).2 := by
  refine ⟨?_, fun now f tid uid input => JoinTournament_nonneg now f db tid uid input h⟩
  unfold runLedgerOps
  induction ops generalizing db with
  | nil => exact h
  | cons op rest ih =>
    simp only [List.foldl_cons]
    apply ih
    cases op with
    | deposit now f userID amount => exact DepositMoney_nonneg _ _ _ _ _ h
    | join now f tournamentID userID input => exact JoinTournament_nonneg _ _ _ _ _ _ h
    | status mkSlug clock f tournamentID input =>
      exact UpdateTournamentStatus_nonneg _ _ _ _ _ _ h

/-- Witness of C12: the sample sequence on the ledger store.  User 60 has
balance 5, bonus 10 and the fee is 10: `CanAfford` lets the join through, the
debit would leave -5, the save is refused and nothing changes. -/
theorem ledger_balance_nonneg_witness :
    NonNegBalances ledgerStore ∧
    NonNegBalances (runLedgerOps sampleLedgerOps ledgerStore) ∧
    walletBalance (runLedgerOps sampleLedgerOps ledgerStore) 60 = some 5 ∧
    JoinTournament "20260223120001" LedgerFaults.none ledgerStore 2 60 ⟨false⟩
      = (⟨500, "Error al procesar el pago"⟩, ledgerStore) := by
  have h0 : NonNegBalances ledgerStore := by
    unfold NonNegBalances
    decide!
  exact ⟨h0, (ledger_balance_nonneg sampleLedgerOps ledgerStore h0).1, by decide!, by decide!⟩

theorem find_tournament_id (rows : List Tournament) (tid : Nat) (t : Tournament)
    (h : rows.find? (fun r => decide (r.id = tid)) = some t) : t.id = tid := by
  have := List.find?_some h
  simpa using this

/-- Every answer of `JoinTournament` other than the success answer comes with
the store it started from. -/
theorem JoinTournament_rollback (now : String) (f : LedgerFaults) (db : Store)
    (tournamentID userID : Nat) (input : JoinTournamentRequest)
    (h : (JoinTournament now f db tournamentID userID input).1 ≠ joinedResponse) :
    (JoinTournament now f db tournamentID userID input).2 = db := by
  have hc : ∀ (t : Tournament) (w : Wallet) (cost : ℚ) (cur : String),
      (completeJoin now f db t userID w cost cur).1 ≠ joinedResponse →
        (completeJoin now f db t userID w cost cur).2 = db := by
    intro t w cost cur
    unfold completeJoin
    cases saveWalletRow f.saveWallet db.wallets w with
    | none => intro _; rfl
    | some rows =>
      simp only []
      cases f.createParticipant with
      | true => intro _; rfl
      | false => intro h1; exact absurd rfl h1
  revert h
  unfold JoinTournament
  cases db.tournaments.find? (fun t => decide (t.id = tournamentID)) with
  | none => intro _; rfl
  | some t =>
    simp only []
    by_cases hopen : t.status = "open"
    · simp only [hopen, ne_eq, not_true_eq_false, if_false]
      cases db.participants.find?
          (fun p => decide (p.userID = userID ∧ p.tournamentID = t.id)) with
      | some _ => intro _; rfl
      | none =>
        simp only []
        cases db.wallets.find? (fun w => decide (w.userID = userID)) with
        | none => intro _; rfl
        | some wallet =>
          simp only []
          by_cases htok : input.payWithTokens = true ∧ t.entryFeeTokens > 0
          · simp only [if_pos htok]
            by_cases hlt : wallet.tokenBalance < t.entryFeeTokens
            · simp only [if_pos hlt]; intro _; trivial
            · simp only [if_neg hlt]; exact hc _ _ _ _
          · simp only [if_neg htok]
            by_cases hca : wallet.CanAfford t.entryFee = false
            · simp only [if_pos hca]; intro _; trivial
            · simp only [if_neg hca]; exact hc _ _ _ _
    · simp only [ne_eq, hopen, not_false_eq_true, if_true]
      intro _; trivial

/-- C13, counterexample: `CanAfford` adds balance and bonus as `float64`.  The
wallet holds 0.5 and a bonus of 0.3, the entry fee is 0.8 (the nearest floats):
the exact sum of the two floats is below the fee, their float sum is the fee,
so `CanAfford` lets the join through; the debit leaves a negative balance, the
save is refused and the answer is 500 "Error al procesar el pago", not
InsufficientFunds. -/
theorem JoinTournament_funds_rounded :
    walletOf centsStore 80
      = some { id := 8, userID := 80, balance := 1 / 2, frozenBalance := 0,
               bonusBalance := float03, tokenBalance := 0 } ∧
    centsTournament.status = "open" ∧ centsTournament.entryFee = float08 ∧
    roundFloat64 float03 = float03 ∧ roundFloat64 float08 = float08 ∧
    (1 / 2 : ℚ) + float03 < float08 ∧
    roundFloat64 (1 / 2 + float03) = float08 ∧
    JoinTournament "20260223120000" LedgerFaults.none centsStore 2 80 ⟨false⟩
      = (⟨500, "Error al procesar el pago"⟩, centsStore) ∧
    (⟨500, "Error al procesar el pago"⟩ : Response) ≠ insufficientFundsResponse := by
  refine ⟨by decide!, by decide, by decide!, by decide!, by decide!, by decide!, by decide!,
    by decide!, by decide⟩

/-- C13 (amended): for an open tournament, a user who is not yet a participant
of it and whose wallet has a float sum of balance and bonus_balance below the
entry fee, a `JoinTournament` paid with money answers InsufficientFunds and
leaves the whole store (wallets, participants, transactions) as it was,
whatever the store would have done. -/
theorem JoinTournament_insufficient_funds (now : String) (f : LedgerFaults) (db : Store)
    (tournamentID userID : Nat) (input : JoinTournamentRequest) (t : Tournament) (w : Wallet)
    (ht : db.tournaments.find? (fun r => decide (r.id = tournamentID)) = some t)
    (hopen : t.status = "open")
    (hnew : db.participants.find?
      (fun p => decide (p.userID = userID ∧ p.tournamentID = tournamentID)) = none)
    (hw : db.wallets.find? (fun r => decide (r.userID = userID)) = some w)
    (hmoney : ¬ (input.payWithTokens = true ∧ t.entryFeeTokens > 0))
    (hfunds : roundFloat64 (w.balance + w.bonusBalance) < t.entryFee) :
    JoinTournament now f db tournamentID userID input = (insufficientFundsResponse, db) := by
  have hid := find_tournament_id _ _ _ ht
  have hca : w.CanAfford t.entryFee = false := by
    unfold Wallet.CanAfford
    exact decide_eq_false (not_le.2 hfunds)
  unfold JoinTournament
  simp only [ht, hopen, ne_eq, not_true_eq_false, if_false, hid, hnew, hw, if_neg hmoney, hca,
    if_true]

/-- Witness of C13: entry fee 10, balance 5, bonus 0 (user 50). -/
theorem JoinTournament_insufficient_funds_witness :
    (ledgerStore.tournaments.find? (fun r => decide (r.id = 2)) = some openTournament ∧
      walletOf ledgerStore 50
        = some { id := 5, userID := 50, balance := 5, frozenBalance := 0, bonusBalance := 0,
                 tokenBalance := 0 } ∧
      openTournament.entryFee = 10) ∧
    JoinTournament "20260223120000" LedgerFaults.none ledgerStore 2 50 ⟨false⟩
      = (insufficientFundsResponse, ledgerStore) :=
  ⟨⟨by decide!, by decide!, rfl⟩,
    JoinTournament_insufficient_funds "20260223120000" LedgerFaults.none ledgerStore 2 50
      ⟨false⟩ openTournament
      { id := 5, userID := 50, balance := 5, frozenBalance := 0, bonusBalance := 0,
        tokenBalance := 0 }
      (by decide!) rfl (by decide) (by decide!) (by decide) (by decide!)⟩

/-- C14 fails on the code: the transaction rows of `JoinTournament` and of the
prize distribution carry `previous_balance` 0 whatever the balance was.  User
70 joins with balance 50 and fee 10: the row has previous balance 0, amount
-10 and new balance 40.  The three prize rows of the sample tournament have
previous balance 0 with balances 2, 4 and 3 before.  `DepositMoney` records
the balance before (5 for user 50). -/
theorem transactions_previous_balance :
    walletBalance ledgerStore 70 = some 50 ∧
    (JoinTournament "20260223120000" LedgerFaults.none ledgerStore 2 70 ⟨false⟩).1
      = joinedResponse ∧
    (JoinTournament "20260223120000" LedgerFaults.none ledgerStore 2 70 ⟨false⟩).2.transactions.map
        (fun t => (t.walletID, t.previousBalance, t.amount, t.newBalance))
      = [(7, 0, -10, 40)] ∧
    walletBalance prizeStore 20 = some 2 ∧
    finishedOnce.transactions.map
        (fun t => (t.walletID, t.previousBalance, t.amount, t.newBalance))
      = [(2, 0, 70, 72), (4, 0, 20, 24), (3, 0, 10, 13)] ∧
    (DepositMoney "20260223120000" LedgerFaults.none ledgerStore 50 (5 / 2)).2.transactions.map
        (fun t => (t.walletID, t.previousBalance, t.amount, t.newBalance))
      = [(5, 5, 5 / 2, 15 / 2)] := by
  decide!

theorem find_wallet_replace (rows : List Wallet) (u : Nat) (w w2 : Wallet)
    (h : rows.find? (fun r => decide (r.userID = u)) = some w) (h2 : w2.userID = u) :
    (rows.map (fun r => if r.id = w.id then w2 else r)).find? (fun r => decide (r.userID = u))
      = some w2 := by
  induction rows with
  | nil => simp at h
  | cons a rest ih =>
    by_cases hau : a.userID = u
    · simp only [List.find?_cons, decide_eq_true hau, Option.some.injEq] at h
      subst h
      simp only [List.map_cons, if_true, List.find?_cons, decide_eq_true h2]
    · simp only [List.find?_cons, decide_eq_false hau] at h
      by_cases hid : a.id = w.id
      · simp only [List.map_cons, if_pos hid, List.find?_cons, decide_eq_true h2]
      · simp only [List.map_cons, if_neg hid, List.find?_cons, decide_eq_false hau]
        exact ih h

theorem saveWalletRow_ok (rows : List Wallet) (w : Wallet) (h : 0 ≤ w.balance) :
    saveWalletRow false rows w = some (rows.map fun r => if r.id = w.id then w else r) := by
  unfold saveWalletRow
  have hn : ¬ (false = true ∨ w.balance < 0) := by
    rintro (h1 | h1)
    · cases h1
    · exact absurd h (not_le.2 h1)
  rw [if_neg hn]

theorem createTransaction_cases (fails : Bool) (now : String) (rows : List Transaction)
    (t : Transaction) :
    createTransaction fails now rows t = rows ∨
    createTransaction fails now rows t = rows ++ [Transaction.BeforeCreate now t] := by
  unfold createTransaction
  split_ifs
  · exact Or.inl rfl
  · exact Or.inr rfl

/-- A creation that does not fail, of a row whose number is not stored yet,
appends the row. -/
theorem createTransaction_accepted (now : String) (rows : List Transaction) (t : Transaction)
    (h : numberTaken rows (Transaction.BeforeCreate now t).transactionNumber = false) :
    createTransaction false now rows t = rows ++ [Transaction.BeforeCreate now t] := by
  unfold createTransaction
  rw [if_neg]
  rintro (h1 | h1)
  · cases h1
  · rw [h] at h1; cases h1

/-- The number that the hook gives to a row that comes without one. -/
theorem BeforeCreate_number (now : String) (t : Transaction) (h : t.transactionNumber = "") :
    (Transaction.BeforeCreate now t).transactionNumber
      = "TRX-" ++ now ++ "-" ++ toString t.walletID := by
  unfold Transaction.BeforeCreate
  rw [if_pos h]

/-- C15, counterexample: user 70 is already a participant of the open
tournament and still has 5 tokens, the token fee is 3; a join paid with tokens
answers AlreadyJoined (409) and changes nothing. -/
theorem JoinTournament_tokens_already_joined :
    (walletOf enrolledStore 70).map (fun w => w.tokenBalance) = some 5 ∧
    enrolledStore.tournaments.find? (fun r => decide (r.id = 2)) = some openTournament ∧
    openTournament.status = "open" ∧ openTournament.entryFeeTokens = 3 ∧
    JoinTournament "20260223120005" LedgerFaults.none enrolledStore 2 70 ⟨true⟩
      = (alreadyJoinedResponse, enrolledStore) := by
  refine ⟨by decide!, by decide!, by decide, by decide, by decide!⟩

/-- C15 (amended): `JoinTournament` with `pay_with_tokens = true` on an open
tournament whose token fee is positive, by a user who is not yet a participant
and whose wallet satisfies the column constraint on the balance.  With a token
balance of at least the fee: on a store that accepts the three writes (wallet,
participant, transaction row with a number that is not stored yet) it answers
201, the wallet keeps balance, bonus and frozen balance and has exactly the
fee less in tokens, one participant is added and one transaction of type
`tournament_entry` with currency "TOKENS" is appended; when the save of the
wallet or the creation of the participant fails it answers 500 and changes
nothing.  With a token balance below the fee it answers 400 and the store is
unchanged, whatever the store would have done. -/
theorem JoinTournament_tokens (now : String) (f : LedgerFaults) (db : Store)
    (tournamentID userID : Nat) (t : Tournament) (w : Wallet)
    (ht : db.tournaments.find? (fun r => decide (r.id = tournamentID)) = some t)
    (hopen : t.status = "open")
    (hfee : t.entryFeeTokens > 0)
    (hnew : db.participants.find?
      (fun p => decide (p.userID = userID ∧ p.tournamentID = tournamentID)) = none)
    (hw : db.wallets.find? (fun r => decide (r.userID = userID)) = some w)
    (hbal : 0 ≤ w.balance) :
    (t.entryFeeTokens ≤ w.tokenBalance →
      (f.saveWallet = false → f.createParticipant = false → f.createTransaction = false →
        numberTaken db.transactions ("TRX-" ++ now ++ "-" ++ toString w.id) = false →
        (JoinTournament now f db tournamentID userID ⟨true⟩).1 = joinedResponse ∧
        walletOf (JoinTournament now f db tournamentID userID ⟨true⟩).2 userID
          = some { w with tokenBalance := w.tokenBalance - t.entryFeeTokens } ∧
        (JoinTournament now f db tournamentID userID ⟨true⟩).2.participants
          = db.participants ++
            [(⟨nextParticipantID db.participants, userID, tournamentID, 0⟩ :
              TournamentParticipant)] ∧
        ∃ row : Transaction,
          (JoinTournament now f db tournamentID userID ⟨true⟩).2.transactions
            = db.transactions ++ [row] ∧
          row.type = "tournament_entry" ∧ row.currency = "TOKENS" ∧ row.walletID = w.id ∧
          row.amount = -toFloat64 t.entryFeeTokens) ∧
      ((f.saveWallet = true ∨ f.createParticipant = true) →
        (JoinTournament now f db tournamentID userID ⟨true⟩).1.status = 500 ∧
        (JoinTournament now f db tournamentID userID ⟨true⟩).2 = db)) ∧
    (w.tokenBalance < t.entryFeeTokens →
      JoinTournament now f db tournamentID userID ⟨true⟩ = (insufficientTokensResponse, db)) := by
  have hid := find_tournament_id _ _ _ ht
  have hu : w.userID = userID := by
    have := List.find?_some hw
    simpa using this
  constructor
  · intro hle
    have hnlt : ¬ w.tokenBalance < t.entryFeeTokens := not_lt.2 hle
    have hout : JoinTournament now f db tournamentID userID ⟨true⟩ =
        completeJoin now f db t userID
          { w with tokenBalance := w.tokenBalance - t.entryFeeTokens }
          (toFloat64 t.entryFeeTokens) "TOKENS" := by
      unfold JoinTournament
      simp only [ht, hopen, ne_eq, not_true_eq_false, if_false, hid, hnew, hw, hfee, and_self,
        if_true, if_neg hnlt]
    rw [hout]
    constructor
    · intro hsw hcp hct hnum
      unfold completeJoin
      rw [hsw, hcp, hct, saveWalletRow_ok db.wallets
        { w with tokenBalance := w.tokenBalance - t.entryFeeTokens } hbal]
      simp only [Bool.false_eq_true, if_false]
      refine ⟨trivial, ?_, ?_, ?_⟩
      · unfold walletOf
        simp only []
        exact find_wallet_replace db.wallets userID w _ hw hu
      · rw [hid]
      · have hnumber := BeforeCreate_number now
          (entryTransaction t w.id (toFloat64 t.entryFeeTokens) "TOKENS" w.balance) rfl
        refine ⟨Transaction.BeforeCreate now
          (entryTransaction t w.id (toFloat64 t.entryFeeTokens) "TOKENS" w.balance), ?_, ?_⟩
        · exact createTransaction_accepted now db.transactions _ (by rw [hnumber]; exact hnum)
        · simp [Transaction.BeforeCreate, entryTransaction]
    · intro hfail
      unfold completeJoin
      cases hsave : saveWalletRow f.saveWallet db.wallets
          { w with tokenBalance := w.tokenBalance - t.entryFeeTokens } with
      | none => exact ⟨rfl, rfl⟩
      | some rows =>
        have hsw : f.saveWallet = false := by
          cases hb : f.saveWallet with
          | false => rfl
          | true =>
            rw [hb] at hsave
            simp [saveWalletRow] at hsave
        have hcp : f.createParticipant = true := by
          rcases hfail with h | h
          · rw [hsw] at h; cases h
          · exact h
        simp only [hcp, if_true]
        exact ⟨trivial, trivial⟩
  · intro hlt
    unfold JoinTournament
    simp only [ht, hopen, ne_eq, not_true_eq_false, if_false, hid, hnew, hw, hfee, and_self,
      if_true, if_pos hlt]

/-- Witness of C15: user 70 has 5 tokens and the token fee is 3. -/
theorem JoinTournament_tokens_witness :
    (ledgerStore.tournaments.find? (fun r => decide (r.id = 2)) = some openTournament ∧
      openTournament.entryFeeTokens = 3) ∧
    (JoinTournament "20260223120000" LedgerFaults.none ledgerStore 2 70 ⟨true⟩).1
      = joinedResponse ∧
    walletOf (JoinTournament "20260223120000" LedgerFaults.none ledgerStore 2 70 ⟨true⟩).2 70
      = some { id := 7, userID := 70, balance := 50, frozenBalance := 0, bonusBalance := 0,
               tokenBalance := 2 } ∧
    (JoinTournament "20260223120000" LedgerFaults.none ledgerStore 2 70
        ⟨true⟩).2.transactions.map
        (fun r => (r.transactionNumber, r.type, r.currency, r.amount))
      = [("TRX-20260223120000-7", "tournament_entry", "TOKENS", -3)] := by
  have h := JoinTournament_tokens "20260223120000" LedgerFaults.none ledgerStore 2 70
    openTournament
    { id := 7, userID := 70, balance := 50, frozenBalance := 0, bonusBalance := 0,
      tokenBalance := 5 }
    (by decide!) rfl (by decide) (by decide) (by decide!) (by decide!)
  have h1 := (h.1 (by decide)).1 rfl rfl rfl (by decide!)
  exact ⟨⟨by decide!, rfl⟩, h1.1, h1.2.1.trans (by decide!), by decide!⟩

/-- C16, counterexample: the deposit is added as a `float64`.  The wallet
holds the float nearest to 0.1 and the amount is the float nearest to 0.2: the
balance stored is the float 0.30000000000000004, which is not the balance plus
the amount. -/
theorem DepositMoney_rounded :
    walletBalance dimeStore 10 = some float01 ∧ float02 > 0 ∧
    roundFloat64 float01 = float01 ∧ roundFloat64 float02 = float02 ∧
    (DepositMoney "20260223120000" LedgerFaults.none dimeStore 10 float02).1
      = depositResponse ∧
    walletBalance (DepositMoney "20260223120000" LedgerFaults.none dimeStore 10 float02).2 10
      = some (1351079888211149 / 4503599627370496) ∧
    float01 + float02 ≠ 1351079888211149 / 4503599627370496 := by
  refine ⟨by decide!, by decide!, by decide!, by decide!, by decide!, by decide!, by decide!⟩

/-- C16 (amended): for a user with a wallet (whose stored balance satisfies
the column constraint) and an amount above 0, `DepositMoney` on a store that
accepts the two writes (the wallet, and a transaction row whose number is not
stored yet) succeeds, the balance of the wallet becomes the float sum of the
balance and the amount, its bonus, frozen and token balances are kept, and one
transaction of type "deposit" with that amount is appended; for an amount of
at most 0 it answers InvalidAmount, for a user without a wallet (and an amount
above 0) it answers NotFound, and in both cases the store is unchanged,
whatever the store would have done. -/
theorem DepositMoney_spec (now : String) (f : LedgerFaults) (db : Store) (userID : Nat)
    (amount : ℚ) :
    (∀ w : Wallet, db.wallets.find? (fun r => decide (r.userID = userID)) = some w →
      amount > 0 → 0 ≤ w.balance →
      f.saveWallet = false → f.createTransaction = false →
      numberTaken db.transactions ("TRX-" ++ now ++ "-" ++ toString w.id) = false →
      (DepositMoney now f db userID amount).1 = depositResponse ∧
      walletOf (DepositMoney now f db userID amount).2 userID
        = some { w with balance := roundFloat64 (w.balance + amount) } ∧
      ∃ row : Transaction,
        (DepositMoney now f db userID amount).2.transactions = db.transactions ++ [row] ∧
        row.type = "deposit" ∧ row.amount = amount ∧ row.walletID = w.id ∧
        row.previousBalance = w.balance ∧
        row.newBalance = roundFloat64 (w.balance + amount)) ∧
    (amount ≤ 0 → DepositMoney now f db userID amount = (invalidAmountResponse, db)) ∧
    (amount > 0 → db.wallets.find? (fun r => decide (r.userID = userID)) = none →
      DepositMoney now f db userID amount = (walletNotFoundResponse, db)) := by
  refine ⟨?_, ?_, ?_⟩
  · intro w hw hpos hbal hsw hct hnum
    have hu : w.userID = userID := by
      have := List.find?_some hw
      simpa using this
    have hbal2 : 0 ≤ roundFloat64 (w.balance + amount) :=
      roundFloat64_nonneg _ (add_nonneg hbal (le_of_lt hpos))
    have hnumber := BeforeCreate_number now
      (depositTransaction w.id amount w.balance (roundFloat64 (w.balance + amount))) rfl
    unfold DepositMoney
    simp only [hpos, not_true_eq_false, if_false, hw, hsw, hct]
    rw [saveWalletRow_ok db.wallets { w with balance := roundFloat64 (w.balance + amount) } hbal2]
    refine ⟨trivial, ?_, ?_⟩
    · unfold walletOf
      simp only []
      exact find_wallet_replace db.wallets userID w _ hw hu
    · refine ⟨Transaction.BeforeCreate now
        (depositTransaction w.id amount w.balance (roundFloat64 (w.balance + amount))), ?_, ?_⟩
      · exact createTransaction_accepted now db.transactions _ (by rw [hnumber]; exact hnum)
      · simp [Transaction.BeforeCreate, depositTransaction]
  · intro hle
    unfold DepositMoney
    rw [if_pos (not_lt.2 hle)]
  · intro hpos hnone
    unfold DepositMoney
    simp only [hpos, not_true_eq_false, if_false, hnone]

/-- Witness of C16: user 50 deposits 2.5 on a balance of 5; a deposit of 0 is
refused; user 99 has no wallet. -/
theorem DepositMoney_spec_witness :
    walletOf ledgerStore 50
      = some { id := 5, userID := 50, balance := 5, frozenBalance := 0, bonusBalance := 0,
               tokenBalance := 0 } ∧
    walletOf (DepositMoney "20260223120000" LedgerFaults.none ledgerStore 50 (5 / 2)).2 50
      = some { id := 5, userID := 50, balance := 15 / 2, frozenBalance := 0, bonusBalance := 0,
               tokenBalance := 0 } ∧
    (DepositMoney "20260223120000" LedgerFaults.none ledgerStore 50 (5 / 2)).2.transactions.map
        (fun r => (r.transactionNumber, r.type, r.amount, r.previousBalance, r.newBalance))
      = [("TRX-20260223120000-5", "deposit", 5 / 2, 5, 15 / 2)] ∧
    DepositMoney "20260223120000" LedgerFaults.none ledgerStore 50 0
      = (invalidAmountResponse, ledgerStore) ∧
    DepositMoney "20260223120000" LedgerFaults.none ledgerStore 99 1
      = (walletNotFoundResponse, ledgerStore) := by
  have h := DepositMoney_spec "20260223120000" LedgerFaults.none ledgerStore
  refine ⟨by decide!, ?_, by decide!, ?_, ?_⟩
  · exact ((h 50 (5 / 2)).1
      { id := 5, userID := 50, balance := 5, frozenBalance := 0, bonusBalance := 0,
        tokenBalance := 0 }
      (by decide!) (by decide!) (by decide!) rfl rfl (by decide!)).2.1.trans (by decide!)
  · exact (h 50 0).2.1 (le_refl 0)
  · exact (h 99 1).2.2 (by decide!) (by decide!)

/-! ## Submission of picks (C17 to C20) -/

theorem checkRequiredTypes_status (db : Store) (required : List String) (ids : List Nat) :
    ∀ (i : Nat) (r : Response), checkRequiredTypes db required i ids = some r →
      r.status = 404 ∨ r.status = 400 := by
  induction ids with
  | nil => intro i r h; simp [checkRequiredTypes] at h
  | cons id rest ih =>
    intro i r h
    simp only [checkRequiredTypes] at h
    cases hs : db.selections.find? (fun s => decide (s.id = id)) with
    | none =>
      simp only [hs, Option.some.injEq] at h
      subst h
      exact Or.inl rfl
    | some sel =>
      simp only [hs] at h
      cases hr : required[i]? with
      | none =>
        simp only [hr] at h
        exact ih _ _ h
      | some ty =>
        simp only [hr] at h
        by_cases hty : sel.selectionType = ty
        · simp only [hty, ne_eq, not_true_eq_false, if_false] at h
          exact ih _ _ h
        · simp only [ne_eq, hty, not_false_eq_true, if_true, Option.some.injEq] at h
          subst h
          exact Or.inr rfl

theorem checkRequiredTypes_status_of_found (db : Store) (required : List String)
    (ids : List Nat)
    (hall : ∀ id ∈ ids, ∃ sel, db.selections.find? (fun s => decide (s.id = id)) = some sel) :
    ∀ (i : Nat) (r : Response), checkRequiredTypes db required i ids = some r →
      r.status = 400 := by
  induction ids with
  | nil => intro i r h; simp [checkRequiredTypes] at h
  | cons id rest ih =>
    intro i r h
    simp only [checkRequiredTypes] at h
    obtain ⟨sel, hs⟩ := hall id (List.mem_cons_self _ _)
    have hrest : ∀ x ∈ rest, ∃ sel,
        db.selections.find? (fun s => decide (s.id = x)) = some sel :=
      fun x hx => hall x (List.mem_cons_of_mem _ hx)
    simp only [hs] at h
    cases hr : required[i]? with
    | none =>
      simp only [hr] at h
      exact ih hrest _ _ h
    | some ty =>
      simp only [hr] at h
      by_cases hty : sel.selectionType = ty
      · simp only [hty, ne_eq, not_true_eq_false, if_false] at h
        exact ih hrest _ _ h
      · simp only [ne_eq, hty, not_false_eq_true, if_true, Option.some.injEq] at h
        subst h
        rfl

theorem checkRequiredTypes_none (db : Store) (required : List String) (ids : List Nat) :
    ∀ i : Nat, checkRequiredTypes db required i ids = none →
      ∀ (j id : Nat) (sel : PickableSelection) (ty : String),
        ids[j]? = some id →
        db.selections.find? (fun s => decide (s.id = id)) = some sel →
        required[i + j]? = some ty → sel.selectionType = ty := by
  induction ids with
  | nil => intro i _ j id sel ty hj; simp at hj
  | cons a rest ih =>
    intro i h j id sel ty hj hsel hty
    simp only [checkRequiredTypes] at h
    cases hs : db.selections.find? (fun s => decide (s.id = a)) with
    | none => simp [hs] at h
    | some sa =>
      simp only [hs] at h
      cases j with
      | zero =>
        simp only [List.getElem?_cons_zero, Option.some.injEq] at hj
        subst hj
        rw [hs] at hsel
        cases hsel
        simp only [Nat.add_zero] at hty
        simp only [hty] at h
        by_contra hne
        simp [hne] at h
      | succ j =>
        simp only [List.getElem?_cons_succ] at hj
        have hidx : i + (j + 1) = i + 1 + j := by omega
        rw [hidx] at hty
        cases hr : required[i]? with
        | none =>
          simp only [hr] at h
          exact ih _ h j id sel ty hj hsel hty
        | some ta =>
          simp only [hr] at h
          by_cases hta : sa.selectionType = ta
          · simp only [hta, ne_eq, not_true_eq_false, if_false] at h
            exact ih _ h j id sel ty hj hsel hty
          · simp [hta] at h

theorem storePicks_error_status (f : PickFaults) (clock : Nat → Int) (tid : Nat)
    (participant : TournamentParticipant) (session : Session) (ids : List Nat) :
    ∀ (i : Nat) (tx : Store) (r : Response),
      storePicks f clock tid participant session i ids tx = .error r →
        r.status = 400 ∨ r.status = 500 := by
  induction ids with
  | nil => intro i tx r h; simp [storePicks] at h
  | cons a rest ih =>
    intro i tx r h
    simp only [storePicks] at h
    cases hs : tx.selections.find? (fun s => decide (s.id = a)) with
    | none =>
      simp only [hs] at h
      exact ih _ _ _ h
    | some sel =>
      simp only [hs] at h
      by_cases ht : (owningEvent tx sel).tournamentID = tid
      · simp only [ht, ne_eq, not_true_eq_false, if_false] at h
        by_cases hc : clock i > (owningEvent tx sel).startTime
        · simp only [if_pos hc, Except.error.injEq] at h
          subst h
          exact Or.inl rfl
        · simp only [if_neg hc] at h
          cases hp : tx.picks.find? (fun p => decide (p.participantID = participant.id ∧
              p.selectionID = sel.id ∧ p.sessionID = session.id)) with
          | some _ =>
            simp only [hp] at h
            exact ih _ _ _ h
          | none =>
            simp only [hp] at h
            cases hf : f.createPick sel.id with
            | true =>
              simp only [hf, if_true, Except.error.injEq] at h
              subst h
              exact Or.inr rfl
            | false =>
              simp only [hf, Bool.false_eq_true, if_false] at h
              exact ih _ _ _ h
      · simp only [ne_eq, ht, not_false_eq_true, if_true, Except.error.injEq] at h
        subst h
        exact Or.inl rfl

theorem storePicks_ok_events (f : PickFaults) (clock : Nat → Int) (tid : Nat)
    (participant : TournamentParticipant) (session : Session) (ids : List Nat) :
    ∀ (i : Nat) (tx tx2 : Store),
      storePicks f clock tid participant session i ids tx = .ok tx2 →
      ∀ (j id : Nat) (sel : PickableSelection),
        ids[j]? = some id →
        tx.selections.find? (fun s => decide (s.id = id)) = some sel →
        (owningEvent tx sel).tournamentID = tid ∧
          clock (i + j) ≤ (owningEvent tx sel).startTime := by
  induction ids with
  | nil => intro i tx tx2 _ j id sel hj; simp at hj
  | cons a rest ih =>
    intro i tx tx2 h j id sel hj hsel
    simp only [storePicks] at h
    cases hs : tx.selections.find? (fun s => decide (s.id = a)) with
    | none =>
      simp only [hs] at h
      cases j with
      | zero =>
        simp only [List.getElem?_cons_zero, Option.some.injEq] at hj
        subst hj
        rw [hs] at hsel
        cases hsel
      | succ j =>
        simp only [List.getElem?_cons_succ] at hj
        have hidx : i + (j + 1) = i + 1 + j := by omega
        rw [hidx]
        exact ih _ _ _ h j id sel hj hsel
    | some sa =>
      simp only [hs] at h
      by_cases ht : (owningEvent tx sa).tournamentID = tid
      · simp only [ht, ne_eq, not_true_eq_false, if_false] at h
        by_cases hc : clock i > (owningEvent tx sa).startTime
        · simp [if_pos hc] at h
        · simp only [if_neg hc] at h
          cases j with
          | zero =>
            simp only [List.getElem?_cons_zero, Option.some.injEq] at hj
            subst hj
            rw [hs] at hsel
            cases hsel
            exact ⟨ht, not_lt.1 hc⟩
          | succ j =>
            simp only [List.getElem?_cons_succ] at hj
            have hidx : i + (j + 1) = i + 1 + j := by omega
            rw [hidx]
            cases hp : tx.picks.find? (fun p => decide (p.participantID = participant.id ∧
                p.selectionID = sa.id ∧ p.sessionID = session.id)) with
            | some _ =>
              simp only [hp] at h
              exact ih _ _ _ h j id sel hj hsel
            | none =>
              simp only [hp] at h
              cases hf : f.createPick sa.id with
              | true => simp [hf] at h
              | false =>
                simp only [hf, Bool.false_eq_true, if_false] at h
                exact ih _ _ _ h j id sel hj hsel
      · simp [ht] at h

/-- Either `SubmitPicksBySession` answers with an error and gives back the
store it started from, or it answers with success, every check of steps 1 to
6 went through and the store is the one the loop of step 7 produced. -/
theorem SubmitPicksBySession_cases (now : Int) (clock : Nat → Int) (f : PickFaults)
    (db : Store) (tid uid : Nat) (input : SubmitPicksBySessionRequest) :
    ((SubmitPicksBySession now clock f db tid uid input).1.status ≠ 201 ∧
      (SubmitPicksBySession now clock f db tid uid input).2 = db) ∨
    ((SubmitPicksBySession now clock f db tid uid input).1 = picksSavedResponse ∧
      ∃ (participant : TournamentParticipant) (session : Session) (tournament : Tournament),
        bindSubmitPicksBySessionRequest input = true ∧
        db.participants.find? (fun p => decide (p.userID = uid ∧ p.tournamentID = tid))
          = some participant ∧
        db.sessions.find? (fun s => decide (s.id = input.sessionID)) = some session ∧
        session.tournamentID = tid ∧ session.status = "open" ∧ now ≤ session.endTime ∧
        db.tournaments.find? (fun t => decide (t.id = tid)) = some tournament ∧
        (input.selectionIDs.length : Int) = tournament.settings.selectionsPerSession ∧
        (tournament.settings.requiredSelectionTypes.length > 0 →
          checkRequiredTypes db tournament.settings.requiredSelectionTypes 0
            input.selectionIDs = none) ∧
        storePicks f clock tid participant session 0 input.selectionIDs db
          = .ok (SubmitPicksBySession now clock f db tid uid input).2) := by
  unfold SubmitPicksBySession
  cases hb : bindSubmitPicksBySessionRequest input with
  | false => left; simp
  | true =>
    simp only [Bool.true_eq_false, if_false]
    cases hp : db.participants.find?
        (fun p => decide (p.userID = uid ∧ p.tournamentID = tid)) with
    | none => left; simp
    | some participant =>
      simp only []
      cases hs : db.sessions.find? (fun s => decide (s.id = input.sessionID)) with
      | none => left; simp
      | some session =>
        simp only []
        by_cases h1 : session.tournamentID = tid
        · simp only [h1, ne_eq, not_true_eq_false, if_false]
          by_cases h2 : session.status = "open"
          · simp only [h2, ne_eq, not_true_eq_false, if_false]
            by_cases h3 : now > session.endTime
            · left; simp [if_pos h3]
            · simp only [if_neg h3]
              cases ht : db.tournaments.find? (fun t => decide (t.id = tid)) with
              | none => left; simp
              | some tournament =>
                simp only []
                by_cases h4 : (input.selectionIDs.length : Int)
                    = tournament.settings.selectionsPerSession
                · simp only [h4, ne_eq, not_true_eq_false, if_false]
                  cases hc : (if tournament.settings.requiredSelectionTypes.length > 0 then
                      checkRequiredTypes db tournament.settings.requiredSelectionTypes 0
                        input.selectionIDs
                    else none) with
                  | some r =>
                    left
                    simp only []
                    split_ifs at hc with hlen
                    rcases checkRequiredTypes_status _ _ _ _ _ hc with h5 | h5
                    · exact ⟨by rw [h5]; decide, trivial⟩
                    · exact ⟨by rw [h5]; decide, trivial⟩
                  | none =>
                    simp only []
                    cases hsp : storePicks f clock tid participant session 0
                        input.selectionIDs db with
                    | error r =>
                      left
                      simp only []
                      rcases storePicks_error_status _ _ _ _ _ _ _ _ _ hsp with h5 | h5
                      · exact ⟨by rw [h5]; decide, trivial⟩
                      · exact ⟨by rw [h5]; decide, trivial⟩
                    | ok tx =>
                      right
                      refine ⟨?_, participant, session, tournament, ?_, ?_, ?_, h1, h2,
                        not_lt.1 h3, ?_, ?_, ?_, ?_⟩
                      · trivial
                      · trivial
                      · trivial
                      · trivial
                      · trivial
                      · trivial
                      · intro hlen
                        rw [if_pos hlen] at hc
                        exact hc
                      · rw [hsp]
                · left
                  simp [h4, wrongCountResponse]
          · left; simp [h2]
        · left; simp [h1]

/-- Every answer of `SubmitPicksBySession` other than the success answer comes
with the store it started from: no pick of the submission is stored. -/
theorem SubmitPicksBySession_rollback (now : Int) (clock : Nat → Int) (f : PickFaults)
    (db : Store) (tid uid : Nat) (input : SubmitPicksBySessionRequest)
    (h : (SubmitPicksBySession now clock f db tid uid input).1 ≠ picksSavedResponse) :
    (SubmitPicksBySession now clock f db tid uid input).2 = db := by
  rcases SubmitPicksBySession_cases now clock f db tid uid input with h1 | h1
  · exact h1.2
  · exact absurd h1.1 h

theorem picksSaved_status :
    ∀ r : Response, r = picksSavedResponse → r.status = 201 := by
  intro r h
  rw [h]
  rfl

/-- C17: picks are stored only if the number of submitted selection ids equals
`selections_per_session` of the tournament; for every list whose length
differs the submission fails and the store is unchanged (no pick stored or
updated), and when the request reaches the count check (binding passed, the
user is a participant, the session is of the tournament, open and not past its
end) the answer is the validation error "Debe hacer exactamente N selecciones
por sesión". -/
theorem SubmitPicksBySession_count (now : Int) (clock : Nat → Int) (f : PickFaults)
    (db : Store) (tid uid : Nat) (input : SubmitPicksBySessionRequest) (t : Tournament)
    (ht : db.tournaments.find? (fun r => decide (r.id = tid)) = some t) :
    ((SubmitPicksBySession now clock f db tid uid input).1 = picksSavedResponse →
      (input.selectionIDs.length : Int) = t.settings.selectionsPerSession) ∧
    ((input.selectionIDs.length : Int) ≠ t.settings.selectionsPerSession →
      (SubmitPicksBySession now clock f db tid uid input).1 ≠ picksSavedResponse ∧
      (SubmitPicksBySession now clock f db tid uid input).2 = db ∧
      ∀ (participant : TournamentParticipant) (session : Session),
        bindSubmitPicksBySessionRequest input = true →
        db.participants.find? (fun p => decide (p.userID = uid ∧ p.tournamentID = tid))
          = some participant →
        db.sessions.find? (fun s => decide (s.id = input.sessionID)) = some session →
        session.tournamentID = tid → session.status = "open" → now ≤ session.endTime →
        (SubmitPicksBySession now clock f db tid uid input).1
          = wrongCountResponse t.settings.selectionsPerSession) := by
  have hsucc : (SubmitPicksBySession now clock f db tid uid input).1 = picksSavedResponse →
      (input.selectionIDs.length : Int) = t.settings.selectionsPerSession := by
    intro h
    rcases SubmitPicksBySession_cases now clock f db tid uid input with h1 | h1
    · exact absurd (picksSaved_status _ h) h1.1
    · obtain ⟨_, _, _, t2, _, _, _, _, _, _, ht2, hlen, _, _⟩ := h1
      rw [ht] at ht2
      cases ht2
      exact hlen
  refine ⟨hsucc, ?_⟩
  intro hne
  have hfail : (SubmitPicksBySession now clock f db tid uid input).1 ≠ picksSavedResponse :=
    fun h => hne (hsucc h)
  refine ⟨hfail, SubmitPicksBySession_rollback _ _ _ _ _ _ _ hfail, ?_⟩
  intro participant session hb hp hs h1 h2 h3
  unfold SubmitPicksBySession
  simp only [hb, Bool.true_eq_false, if_false, hp, hs, h1, ne_eq, not_true_eq_false, h2,
    not_lt.2 h3, ht, hne, not_false_eq_true, if_true]

/-- Witness of C17: one selection id where the tournament asks for two. -/
theorem SubmitPicksBySession_count_witness :
    (pickStore.tournaments.find? (fun r => decide (r.id = 2)) = some openTournament ∧
      openTournament.settings.selectionsPerSession = 2) ∧
    SubmitPicksBySession 100 (fun _ => 100) PickFaults.none pickStore 2 70 ⟨1, [1]⟩
      = (wrongCountResponse 2, pickStore) := by
  have h := (SubmitPicksBySession_count 100 (fun _ => 100) PickFaults.none pickStore 2 70
    ⟨1, [1]⟩ openTournament (by decide!)).2 (by decide)
  refine ⟨⟨by decide!, rfl⟩, ?_⟩
  exact Prod.ext
    (h.2.2 ⟨1, 70, 2, 0⟩ pickSession (by decide) (by decide) (by decide) rfl rfl (by decide))
    h.2.1

/-- C18: when the tournament has a non-empty sequence of required selection
types, a submission succeeds only if every submitted selection whose position
has a required type is of that type; a submission with a selection of another
type at such a position fails and the store is unchanged, and when the
request reaches the type check (steps 1 to 5 passed) and every submitted
selection exists the answer is a validation error (status 400). -/
theorem SubmitPicksBySession_required_types (now : Int) (clock : Nat → Int) (f : PickFaults)
    (db : Store) (tid uid : Nat) (input : SubmitPicksBySessionRequest) (t : Tournament)
    (ht : db.tournaments.find? (fun r => decide (r.id = tid)) = some t)
    (hreq : t.settings.requiredSelectionTypes ≠ []) :
    ((SubmitPicksBySession now clock f db tid uid input).1 = picksSavedResponse →
      ∀ (i id : Nat) (sel : PickableSelection) (ty : String),
        input.selectionIDs[i]? = some id →
        db.selections.find? (fun s => decide (s.id = id)) = some sel →
        t.settings.requiredSelectionTypes[i]? = some ty → sel.selectionType = ty) ∧
    ((∃ (i id : Nat) (sel : PickableSelection) (ty : String),
        input.selectionIDs[i]? = some id ∧
        db.selections.find? (fun s => decide (s.id = id)) = some sel ∧
        t.settings.requiredSelectionTypes[i]? = some ty ∧ sel.selectionType ≠ ty) →
      (SubmitPicksBySession now clock f db tid uid input).1 ≠ picksSavedResponse ∧
      (SubmitPicksBySession now clock f db tid uid input).2 = db ∧
      ∀ (participant : TournamentParticipant) (session : Session),
        bindSubmitPicksBySessionRequest input = true →
        db.participants.find? (fun p => decide (p.userID = uid ∧ p.tournamentID = tid))
          = some participant →
        db.sessions.find? (fun s => decide (s.id = input.sessionID)) = some session →
        session.tournamentID = tid → session.status = "open" → now ≤ session.endTime →
        (input.selectionIDs.length : Int) = t.settings.selectionsPerSession →
        (∀ id ∈ input.selectionIDs,
          ∃ sel, db.selections.find? (fun s => decide (s.id = id)) = some sel) →
        (SubmitPicksBySession now clock f db tid uid input).1.status = 400) := by
  have hlen : t.settings.requiredSelectionTypes.length > 0 :=
    List.length_pos.2 hreq
  have hsucc : (SubmitPicksBySession now clock f db tid uid input).1 = picksSavedResponse →
      ∀ (i id : Nat) (sel : PickableSelection) (ty : String),
        input.selectionIDs[i]? = some id →
        db.selections.find? (fun s => decide (s.id = id)) = some sel →
        t.settings.requiredSelectionTypes[i]? = some ty → sel.selectionType = ty := by
    intro h i id sel ty hi hsel hty
    rcases SubmitPicksBySession_cases now clock f db tid uid input with h1 | h1
    · exact absurd (picksSaved_status _ h) h1.1
    · obtain ⟨_, _, _, t2, _, _, _, _, _, _, ht2, _, hchk, _⟩ := h1
      rw [ht] at ht2
      cases ht2
      exact checkRequiredTypes_none db _ _ 0 (hchk hlen) i id sel ty hi hsel
        (by rw [Nat.zero_add]; exact hty)
  refine ⟨hsucc, ?_⟩
  rintro ⟨i, id, sel, ty, hi, hsel, hty, hne⟩
  have hfail : (SubmitPicksBySession now clock f db tid uid input).1 ≠ picksSavedResponse :=
    fun h => hne (hsucc h i id sel ty hi hsel hty)
  refine ⟨hfail, SubmitPicksBySession_rollback _ _ _ _ _ _ _ hfail, ?_⟩
  intro participant session hb hp hs h1 h2 h3 h4 hall
  cases hc : checkRequiredTypes db t.settings.requiredSelectionTypes 0 input.selectionIDs with
  | none =>
    exact absurd (checkRequiredTypes_none db _ _ 0 hc i id sel ty hi hsel
      (by rw [Nat.zero_add]; exact hty)) hne
  | some r =>
    have hst := checkRequiredTypes_status_of_found db _ _ hall 0 r hc
    unfold SubmitPicksBySession
    simp only [hb, Bool.true_eq_false, if_false, hp, hs, h1, ne_eq, not_true_eq_false, h2,
      not_lt.2 h3, ht, h4, if_pos hlen, hc]
    exact hst

/-- Witness of C18: the macho and the alta selection submitted in the wrong
order for the required types alta, macho. -/
theorem SubmitPicksBySession_required_types_witness :
    (pickStore.tournaments.find? (fun r => decide (r.id = 2)) = some openTournament ∧
      openTournament.settings.requiredSelectionTypes = ["alta", "macho"]) ∧
    (SubmitPicksBySession 100 (fun _ => 100) PickFaults.none pickStore 2 70 ⟨1, [3, 1]⟩).1.status
      = 400 ∧
    (SubmitPicksBySession 100 (fun _ => 100) PickFaults.none pickStore 2 70 ⟨1, [3, 1]⟩).2
      = pickStore := by
  have h := (SubmitPicksBySession_required_types 100 (fun _ => 100) PickFaults.none pickStore
    2 70 ⟨1, [3, 1]⟩ openTournament (by decide!) (by decide)).2
    ⟨0, 3, sampleMacho, "alta", by decide, by decide!, by decide, by decide⟩
  refine ⟨⟨by decide!, rfl⟩, ?_, h.2.1⟩
  refine h.2.2 ⟨1, 70, 2, 0⟩ pickSession (by decide) (by decide) (by decide) rfl rfl
    (by decide) (by decide) ?_
  intro id hid
  have hid2 : id = 3 ∨ id = 1 := by simpa using hid
  rcases hid2 with h3 | h1
  · exact ⟨sampleMacho, by rw [h3]; decide!⟩
  · exact ⟨sampleAlta, by rw [h1]; decide!⟩

/-- C19, as stated, fails: at a current time equal to the end time of the
session (500) the submission succeeds and its two picks are stored. -/
theorem SubmitPicksBySession_at_session_end :
    pickSession.endTime = 500 ∧
    pickStore.picks = [] ∧
    (SubmitPicksBySession 500 (fun _ => 100) PickFaults.none pickStore 2 70 pickRequest).1
      = picksSavedResponse ∧
    (SubmitPicksBySession 500 (fun _ => 100) PickFaults.none pickStore 2 70
      pickRequest).2.picks.length = 2 := by
  decide!

/-- C19, amended: a submission succeeds only if the session of the request
exists, belongs to the tournament of the request, has status "open" and the
current time is not after its end time; in every other case it fails and the
store is unchanged (no pick stored). -/
theorem SubmitPicksBySession_session (now : Int) (clock : Nat → Int) (f : PickFaults)
    (db : Store) (tid uid : Nat) (input : SubmitPicksBySessionRequest) :
    ((SubmitPicksBySession now clock f db tid uid input).1 = picksSavedResponse →
      ∃ s : Session, db.sessions.find? (fun r => decide (r.id = input.sessionID)) = some s ∧
        s.tournamentID = tid ∧ s.status = "open" ∧ now ≤ s.endTime) ∧
    ((¬ ∃ s : Session, db.sessions.find? (fun r => decide (r.id = input.sessionID)) = some s ∧
        s.tournamentID = tid ∧ s.status = "open" ∧ now ≤ s.endTime) →
      (SubmitPicksBySession now clock f db tid uid input).1 ≠ picksSavedResponse ∧
      (SubmitPicksBySession now clock f db tid uid input).2 = db) := by
  have hsucc : (SubmitPicksBySession now clock f db tid uid input).1 = picksSavedResponse →
      ∃ s : Session, db.sessions.find? (fun r => decide (r.id = input.sessionID)) = some s ∧
        s.tournamentID = tid ∧ s.status = "open" ∧ now ≤ s.endTime := by
    intro h
    rcases SubmitPicksBySession_cases now clock f db tid uid input with h1 | h1
    · exact absurd (picksSaved_status _ h) h1.1
    · obtain ⟨_, _, s, _, _, _, hs, h2, h3, h4, _⟩ := h1
      exact ⟨s, hs, h2, h3, h4⟩
  refine ⟨hsucc, ?_⟩
  intro hno
  have hfail : (SubmitPicksBySession now clock f db tid uid input).1 ≠ picksSavedResponse :=
    fun h => hno (hsucc h)
  exact ⟨hfail, SubmitPicksBySession_rollback _ _ _ _ _ _ _ hfail⟩

/-- Witness of C19 amended: one instant after the end of the session the
submission is refused and the store is unchanged. -/
theorem SubmitPicksBySession_session_witness :
    pickSession.endTime = 500 ∧
    (SubmitPicksBySession 501 (fun _ => 100) PickFaults.none pickStore 2 70 pickRequest).1
      ≠ picksSavedResponse ∧
    (SubmitPicksBySession 501 (fun _ => 100) PickFaults.none pickStore 2 70 pickRequest).2
      = pickStore := by
  refine ⟨rfl, (SubmitPicksBySession_session 501 (fun _ => 100) PickFaults.none pickStore 2 70
    pickRequest).2 ?_⟩
  rintro ⟨s, hs, _, _, hle⟩
  have hs2 : pickStore.sessions.find? (fun r => decide (r.id = pickRequest.sessionID))
      = some pickSession := by decide
  rw [hs2] at hs
  cases hs
  exact absurd hle (by decide)

/-- C20, as stated, fails: at a current time equal to the start time of the
event (1000) the submission succeeds and its two picks are stored. -/
theorem SubmitPicksBySession_at_event_start :
    pickEvent.startTime = 1000 ∧
    pickStore.picks = [] ∧
    (SubmitPicksBySession 100 (fun _ => 1000) PickFaults.none pickStore 2 70 pickRequest).1
      = picksSavedResponse ∧
    (SubmitPicksBySession 100 (fun _ => 1000) PickFaults.none pickStore 2 70
      pickRequest).2.picks.length = 2 := by
  decide!

/-- C20, amended: a submission succeeds only if, for every submitted id that
names a selection, the event of the selection belongs to the tournament of the
request and the time read for that id is not after the start time of the
event; if some submitted selection violates this the call fails and the store
is unchanged, so that no pick of the submission, not even for an earlier
selection of the list, remains stored. -/
theorem SubmitPicksBySession_events (now : Int) (clock : Nat → Int) (f : PickFaults)
    (db : Store) (tid uid : Nat) (input : SubmitPicksBySessionRequest) :
    ((SubmitPicksBySession now clock f db tid uid input).1 = picksSavedResponse →
      ∀ (i id : Nat) (sel : PickableSelection),
        input.selectionIDs[i]? = some id →
        db.selections.find? (fun s => decide (s.id = id)) = some sel →
        (owningEvent db sel).tournamentID = tid ∧ clock i ≤ (owningEvent db sel).startTime) ∧
    ((∃ (i id : Nat) (sel : PickableSelection),
        input.selectionIDs[i]? = some id ∧
        db.selections.find? (fun s => decide (s.id = id)) = some sel ∧
        ((owningEvent db sel).tournamentID ≠ tid ∨ (owningEvent db sel).startTime < clock i)) →
      (SubmitPicksBySession now clock f db tid uid input).1 ≠ picksSavedResponse ∧
      (SubmitPicksBySession now clock f db tid uid input).2 = db) := by
  have hsucc : (SubmitPicksBySession now clock f db tid uid input).1 = picksSavedResponse →
      ∀ (i id : Nat) (sel : PickableSelection),
        input.selectionIDs[i]? = some id →
        db.selections.find? (fun s => decide (s.id = id)) = some sel →
        (owningEvent db sel).tournamentID = tid ∧
          clock i ≤ (owningEvent db sel).startTime := by
    intro h i id sel hi hsel
    rcases SubmitPicksBySession_cases now clock f db tid uid input with h1 | h1
    · exact absurd (picksSaved_status _ h) h1.1
    · obtain ⟨_, p, s, _, _, _, _, _, _, _, _, _, _, hsp⟩ := h1
      have := storePicks_ok_events f clock tid p s input.selectionIDs 0 db _ hsp i id sel hi hsel
      rw [Nat.zero_add] at this
      exact this
  refine ⟨hsucc, ?_⟩
  rintro ⟨i, id, sel, hi, hsel, hbad⟩
  have hfail : (SubmitPicksBySession now clock f db tid uid input).1 ≠ picksSavedResponse := by
    intro h
    obtain ⟨h1, h2⟩ := hsucc h i id sel hi hsel
    rcases hbad with hb | hb
    · exact hb h1
    · exact absurd h2 (not_le.2 hb)
  exact ⟨hfail, SubmitPicksBySession_rollback _ _ _ _ _ _ _ hfail⟩

/-- Witness of C20 amended: the time read for the second selection is one
instant after the start of the event; the submission is refused and the pick
of the first selection is not stored either. -/
theorem SubmitPicksBySession_events_witness :
    pickEvent.startTime = 1000 ∧
    (SubmitPicksBySession 100 (fun i => if i = 0 then 1000 else 1001) PickFaults.none pickStore
      2 70 pickRequest).1 ≠ picksSavedResponse ∧
    (SubmitPicksBySession 100 (fun i => if i = 0 then 1000 else 1001) PickFaults.none pickStore
      2 70 pickRequest).2 = pickStore :=
  ⟨rfl, (SubmitPicksBySession_events 100 (fun i => if i = 0 then 1000 else 1001)
    PickFaults.none pickStore 2 70 pickRequest).2
    ⟨1, 3, sampleMacho, by decide, by decide!, Or.inr (by decide!)⟩⟩

/-! ## One pick per participant, selection and session (C21) -/

theorem store_with_picks_self (tx : Store) : ({ tx with picks := tx.picks ++ [] } : Store) = tx := by
  cases tx
  simp

/-- The loop of step 7 only appends picks: every other table is as before. -/
theorem storePicks_ok_frame (f : PickFaults) (clock : Nat → Int) (tid : Nat)
    (participant : TournamentParticipant) (session : Session) (ids : List Nat) :
    ∀ (i : Nat) (tx tx2 : Store),
      storePicks f clock tid participant session i ids tx = .ok tx2 →
      ∃ added : List UserPick, tx2 = { tx with picks := tx.picks ++ added } := by
  induction ids with
  | nil =>
    intro i tx tx2 h
    simp only [storePicks, Except.ok.injEq] at h
    exact ⟨[], by rw [← h, store_with_picks_self]⟩
  | cons a rest ih =>
    intro i tx tx2 h
    simp only [storePicks] at h
    cases hs : tx.selections.find? (fun s => decide (s.id = a)) with
    | none =>
      simp only [hs] at h
      exact ih _ _ _ h
    | some sa =>
      simp only [hs] at h
      by_cases ht : (owningEvent tx sa).tournamentID = tid
      · simp only [ht, ne_eq, not_true_eq_false, if_false] at h
        by_cases hc : clock i > (owningEvent tx sa).startTime
        · simp [if_pos hc] at h
        · simp only [if_neg hc] at h
          cases hp : tx.picks.find? (fun p => decide (p.participantID = participant.id ∧
              p.selectionID = sa.id ∧ p.sessionID = session.id)) with
          | some _ =>
            simp only [hp] at h
            exact ih _ _ _ h
          | none =>
            simp only [hp] at h
            cases hf : f.createPick sa.id with
            | true => simp [hf] at h
            | false =>
              simp only [hf, Bool.false_eq_true, if_false] at h
              obtain ⟨added, hadd⟩ := ih _ _ _ h
              refine ⟨(⟨nextPickID tx.picks, participant.id, sa.id, session.id, "pending", 0⟩ :
                UserPick) :: added, ?_⟩
              rw [hadd]
              simp only [List.append_assoc, List.singleton_append]
      · simp [ht] at h

/-- The loop of step 7 keeps the keys of the stored picks pairwise distinct. -/
theorem storePicks_ok_nodup (f : PickFaults) (clock : Nat → Int) (tid : Nat)
    (participant : TournamentParticipant) (session : Session) (ids : List Nat) :
    ∀ (i : Nat) (tx tx2 : Store),
      storePicks f clock tid participant session i ids tx = .ok tx2 →
      (pickKeys tx).Nodup → (pickKeys tx2).Nodup := by
  induction ids with
  | nil =>
    intro i tx tx2 h hn
    simp only [storePicks, Except.ok.injEq] at h
    rw [← h]
    exact hn
  | cons a rest ih =>
    intro i tx tx2 h hn
    simp only [storePicks] at h
    cases hs : tx.selections.find? (fun s => decide (s.id = a)) with
    | none =>
      simp only [hs] at h
      exact ih _ _ _ h hn
    | some sa =>
      simp only [hs] at h
      by_cases ht : (owningEvent tx sa).tournamentID = tid
      · simp only [ht, ne_eq, not_true_eq_false, if_false] at h
        by_cases hc : clock i > (owningEvent tx sa).startTime
        · simp [if_pos hc] at h
        · simp only [if_neg hc] at h
          cases hp : tx.picks.find? (fun p => decide (p.participantID = participant.id ∧
              p.selectionID = sa.id ∧ p.sessionID = session.id)) with
          | some _ =>
            simp only [hp] at h
            exact ih _ _ _ h hn
          | none =>
            simp only [hp] at h
            cases hf : f.createPick sa.id with
            | true => simp [hf] at h
            | false =>
              simp only [hf, Bool.false_eq_true, if_false] at h
              refine ih _ _ _ h ?_
              have hnone := List.find?_eq_none.1 hp
              unfold pickKeys at hn ⊢
              simp only [List.map_append, List.map_cons, List.map_nil]
              refine List.nodup_append.2 ⟨hn, List.nodup_singleton _, ?_⟩
              intro key hk hk2
              simp only [List.mem_singleton] at hk2
              obtain ⟨p, hp1, hp2⟩ := List.mem_map.1 hk
              have := hnone p hp1
              rw [hk2] at hp2
              simp only [Prod.mk.injEq] at hp2
              simp [hp2.1, hp2.2.1, hp2.2.2] at this
      · simp [ht] at h

/-- Every call of `SubmitPicksBySession` only appends picks to the store. -/
theorem SubmitPicksBySession_frame (now : Int) (clock : Nat → Int) (f : PickFaults)
    (db : Store) (tid uid : Nat) (input : SubmitPicksBySessionRequest) :
    ∃ added : List UserPick,
      (SubmitPicksBySession now clock f db tid uid input).2
        = { db with picks := db.picks ++ added } := by
  rcases SubmitPicksBySession_cases now clock f db tid uid input with h | h
  · exact ⟨[], by rw [h.2, store_with_picks_self]⟩
  · obtain ⟨_, p, s, _, _, _, _, _, _, _, _, _, _, hsp⟩ := h
    exact storePicks_ok_frame f clock tid p s input.selectionIDs 0 db _ hsp

theorem SubmitPicksBySession_nodup (now : Int) (clock : Nat → Int) (f : PickFaults)
    (db : Store) (tid uid : Nat) (input : SubmitPicksBySessionRequest)
    (hn : (pickKeys db).Nodup) :
    (pickKeys (SubmitPicksBySession now clock f db tid uid input).2).Nodup := by
  rcases SubmitPicksBySession_cases now clock f db tid uid input with h | h
  · rw [h.2]
    exact hn
  · obtain ⟨_, p, s, _, _, _, _, _, _, _, _, _, _, hsp⟩ := h
    exact storePicks_ok_nodup f clock tid p s input.selectionIDs 0 db _ hsp hn

theorem runSubmissions_nodup (calls : List Submission) :
    ∀ db : Store, (pickKeys db).Nodup → (pickKeys (runSubmissions calls db)).Nodup := by
  induction calls with
  | nil => intro db h; exact h
  | cons c rest ih =>
    intro db h
    unfold runSubmissions
    simp only [List.foldl_cons]
    exact ih _ (SubmitPicksBySession_nodup _ _ _ _ _ _ _ h)

/-- C21, as stated, fails: from a store with no pick, the sample submission in
the first session followed by the same two selections in the second session
leaves two picks for the pair (participant 1, selection 1) and two for
(participant 1, selection 3). -/
theorem SubmitPicksBySession_same_selection_two_sessions :
    twoSessionStore.picks = [] ∧
    pickKeys (runSubmissions twoSessionCalls twoSessionStore)
      = [(1, 1, 1), (1, 3, 1), (1, 1, 2), (1, 3, 2)] ∧
    ¬ (pickPairs (runSubmissions twoSessionCalls twoSessionStore)).Nodup := by
  decide!

/-- C21, amended: in every state reached through `SubmitPicksBySession` calls
from a state with no picks there is at most one stored pick for each
(participant, selection, session) triple, and every call keeps the picks that
are stored and only appends new ones: a selection submitted again in the same
session creates no second pick. -/
theorem SubmitPicksBySession_one_pick_per_session (calls : List Submission) (db : Store)
    (h : db.picks = []) :
    (pickKeys (runSubmissions calls db)).Nodup ∧
    ∀ c : Submission, ∃ added : List UserPick,
      Submission.apply (runSubmissions calls db) c
        = { runSubmissions calls db with
            picks := (runSubmissions calls db).picks ++ added } := by
  refine ⟨runSubmissions_nodup calls db ?_, ?_⟩
  · unfold pickKeys
    rw [h]
    exact List.nodup_nil
  · intro c
    exact SubmitPicksBySession_frame _ _ _ _ _ _ _

/-- Witness of C21 amended: the two sample submissions, each sent twice. -/
theorem SubmitPicksBySession_one_pick_per_session_witness :
    (pickKeys (runSubmissions (twoSessionCalls ++ twoSessionCalls) twoSessionStore)).Nodup ∧
    (runSubmissions (twoSessionCalls ++ twoSessionCalls) twoSessionStore).picks.length = 4 :=
  ⟨(SubmitPicksBySession_one_pick_per_session (twoSessionCalls ++ twoSessionCalls)
    twoSessionStore rfl).1, by decide!⟩

/-! ## Shape of a successful settlement -/

/-- A successful `SettleEvent` went through every step: the binding, the load
of an event that is not completed, the two loops and the save of the event,
whose result is the store it leaves. -/
theorem SettleEvent_ok_inv (mkSlug : String → String) (f : Faults) (db : Store)
    (eventID : Nat) (input : SetEventResultRequest)
    (hok : (SettleEvent mkSlug f db eventID input).1 = settledResponse) :
    ∃ (event : Event) (m : List (Nat × CompetitorResult)) (total : Int) (tx1 tx2 : Store),
      bindSetEventResultRequest input = true ∧
      db.events.find? (fun e => decide (e.id = eventID)) = some event ∧
      event.status ≠ "completed" ∧
      applyResults f event.id input.results [] 0 db = some (m, total, tx1) ∧
      settleSelections f (db.competitors.filter (fun c => decide (c.eventID = event.id))) m total
        (db.selections.filter (fun s => decide (s.eventID = event.id))) tx1 = some tx2 ∧
      saveEvent mkSlug f tx2 { event with status := "completed" }
        = some (SettleEvent mkSlug f db eventID input).2 := by
  have hne : ∀ r : Response, r.status ≠ 200 → r ≠ settledResponse := by
    intro r hr h
    exact hr (by rw [h]; rfl)
  cases hb : bindSetEventResultRequest input with
  | false =>
    unfold SettleEvent at hok
    simp only [hb, if_true] at hok
    exact absurd hok (hne _ (by simp [invalidResultsResponse]))
  | true =>
    cases hev : db.events.find? (fun e => decide (e.id = eventID)) with
    | none =>
      unfold SettleEvent at hok
      simp only [hb, Bool.true_eq_false, if_false, hev] at hok
      exact absurd hok (hne _ (by simp))
    | some event =>
      by_cases hst : event.status = "completed"
      · unfold SettleEvent at hok
        simp only [hb, Bool.true_eq_false, if_false, hev, hst, if_true] at hok
        exact absurd hok (hne _ (by simp [alreadySettledResponse]))
      · cases har : applyResults f event.id input.results [] 0 db with
        | none =>
          unfold SettleEvent at hok
          simp only [hb, Bool.true_eq_false, if_false, hev, hst, har] at hok
          exact absurd hok (hne _ (by simp))
        | some out =>
          obtain ⟨m, total, tx1⟩ := out
          cases hss : settleSelections f
              (db.competitors.filter (fun c => decide (c.eventID = event.id))) m total
              (db.selections.filter (fun s => decide (s.eventID = event.id))) tx1 with
          | none =>
            unfold SettleEvent at hok
            simp only [hb, Bool.true_eq_false, if_false, hev, hst, har, hss] at hok
            exact absurd hok (hne _ (by simp))
          | some tx2 =>
            cases hsv : saveEvent mkSlug f tx2 { event with status := "completed" } with
            | none =>
              unfold SettleEvent at hok
              simp only [hb, Bool.true_eq_false, if_false, hev, hst, har, hss, hsv] at hok
              exact absurd hok (hne _ (by simp))
            | some tx3 =>
              refine ⟨event, m, total, tx1, tx2, rfl, rfl, hst, har, hss, ?_⟩
              unfold SettleEvent
              simp only [hb, Bool.true_eq_false, if_false, hev, hst, har, hss, hsv]

/-! ## Every selection of a settled event is settled (C22) -/

theorem evaluateSelection_settled (competitors : List EventCompetitor)
    (competitorResults : List (Nat × CompetitorResult)) (totalScore : Int)
    (selection : PickableSelection) :
    Settled (evaluateSelection competitors competitorResults totalScore selection).1 := by
  unfold Settled evaluateSelection
  split_ifs
  all_goals first
    | exact Or.inl rfl
    | exact Or.inr (Or.inl rfl)
    | exact Or.inr (Or.inr rfl)
    | skip
  · split
    · split
      · split_ifs
        · exact Or.inl rfl
        · exact Or.inr (Or.inl rfl)
      · exact Or.inr (Or.inl rfl)
    · exact Or.inr (Or.inl rfl)
  · split
    · split_ifs
      · exact Or.inl rfl
      · exact Or.inr (Or.inl rfl)
    · exact Or.inr (Or.inl rfl)

theorem applyResults_selections (f : Faults) (eventID : Nat) (results : List CompetitorResult) :
    ∀ (m : List (Nat × CompetitorResult)) (total : Int) (tx : Store)
      (out : List (Nat × CompetitorResult) × Int × Store),
      applyResults f eventID results m total tx = some out →
        out.2.2.selections = tx.selections := by
  induction results with
  | nil =>
    intro m total tx out h
    simp only [applyResults, Option.some.injEq] at h
    subst h
    rfl
  | cons res rest ih =>
    intro m total tx out h
    simp only [applyResults] at h
    split_ifs at h
    have h2 := ih _ _ _ out h
    exact h2

theorem saveEvent_selections (mkSlug : String → String) (f : Faults) (tx out : Store)
    (e : Event) (h : saveEvent mkSlug f tx e = some out) :
    out.selections = tx.selections := by
  unfold saveEvent at h
  split at h
  · cases h
  · split_ifs at h
    cases h
    rfl

theorem updateUserPicksAndPoints_selections (f : Faults) (tx out : Store) (selectionID : Nat)
    (status : String) (points : Int)
    (h : updateUserPicksAndPoints f tx selectionID status points = some out) :
    out.selections = tx.selections := by
  unfold updateUserPicksAndPoints at h
  split_ifs at h
  cases h
  rfl

/-- The loop of step 3, when no status update fails: the selections table
after it is the table before with every row rewritten by a function that keeps
id and event, settles the rows whose id is the id of a selection of the loop
and keeps a settled row settled. -/
theorem settleSelections_selections (f : Faults) (hf : ∀ id : Nat, f.updateSelection id = false)
    (competitors : List EventCompetitor) (m : List (Nat × CompetitorResult)) (total : Int)
    (sels : List PickableSelection) :
    ∀ tx out : Store,
      settleSelections f competitors m total sels tx = some out →
      ∃ g : PickableSelection → PickableSelection,
        out.selections = tx.selections.map g ∧
        ∀ s : PickableSelection, (g s).id = s.id ∧ (g s).eventID = s.eventID ∧
          (s.id ∈ sels.map (fun e => e.id) → Settled (g s).status) ∧
          (Settled s.status → Settled (g s).status) := by
  induction sels with
  | nil =>
    intro tx out h
    simp only [settleSelections, Option.some.injEq] at h
    subst h
    exact ⟨id, by simp, fun s => ⟨rfl, rfl, by simp, fun h => h⟩⟩
  | cons sel rest ih =>
    intro tx out h
    have hst := evaluateSelection_settled competitors m total sel
    simp only [settleSelections, hf, Bool.false_eq_true, if_false] at h
    have hstep : ∃ tx1 : Store,
        tx1.selections = updateSelectionStatus tx.selections sel.id
          (evaluateSelection competitors m total sel).1 ∧
        settleSelections f competitors m total rest tx1 = some out := by
      by_cases hp : (evaluateSelection competitors m total sel).2 > 0
      · simp only [if_pos hp] at h
        cases hu : updateUserPicksAndPoints f
            { tx with selections := (updateSelectionStatus tx.selections sel.id
                (evaluateSelection competitors m total sel).1) } sel.id
            (evaluateSelection competitors m total sel).1
            (evaluateSelection competitors m total sel).2 with
        | none => simp [hu] at h
        | some tx2 =>
          simp only [hu] at h
          exact ⟨tx2, updateUserPicksAndPoints_selections _ _ _ _ _ _ hu, h⟩
      · simp only [if_neg hp] at h
        exact ⟨_, rfl, h⟩
    obtain ⟨tx1, hsel1, hrest⟩ := hstep
    obtain ⟨g2, hg2, hprop⟩ := ih tx1 out hrest
    refine ⟨fun s => g2 (if s.id = sel.id then
      { s with status := (evaluateSelection competitors m total sel).1 } else s), ?_, ?_⟩
    · rw [hg2, hsel1]
      unfold updateSelectionStatus
      rw [List.map_map]
      rfl
    · intro s
      by_cases hs : s.id = sel.id
      · dsimp only
        rw [if_pos hs]
        obtain ⟨h1, h2, _, h4⟩ :=
          hprop { s with status := (evaluateSelection competitors m total sel).1 }
        exact ⟨h1, h2, fun _ => h4 hst, fun _ => h4 hst⟩
      · dsimp only
        rw [if_neg hs]
        obtain ⟨h1, h2, h3, h4⟩ := hprop s
        refine ⟨h1, h2, ?_, h4⟩
        intro hmem
        simp only [List.map_cons, List.mem_cons] at hmem
        rcases hmem with hm | hm
        · exact absurd hm hs
        · exact h3 hm

/-- After a successful `SettleEvent` during which no update of a selection
status was refused, every selection attached to the event has a status among
won, lost and push; the evaluation gives one of the three to a selection of
any type. -/
theorem SettleEvent_selections_settled (mkSlug : String → String) (f : Faults) (db : Store)
    (eventID : Nat) (input : SetEventResultRequest)
    (hf : ∀ id : Nat, f.updateSelection id = false)
    (hok : (SettleEvent mkSlug f db eventID input).1 = settledResponse) :
    (∀ s ∈ (SettleEvent mkSlug f db eventID input).2.selections, s.eventID = eventID →
      s.status = "won" ∨ s.status = "lost" ∨ s.status = "push") ∧
    (∀ (competitors : List EventCompetitor) (m : List (Nat × CompetitorResult)) (total : Int)
      (selection : PickableSelection),
      (evaluateSelection competitors m total selection).1 = "won" ∨
      (evaluateSelection competitors m total selection).1 = "lost" ∨
      (evaluateSelection competitors m total selection).1 = "push") := by
  refine ⟨?_, fun competitors m total selection =>
    evaluateSelection_settled competitors m total selection⟩
  obtain ⟨event, m, total, tx1, tx2, _, hev, _, har, hss, hsv⟩ :=
    SettleEvent_ok_inv mkSlug f db eventID input hok
  have hid := find_event_id _ _ _ hev
  have h1 := applyResults_selections f event.id input.results [] 0 db _ har
  obtain ⟨g, hg, hprop⟩ := settleSelections_selections f hf _ m total _ tx1 tx2 hss
  have h3 := saveEvent_selections mkSlug f tx2 _ _ hsv
  intro s hs hse
  rw [h3, hg, h1] at hs
  obtain ⟨s0, hs0, rfl⟩ := List.mem_map.1 hs
  obtain ⟨hgid, hgev, hsettle, _⟩ := hprop s0
  apply hsettle
  refine List.mem_map.2 ⟨s0, List.mem_filter.2 ⟨hs0, ?_⟩, rfl⟩
  rw [hgev] at hse
  simp [hse, hid]

/-- The sample settlement leaves the four selections of the event as won,
lost, won and lost. -/
theorem SettleEvent_selections_settled_witness :
    (SettleEvent id Faults.none sampleStore 1 sampleRequest).2.selections.map
        (fun s => (s.id, s.status))
      = [(1, "won"), (2, "lost"), (3, "won"), (4, "lost")] ∧
    ∀ s ∈ (SettleEvent id Faults.none sampleStore 1 sampleRequest).2.selections,
      s.eventID = 1 → s.status = "won" ∨ s.status = "lost" ∨ s.status = "push" :=
  ⟨by decide!, (SettleEvent_selections_settled id Faults.none sampleStore 1 sampleRequest
    (fun _ => rfl) (by decide!)).1⟩

/-- C22 fails on the code: the error of the status update of step 3 is
dropped.  On a store that refuses these updates the sample settlement answers
200 and marks the event completed, the evaluation has given each of the four
selections of the event one of won, lost and push, and all four are left
pending. -/
theorem SettleEvent_selections_left_pending :
    (SettleEvent id selectionUpdateFails sampleStore 1 sampleRequest).1 = settledResponse ∧
    eventStatus (SettleEvent id selectionUpdateFails sampleStore 1 sampleRequest).2 1
      = some "completed" ∧
    sampleStore.selections.map
        (fun s => (s.id, s.eventID, (settlementOutcome sampleStore 1 sampleRequest s).1))
      = [(1, 1, "won"), (2, 1, "lost"), (3, 1, "won"), (4, 1, "lost")] ∧
    (SettleEvent id selectionUpdateFails sampleStore 1 sampleRequest).2.selections.map
        (fun s => (s.id, s.eventID, s.status))
      = [(1, 1, "pending"), (2, 1, "pending"), (3, 1, "pending"), (4, 1, "pending")] := by
  refine ⟨by decide!, by decide!, by decide!, by decide!⟩

/-! ## Total points never go down (C23) -/

theorem PointsKept_refl (rows : List TournamentParticipant) : PointsKept rows rows :=
  fun _ p h => ⟨p, h, rfl, rfl, rfl, le_refl _⟩

theorem PointsKept_append (rows added : List TournamentParticipant) :
    PointsKept rows (rows ++ added) := by
  intro i p h
  have hi : i < rows.length := (List.getElem?_eq_some.1 h).1
  exact ⟨p, by rw [List.getElem?_append_left hi]; exact h, rfl, rfl, rfl, le_refl _⟩

theorem PointsKept_map (rows : List TournamentParticipant) (gain : Nat → Int)
    (hgain : ∀ id : Nat, 0 ≤ gain id) :
    PointsKept rows
      (rows.map fun p => { p with totalPoints := p.totalPoints + gain p.id }) := by
  intro i p h
  refine ⟨{ p with totalPoints := p.totalPoints + gain p.id }, ?_, rfl, rfl, rfl, ?_⟩
  · rw [List.getElem?_map, h]
    rfl
  · exact le_add_of_nonneg_right (hgain p.id)

theorem pointsGained_nonneg (ev : PickableSelection → String × Int)
    (sels : List PickableSelection) (picks : List UserPick) (participantID : Nat) :
    0 ≤ pointsGained ev sels picks participantID := by
  unfold pointsGained
  apply List.sum_nonneg
  intro x hx
  obtain ⟨e, he, rfl⟩ := List.mem_map.1 hx
  have := (List.mem_filter.1 he).2
  simp only [Bool.and_eq_true, decide_eq_true_eq] at this
  exact le_of_lt this.1

theorem distributePrizes_participants (f : PrizeFaults) (clock : Nat → String)
    (t : Tournament) (pot : ℚ) (ws : List TournamentParticipant) :
    ∀ (i : Nat) (tx tx2 : Store),
      distributePrizes f clock t pot i ws tx = .ok tx2 →
      tx2.participants = tx.participants := by
  induction ws with
  | nil =>
    intro i tx tx2 h
    simp only [distributePrizes, Except.ok.injEq] at h
    subst h
    rfl
  | cons winner rest ih =>
    intro i tx tx2 h
    simp only [distributePrizes] at h
    cases hp : t.settings.prizeDistribution[i]? with
    | none =>
      simp only [hp, Except.ok.injEq] at h
      subst h
      rfl
    | some p =>
      simp only [hp] at h
      by_cases hpos : roundFloat64 (pot * p) > 0
      · simp only [if_pos hpos] at h
        cases hfw : f.findWallet winner.userID with
        | true => simp [hfw] at h
        | false =>
          simp only [hfw, Bool.false_eq_true, if_false] at h
          cases hw : tx.wallets.find? (fun w => decide (w.userID = winner.userID)) with
          | none => simp [hw] at h
          | some wallet =>
            simp only [hw] at h
            cases hsw : saveWalletRow (f.saveWallet wallet.id) tx.wallets
                { wallet with balance := roundFloat64 (wallet.balance + roundFloat64 (pot * p)) } with
            | none => simp [hsw] at h
            | some rows =>
              simp only [hsw] at h
              have h2 := ih _ _ _ h
              rw [h2]
      · simp only [if_neg hpos] at h
        exact ih _ _ _ h

theorem saveTournament_participants (mkSlug : String → String) (b : Bool) (tx : Store)
    (t : Tournament) : (saveTournament mkSlug b tx t).participants = tx.participants := by
  unfold saveTournament
  split
  · rfl
  · split <;> rfl

theorem UpdateTournamentStatus_participants (mkSlug : String → String) (clock : Nat → String)
    (f : PrizeFaults) (db : Store) (tid : Nat) (input : UpdateStatusRequest) :
    (UpdateTournamentStatus mkSlug clock f db tid input).2.participants = db.participants := by
  unfold UpdateTournamentStatus
  cases hfind : db.tournaments.find? (fun t => decide (t.id = tid)) with
  | none =>
    simp only []
    split_ifs <;> rfl
  | some t =>
    simp only []
    split_ifs with hb hc hl hfw
    · rfl
    · rfl
    · cases hd : distributePrizes f clock t (roundFloat64 (t.prizePool + t.prizeBonus)) 0
          ((rankParticipants db.participants t.id).take t.settings.prizeDistribution.length)
          db with
      | error msg => rfl
      | ok tx =>
        simp only []
        rw [saveTournament_participants]
        exact distributePrizes_participants _ _ _ _ _ _ _ _ hd
    · exact saveTournament_participants _ _ _ _
    · exact saveTournament_participants _ _ _ _

theorem DepositMoney_participants (now : String) (f : LedgerFaults) (db : Store) (userID : Nat)
    (amount : ℚ) : (DepositMoney now f db userID amount).2.participants = db.participants := by
  unfold DepositMoney
  by_cases ha : amount > 0
  · simp only [ha, not_true_eq_false, if_false]
    cases hw : db.wallets.find? (fun w => decide (w.userID = userID)) with
    | none => rfl
    | some wallet =>
      simp only []
      cases hs : saveWalletRow f.saveWallet db.wallets
          { wallet with balance := roundFloat64 (wallet.balance + amount) } with
      | none => rfl
      | some rows => rfl
  · simp only [ha, not_false_eq_true, if_true]

theorem completeJoin_participants (now : String) (f : LedgerFaults) (db : Store)
    (t : Tournament) (userID : Nat) (w : Wallet) (cost : ℚ) (currency : String) :
    ∃ added : List TournamentParticipant,
      (completeJoin now f db t userID w cost currency).2.participants
        = db.participants ++ added := by
  unfold completeJoin
  cases hs : saveWalletRow f.saveWallet db.wallets w with
  | none => exact ⟨[], by simp⟩
  | some rows =>
    simp only []
    cases hc : f.createParticipant with
    | true => exact ⟨[], by simp⟩
    | false => exact ⟨_, rfl⟩

theorem JoinTournament_participants (now : String) (f : LedgerFaults) (db : Store)
    (tournamentID userID : Nat) (input : JoinTournamentRequest) :
    ∃ added : List TournamentParticipant,
      (JoinTournament now f db tournamentID userID input).2.participants
        = db.participants ++ added := by
  have hsame : ∃ added : List TournamentParticipant,
      db.participants = db.participants ++ added := ⟨[], by simp⟩
  unfold JoinTournament
  cases ht : db.tournaments.find? (fun t => decide (t.id = tournamentID)) with
  | none => exact hsame
  | some t =>
    simp only []
    by_cases hopen : t.status = "open"
    · simp only [hopen, ne_eq, not_true_eq_false, if_false]
      cases hp : db.participants.find?
          (fun p => decide (p.userID = userID ∧ p.tournamentID = t.id)) with
      | some _ => exact hsame
      | none =>
        simp only []
        cases hw : db.wallets.find? (fun w => decide (w.userID = userID)) with
        | none => exact hsame
        | some wallet =>
          simp only []
          by_cases htok : input.payWithTokens = true ∧ t.entryFeeTokens > 0
          · simp only [if_pos htok]
            by_cases hlt : wallet.tokenBalance < t.entryFeeTokens
            · simp only [if_pos hlt]
              exact hsame
            · simp only [if_neg hlt]
              exact completeJoin_participants _ _ _ _ _ _ _ _
          · simp only [if_neg htok]
            by_cases hca : wallet.CanAfford t.entryFee = false
            · simp only [if_pos hca]
              exact hsame
            · simp only [if_neg hca]
              exact completeJoin_participants _ _ _ _ _ _ _ _
    · simp only [ne_eq, hopen, not_false_eq_true, if_true]
      exact hsame

/-- The participants table after a successful settlement, whatever the store
did on the way. -/
theorem SettleEvent_participants (mkSlug : String → String) (f : Faults) (db : Store)
    (eventID : Nat) (input : SetEventResultRequest)
    (hok : (SettleEvent mkSlug f db eventID input).1 = settledResponse) :
    (SettleEvent mkSlug f db eventID input).2.participants =
      db.participants.map (fun p =>
        { p with totalPoints := (p.totalPoints +
            pointsGained (settlementOutcome db eventID input)
              (db.selections.filter (fun s => decide (s.eventID = eventID))) db.picks p.id) }) := by
  obtain ⟨event, m, total, tx1, tx2, _, hev, _, har, hss, hsv⟩ :=
    SettleEvent_ok_inv mkSlug f db eventID input hok
  have hid := find_event_id _ _ _ hev
  obtain ⟨hm, htot, hpk, hpt⟩ := applyResults_some f event.id input.results [] 0 db _ har
  have h2 := settleSelections_participants f _ m total _ tx1 tx2 hss
  have h3 := saveEvent_participants mkSlug f tx2 _ _ hsv
  simp only at hm htot hpk hpt
  rw [h3, h2, hpk, hpt, hm, htot, hid]
  unfold participantsAfter settlementOutcome competitorResultsMap totalScoreOf
  rfl

theorem SettleEvent_points_kept (mkSlug : String → String) (f : Faults) (db : Store)
    (eventID : Nat) (input : SetEventResultRequest) :
    PointsKept db.participants (SettleEvent mkSlug f db eventID input).2.participants := by
  by_cases hok : (SettleEvent mkSlug f db eventID input).1 = settledResponse
  · rw [SettleEvent_participants mkSlug f db eventID input hok]
    exact PointsKept_map _ _ (fun id => pointsGained_nonneg _ _ _ id)
  · rw [SettleEvent_rollback mkSlug f db eventID input hok]
    exact PointsKept_refl _

/-- C23: no operation lowers the `total_points` of a participant.  For every
store, every request to `SettleEvent`, `JoinTournament`,
`SubmitPicksBySession`, `UpdateTournamentStatus` or `DepositMoney`, every
input and every failure of the store, each participant row is still there
afterwards with `total_points` at least what it was; a settlement adds the
points of a selection only when they are above 0, so that a selection with
zero or negative points changes no total. -/
theorem Operation_points_kept (op : Operation) (db : Store) :
    PointsKept db.participants (op.apply db).participants ∧
    ∀ (f : Faults) (competitors : List EventCompetitor) (m : List (Nat × CompetitorResult))
      (total : Int) (selection : PickableSelection) (tx out : Store),
      (evaluateSelection competitors m total selection).2 ≤ 0 →
      settleSelections f competitors m total [selection] tx = some out →
      out.participants = tx.participants := by
  constructor
  · cases op with
    | settle mkSlug f eventID input => exact SettleEvent_points_kept _ _ _ _ _
    | join now f tournamentID userID input =>
      obtain ⟨added, h⟩ := JoinTournament_participants now f db tournamentID userID input
      simp only [Operation.apply]
      rw [h]
      exact PointsKept_append _ _
    | submit c =>
      obtain ⟨added, h⟩ := SubmitPicksBySession_frame c.now c.clock c.faults db c.tournamentID
        c.userID c.input
      simp only [Operation.apply, Submission.apply]
      rw [h]
      exact PointsKept_refl _
    | status mkSlug clock f tournamentID input =>
      simp only [Operation.apply]
      rw [UpdateTournamentStatus_participants]
      exact PointsKept_refl _
    | deposit now f userID amount =>
      simp only [Operation.apply]
      rw [DepositMoney_participants]
      exact PointsKept_refl _
  · intro f competitors m total selection tx out hle h
    simp only [settleSelections, if_neg (not_lt.2 hle), Option.some.injEq] at h
    rw [← h]
    split_ifs <;> rfl

/-- Witness of C23: in the settlement of the penalty store the selection with
-2 points for a win is won and picked by participant 2, whose total stays at
6, while participant 1 goes from 4 to 7. -/
theorem Operation_points_kept_witness :
    PointsKept penaltyStore.participants
      ((Operation.settle id Faults.none 1 penaltyRequest).apply penaltyStore).participants ∧
    selectionStatus ((Operation.settle id Faults.none 1 penaltyRequest).apply penaltyStore) 6
      = some "won" ∧
    ((Operation.settle id Faults.none 1 penaltyRequest).apply penaltyStore).participants.map
        (fun p => (p.id, p.totalPoints)) = [(1, 7), (2, 6)] :=
  ⟨(Operation_points_kept (.settle id Faults.none 1 penaltyRequest) penaltyStore).1,
    by decide!, by decide!⟩

/-! ## Transaction numbers (C24) -/

/-- C24 fails on the code: `Transaction.BeforeCreate` builds the number from
the second of the clock and the wallet id alone, so two different deposits to
wallet 5 within the same second get the same number.  The unique index on the
column then refuses the second row, and `DepositMoney`, which does not look at
the error of the creation, credits the second deposit without a ledger row. -/
theorem Transaction_BeforeCreate_same_second :
    depositTransaction 5 (5 / 2) 5 (15 / 2) ≠ depositTransaction 5 1 (15 / 2) (17 / 2) ∧
    (Transaction.BeforeCreate "20260223120000"
      (depositTransaction 5 (5 / 2) 5 (15 / 2))).transactionNumber = "TRX-20260223120000-5" ∧
    (Transaction.BeforeCreate "20260223120000"
      (depositTransaction 5 1 (15 / 2) (17 / 2))).transactionNumber = "TRX-20260223120000-5" ∧
    (DepositMoney "20260223120000" LedgerFaults.none ledgerStore 50 (5 / 2)).2.transactions
      = [Transaction.BeforeCreate "20260223120000" (depositTransaction 5 (5 / 2) 5 (15 / 2))] ∧
    (DepositMoney "20260223120000" secondRowRefused afterFirstDeposit 50 1).1
      = depositResponse ∧
    walletBalance (DepositMoney "20260223120000" secondRowRefused afterFirstDeposit 50 1).2 50
      = some (17 / 2) ∧
    (DepositMoney "20260223120000" secondRowRefused afterFirstDeposit 50 1).2.transactions.length
      = 1 := by
  decide!

/-! ## Requests without a bearer token (C25) -/

theorem TrimPrefix_of_not_prefix (s pre : String) (h : pre.toList.isPrefixOf s.toList = false) :
    TrimPrefix s pre = s := by
  unfold TrimPrefix
  rw [h]
  rfl

theorem AuthMiddleware_no_bearer (validateToken : String → Option Claims)
    (next : Context → Context) (c : Context)
    (h : c.authorization = "" ∨ "Bearer ".toList.isPrefixOf c.authorization.toList = false) :
    AuthMiddleware validateToken next c =
      abortWith c 401 (if c.authorization = "" then "Se requiere token de autorización"
        else "Formato de token inválido") := by
  unfold AuthMiddleware
  by_cases he : c.authorization = ""
  · simp only [he, if_true]
  · rcases h with h | h
    · exact absurd h he
    · simp only [he, if_false, TrimPrefix_of_not_prefix _ _ h, if_true]

/-- C25: for every route behind `AuthMiddleware` (the user routes and the
admin routes), every handler and every request whose `Authorization` header is
empty or does not start with "Bearer ", the chain stops in the middleware:
the response has status 401, the context is otherwise the one of the request
whatever the handler is, and the store is unchanged. -/
theorem AuthMiddleware_unauthorized (validateToken : String → Option Claims)
    (handler : Context → Context) (c : Context)
    (h : c.authorization = "" ∨ "Bearer ".toList.isPrefixOf c.authorization.toList = false) :
    protectedRoute validateToken handler c =
      abortWith c 401 (if c.authorization = "" then "Se requiere token de autorización"
        else "Formato de token inválido") ∧
    adminRoute validateToken handler c =
      abortWith c 401 (if c.authorization = "" then "Se requiere token de autorización"
        else "Formato de token inválido") ∧
    ((protectedRoute validateToken handler c).response.map fun r => r.status) = some 401 ∧
    ((adminRoute validateToken handler c).response.map fun r => r.status) = some 401 ∧
    (protectedRoute validateToken handler c).db = c.db ∧
    (adminRoute validateToken handler c).db = c.db := by
  have h1 := AuthMiddleware_no_bearer validateToken handler c h
  have h2 := AuthMiddleware_no_bearer validateToken (RequireAdmin handler) c h
  unfold protectedRoute adminRoute
  rw [h1, h2]
  exact ⟨rfl, rfl, rfl, rfl, rfl, rfl⟩

/-- Witness of C25: a deposit request with the header "Token good" is answered
with 401 and the ledger store is as before, while the same request with
"Bearer good" runs the handler. -/
theorem AuthMiddleware_unauthorized_witness :
    ((protectedRoute sampleValidateToken (depositHandler "20260223120000" 1)
        { authorization := "Token good", db := ledgerStore }).response.map fun r => r.status)
      = some 401 ∧
    (protectedRoute sampleValidateToken (depositHandler "20260223120000" 1)
        { authorization := "Token good", db := ledgerStore }).db = ledgerStore ∧
    walletBalance (protectedRoute sampleValidateToken (depositHandler "20260223120000" 1)
        { authorization := "Bearer good", db := ledgerStore }).db 50 = some 6 := by
  have h := AuthMiddleware_unauthorized sampleValidateToken
    (depositHandler "20260223120000" 1) { authorization := "Token good", db := ledgerStore }
    (Or.inr (by decide))
  exact ⟨h.2.2.1, h.2.2.2.2.1, by decide!⟩

/-! ## Winner selections in a match of two (C26) -/

/-- C26 fails on the code: the sample event has exactly two competitors, the
results give competitor 1 the higher final score (2 against 1) and no
position, and the macho selection on competitor 1 is stored as lost; the
participant who picked it gains nothing from it. -/
theorem SettleEvent_higher_score_lost :
    (sampleStore.competitors.filter (fun c => decide (c.eventID = 1))).map (fun c => c.id)
      = [1, 2] ∧
    (sampleMacho.selectionType, sampleMacho.competitorID) = ("macho", some 1) ∧
    scoreOnlyRequest.results.map (fun r => (r.competitorID, r.finalScore, r.position))
      = [(1, 2, 0), (2, 1, 0)] ∧
    (SettleEvent id Faults.none sampleStore 1 scoreOnlyRequest).1 = settledResponse ∧
    selectionStatus (SettleEvent id Faults.none sampleStore 1 scoreOnlyRequest).2 3
      = some "lost" ∧
    pickStatus (SettleEvent id Faults.none sampleStore 1 scoreOnlyRequest).2 2
      = some "pending" := by
  decide!

/-! ## Selections of a type the settlement does not know (C27) -/

theorem evaluateSelection_unknown (competitors : List EventCompetitor)
    (m : List (Nat × CompetitorResult)) (total : Int) (s : PickableSelection)
    (h : s.selectionType ∉ ["alta", "baja", "macho", "hembra", "ganador", "empate"]) :
    evaluateSelection competitors m total s = ("lost", 0) := by
  simp only [List.mem_cons, List.mem_singleton, List.not_mem_nil, or_false, not_or] at h
  unfold evaluateSelection
  simp only [h.1, h.2.1, h.2.2.1, h.2.2.2.1, h.2.2.2.2.1, h.2.2.2.2.2, if_false, or_self]

theorem eq_of_id_eq (rows : List PickableSelection) (hnd : (rows.map (fun e => e.id)).Nodup)
    (a b : PickableSelection) (ha : a ∈ rows) (hb : b ∈ rows) (hid : a.id = b.id) : a = b :=
  List.inj_on_of_nodup_map hnd ha hb hid

/-- A selection without positive points can be left out of the sum of the
points that a participant gains. -/
theorem pointsGained_filter (ev : PickableSelection → String × Int)
    (sels : List PickableSelection) (picks : List UserPick) (pid x : Nat)
    (hx : ∀ e ∈ sels, e.id = x → ¬ (ev e).2 > 0) :
    pointsGained ev sels picks pid
      = pointsGained ev (sels.filter (fun e => decide (e.id ≠ x))) picks pid := by
  unfold pointsGained
  rw [List.filter_filter]
  congr 2
  apply List.filter_congr
  intro e he
  by_cases hid : e.id = x
  · have := hx e he hid
    simp [this]
  · simp [hid]

/-- C27: a selection whose type is none of alta, baja, macho, hembra, ganador
and empate is evaluated as lost with 0 points for every results list; the
loop of step 3 writes nothing but its status; and after a settlement on a
store that does not fail the selection is stored as lost, every pick on it is
as it was, and the total of every participant is what the other selections of
the event give. -/
theorem SettleEvent_unknown_type (s : PickableSelection)
    (h : s.selectionType ∉ ["alta", "baja", "macho", "hembra", "ganador", "empate"]) :
    (∀ (competitors : List EventCompetitor) (m : List (Nat × CompetitorResult)) (total : Int),
      evaluateSelection competitors m total s = ("lost", 0)) ∧
    (∀ (f : Faults) (competitors : List EventCompetitor) (m : List (Nat × CompetitorResult))
      (total : Int) (rest : List PickableSelection) (tx : Store),
      settleSelections f competitors m total (s :: rest) tx =
        settleSelections f competitors m total rest
          (if f.updateSelection s.id = true then tx
            else { tx with selections := updateSelectionStatus tx.selections s.id "lost" })) ∧
    (∀ (mkSlug : String → String) (db : Store) (eventID : Nat) (input : SetEventResultRequest)
      (event : Event),
      bindSetEventResultRequest input = true →
      db.events.find? (fun e => decide (e.id = eventID)) = some event →
      event.status ≠ "completed" →
      5 ≤ event.resultNote.utf8ByteSize →
      (db.selections.map (fun e => e.id)).Nodup →
      s ∈ db.selections → s.eventID = eventID →
      (SettleEvent mkSlug Faults.none db eventID input).1 = settledResponse ∧
      selectionStatus (SettleEvent mkSlug Faults.none db eventID input).2 s.id = some "lost" ∧
      (∀ (i : Nat) (k : UserPick), db.picks[i]? = some k → k.selectionID = s.id →
        (SettleEvent mkSlug Faults.none db eventID input).2.picks[i]? = some k) ∧
      (SettleEvent mkSlug Faults.none db eventID input).2.participants =
        db.participants.map (fun p =>
          { p with totalPoints := (p.totalPoints +
              pointsGained (settlementOutcome db eventID input)
                ((db.selections.filter (fun e => decide (e.eventID = eventID))).filter
                  (fun e => decide (e.id ≠ s.id))) db.picks p.id) })) := by
  refine ⟨fun competitors m total => evaluateSelection_unknown competitors m total s h, ?_, ?_⟩
  · intro f competitors m total rest tx
    simp only [settleSelections, evaluateSelection_unknown competitors m total s h,
      gt_iff_lt, lt_self_iff_false, if_false]
  · intro mkSlug db eventID input event hbind hev hst hnote hpk hs hse
    have hout : settlementOutcome db eventID input s = ("lost", 0) := by
      unfold settlementOutcome
      exact evaluateSelection_unknown _ _ _ s h
    have hnone := SettleEvent_none mkSlug db eventID input event hbind hev hst hnote hpk
    have hzero : ∀ e ∈ db.selections.filter (fun e => decide (e.eventID = eventID)),
        e.id = s.id → ¬ (settlementOutcome db eventID input e).2 > 0 := by
      intro e he hid
      have hes : e = s := eq_of_id_eq _ hpk e s (List.mem_filter.1 he).1 hs hid
      rw [hes, hout]
      exact lt_irrefl _
    refine ⟨by rw [hnone], ?_, ?_, ?_⟩
    · rw [selectionStatus_settled mkSlug db eventID input event s hbind hev hst hnote hpk hs hse,
        hout]
    · intro i k hk hks
      rw [hnone]
      simp only [picksAfter, List.getElem?_map, hk, Option.map_some', Option.some.injEq]
      have hfind : (db.selections.filter (fun e => decide (e.eventID = eventID))).find?
          (fun e => decide (e.id = k.selectionID ∧
            (settlementOutcome db eventID input e).2 > 0)) = none := by
        rw [List.find?_eq_none]
        intro e he
        simp only [decide_eq_true_eq, not_and]
        intro hid
        exact hzero e he (hid.trans hks)
      rw [hfind]
    · rw [hnone]
      simp only [participantsAfter]
      apply List.map_congr_left
      intro p _
      rw [pointsGained_filter _ _ _ _ s.id hzero]

/-- Witness of C27: the runline selection of the penalty store, picked by
participant 2, is stored as lost and pick 4 on it stays pending with 0
points. -/
theorem SettleEvent_unknown_type_witness :
    sampleRunline.selectionType = "runline" ∧
    selectionStatus (SettleEvent id Faults.none penaltyStore 1 penaltyRequest).2 5
      = some "lost" ∧
    (SettleEvent id Faults.none penaltyStore 1 penaltyRequest).2.picks[3]?
      = some { id := 4, participantID := 2, selectionID := 5, sessionID := 1,
               status := "pending", awardedPoints := 0 } := by
  have h := (SettleEvent_unknown_type sampleRunline (by decide)).2.2 id penaltyStore 1
    penaltyRequest sampleEvent (by decide) (by decide!) (by decide) (by decide) (by decide!)
    (by decide!) rfl
  exact ⟨rfl, h.2.1, h.2.2.1 3 _ (by decide!) rfl⟩

/-! ## The prizes of one finalization against the pot (C28) -/

theorem replace_wallet_sum (w2 : Wallet) (rows : List Wallet)
    (hnd : (rows.map (fun r => r.id)).Nodup) (w : Wallet) (hw : w ∈ rows)
    (hid : w2.id = w.id) :
    ((rows.map fun r => if r.id = w2.id then w2 else r).map fun r => r.balance).sum
      = (rows.map fun r => r.balance).sum - w.balance + w2.balance := by
  induction rows with
  | nil => cases hw
  | cons a rest ih =>
    simp only [List.map_cons, List.nodup_cons] at hnd
    by_cases ha : a.id = w2.id
    · have haw : a = w := by
        rcases List.mem_cons.1 hw with h | h
        · exact h.symm
        · exact absurd (List.mem_map.2 ⟨w, h, by rw [ha, hid]⟩) hnd.1
      have hrest : rest.map (fun r => if r.id = w2.id then w2 else r) = rest := by
        conv_rhs => rw [← List.map_id rest]
        apply List.map_congr_left
        intro r hr
        have hne : ¬ r.id = w2.id := by
          intro h1
          exact hnd.1 (List.mem_map.2 ⟨r, hr, by rw [h1, ha]⟩)
        simp only [hne, if_false, id]
      subst haw
      rw [List.map_cons, if_pos ha, hrest]
      simp only [List.map_cons, List.sum_cons]
      ring
    · have hw2 : w ∈ rest := by
        rcases List.mem_cons.1 hw with h | h
        · exact absurd (by rw [← h, hid]) ha
        · exact h
      simp only [List.map_cons, ha, if_false, List.sum_cons, ih hnd.2 hw2]
      ring

theorem replace_wallet_ids (w2 : Wallet) (rows : List Wallet) :
    (rows.map fun r => if r.id = w2.id then w2 else r).map (fun r => r.id)
      = rows.map (fun r => r.id) := by
  rw [List.map_map]
  apply List.map_congr_left
  intro r _
  simp only [Function.comp]
  split_ifs with h
  · exact h.symm
  · rfl

theorem BeforeCreate_amount (now : String) (t : Transaction) :
    (Transaction.BeforeCreate now t).amount = t.amount ∧
    (Transaction.BeforeCreate now t).type = t.type := by
  unfold Transaction.BeforeCreate
  split_ifs <;> exact ⟨rfl, rfl⟩

theorem sum_drop_nonneg (fs : List ℚ) (hfs : ∀ p ∈ fs, 0 ≤ p) (i : Nat) :
    0 ≤ (fs.drop i).sum :=
  List.sum_nonneg fun p hp => hfs p (List.mem_of_mem_drop hp)

theorem replace_wallet_userIDs (w2 : Wallet) (rows : List Wallet) (w : Wallet)
    (hnd : (rows.map (fun r => r.id)).Nodup) (hw : w ∈ rows) (hid : w2.id = w.id)
    (hu : w2.userID = w.userID) :
    (rows.map fun r => if r.id = w2.id then w2 else r).map (fun r => r.userID)
      = rows.map (fun r => r.userID) := by
  rw [List.map_map]
  apply List.map_congr_left
  intro r hr
  simp only [Function.comp]
  split_ifs with h
  · have hrw : r = w := List.inj_on_of_nodup_map hnd hr hw (h.trans hid)
    rw [hu, hrw]
  · rfl

theorem mem_replace_wallet (w2 : Wallet) (rows : List Wallet) (x : Wallet)
    (hx : x ∈ rows.map (fun r => if r.id = w2.id then w2 else r)) :
    x = w2 ∨ (x ∈ rows ∧ x.id ≠ w2.id) := by
  obtain ⟨r, hr, hrx⟩ := List.mem_map.1 hx
  split_ifs at hrx with h
  · exact Or.inl hrx.symm
  · subst hrx
    exact Or.inr ⟨hr, h⟩

theorem numberTaken_eq_false (rows : List Transaction) (number : String)
    (h : ∀ r ∈ rows, r.transactionNumber ≠ number) : numberTaken rows number = false := by
  unfold numberTaken
  rw [List.any_eq_false]
  intro r hr
  simpa using h r hr

/-- The loop over the winners when its float operations are exact: the rows it
appends are prize rows, the sum of their amounts is at most what the balances
of all wallets gained, that gain is at most the pot times the sum of the
fractions from rank `i` on, and the two sums are equal when no creation of a
row fails and the numbers of the rows are new and differ from wallet to
wallet. -/
theorem distributePrizes_total (f : PrizeFaults) (clock : Nat → String) (t : Tournament)
    (pot : ℚ) (hpot : 0 ≤ pot)
    (hfs : ∀ p ∈ t.settings.prizeDistribution, 0 ≤ p)
    (hprod : ∀ p ∈ t.settings.prizeDistribution, roundFloat64 (pot * p) = pot * p)
    (ws : List TournamentParticipant) :
    ∀ (i : Nat) (tx tx2 : Store),
      distributePrizes f clock t pot i ws tx = .ok tx2 →
      (tx.wallets.map (fun r => r.id)).Nodup →
      (tx.wallets.map (fun r => r.userID)).Nodup →
      (ws.map (fun p => p.userID)).Nodup →
      (∀ x ∈ tx.wallets, x.userID ∈ ws.map (fun p => p.userID) →
        ∀ p ∈ t.settings.prizeDistribution,
          roundFloat64 (x.balance + pot * p) = x.balance + pot * p) →
      ∃ rows : List Transaction,
        tx2.transactions = tx.transactions ++ rows ∧
        (∀ r ∈ rows, r.type = "prize") ∧
        amountSum rows ≤ balanceSum tx2 - balanceSum tx ∧
        balanceSum tx2 - balanceSum tx ≤ pot * (t.settings.prizeDistribution.drop i).sum ∧
        ((∀ id : Nat, f.createTransaction id = false) →
          (∀ x ∈ tx.wallets, x.userID ∈ ws.map (fun p => p.userID) →
            ∀ j < t.settings.prizeDistribution.length, ∀ r ∈ tx.transactions,
              r.transactionNumber ≠ prizeNumber clock j x.id) →
          (∀ a ∈ tx.wallets.map (fun r => r.id), ∀ b ∈ tx.wallets.map (fun r => r.id),
            ∀ j < t.settings.prizeDistribution.length,
            ∀ k < t.settings.prizeDistribution.length,
              prizeNumber clock j a = prizeNumber clock k b → a = b) →
          amountSum rows = balanceSum tx2 - balanceSum tx) := by
  induction ws with
  | nil =>
    intro i tx tx2 h _ _ _ _
    simp only [distributePrizes, Except.ok.injEq] at h
    subst h
    exact ⟨[], by simp, by simp, by simp [amountSum],
      by rw [sub_self]; exact mul_nonneg hpot (sum_drop_nonneg _ hfs i),
      fun _ _ _ => by simp [amountSum]⟩
  | cons winner rest ih =>
    intro i tx tx2 h hnd hndu hndw hex
    simp only [distributePrizes] at h
    cases hp : t.settings.prizeDistribution[i]? with
    | none =>
      simp only [hp, Except.ok.injEq] at h
      subst h
      exact ⟨[], by simp, by simp, by simp [amountSum],
        by rw [sub_self]; exact mul_nonneg hpot (sum_drop_nonneg _ hfs i),
        fun _ _ _ => by simp [amountSum]⟩
    | some p =>
      simp only [hp] at h
      have hi : i < t.settings.prizeDistribution.length := (List.getElem?_eq_some.1 hp).1
      have hpi : t.settings.prizeDistribution[i] = p := (List.getElem?_eq_some.1 hp).2
      have hpmem : p ∈ t.settings.prizeDistribution := by rw [← hpi]; exact List.getElem_mem _
      have hdrop : (t.settings.prizeDistribution.drop i).sum
          = p + (t.settings.prizeDistribution.drop (i + 1)).sum := by
        rw [List.drop_eq_getElem_cons hi, List.sum_cons, hpi]
      have hp0 : 0 ≤ p := hfs p hpmem
      simp only [List.map_cons, List.nodup_cons] at hndw
      have hexrest : ∀ (wallets : List Wallet), (∀ x ∈ wallets, x.userID ∈ rest.map
          (fun p => p.userID) → x ∈ tx.wallets) →
          ∀ x ∈ wallets, x.userID ∈ rest.map (fun p => p.userID) →
            ∀ p ∈ t.settings.prizeDistribution,
              roundFloat64 (x.balance + pot * p) = x.balance + pot * p := by
        intro wallets hsub x hx hxu q hq
        exact hex x (hsub x hx hxu) (List.mem_cons_of_mem _ hxu) q hq
      rw [hprod p hpmem] at h
      by_cases hpos : pot * p > 0
      · simp only [if_pos hpos] at h
        cases hfw : f.findWallet winner.userID with
        | true => simp [hfw] at h
        | false =>
          simp only [hfw, Bool.false_eq_true, if_false] at h
          cases hw : tx.wallets.find? (fun w => decide (w.userID = winner.userID)) with
          | none => simp [hw] at h
          | some wallet =>
            simp only [hw] at h
            have hmem : wallet ∈ tx.wallets := List.mem_of_find?_eq_some hw
            have hwu : wallet.userID = winner.userID := by
              have := List.find?_some hw
              simpa using this
            have hexw : roundFloat64 (wallet.balance + pot * p) = wallet.balance + pot * p :=
              hex wallet hmem (by rw [hwu]; exact List.mem_cons_self _ _) p hpmem
            simp only [hprod p hpmem, hexw] at h
            cases hsw : saveWalletRow (f.saveWallet wallet.id) tx.wallets
                { wallet with balance := wallet.balance + pot * p } with
            | none => simp [hsw] at h
            | some rows1 =>
              simp only [hsw] at h
              have hrows1 : rows1 = tx.wallets.map (fun r =>
                  if r.id = wallet.id then { wallet with balance := wallet.balance + pot * p }
                  else r) := by
                unfold saveWalletRow at hsw
                split_ifs at hsw
                simp only [Option.some.injEq] at hsw
                exact hsw.symm
              have hsum1 : (rows1.map fun r => r.balance).sum
                  = (tx.wallets.map fun r => r.balance).sum + pot * p := by
                rw [hrows1]
                have := replace_wallet_sum
                  { wallet with balance := wallet.balance + pot * p } tx.wallets hnd wallet
                  hmem rfl
                simp only at this
                rw [this]
                ring
              have hids1 : rows1.map (fun r => r.id) = tx.wallets.map (fun r => r.id) := by
                rw [hrows1]
                exact replace_wallet_ids
                  { wallet with balance := wallet.balance + pot * p } tx.wallets
              have huids1 : rows1.map (fun r => r.userID)
                  = tx.wallets.map (fun r => r.userID) := by
                rw [hrows1]
                exact replace_wallet_userIDs
                  { wallet with balance := wallet.balance + pot * p } tx.wallets wallet hnd hmem
                  rfl rfl
              have hkeep : ∀ x ∈ rows1, x.userID ∈ rest.map (fun p => p.userID) →
                  x ∈ tx.wallets ∧ x.id ≠ wallet.id := by
                intro x hx hxu
                rw [hrows1] at hx
                rcases mem_replace_wallet
                  { wallet with balance := wallet.balance + pot * p } tx.wallets x hx with h1 | h1
                · exfalso
                  apply hndw.1
                  rw [← hwu]
                  rw [h1] at hxu
                  exact hxu
                · exact h1
              obtain ⟨rows, h1, h2, h3, h4, h5⟩ := ih (i + 1) _ tx2 h
                (by show (rows1.map (fun r => r.id)).Nodup; rw [hids1]; exact hnd)
                (by show (rows1.map (fun r => r.userID)).Nodup; rw [huids1]; exact hndu)
                hndw.2
                (hexrest rows1 (fun x hx hxu => (hkeep x hx hxu).1))
              simp only at h1 h3 h4 h5
              have hbal : balanceSum tx2 - balanceSum tx
                  = (balanceSum tx2 - (rows1.map fun r => r.balance).sum) + pot * p := by
                unfold balanceSum
                rw [hsum1]
                ring
              have hrow := BeforeCreate_amount (clock i)
                (prizeTransaction t i wallet.id (pot * p) (wallet.balance + pot * p))
              have hnumber := BeforeCreate_number (clock i)
                (prizeTransaction t i wallet.id (pot * p) (wallet.balance + pot * p)) rfl
              have hbound : balanceSum tx2 - balanceSum tx
                  ≤ pot * (t.settings.prizeDistribution.drop i).sum := by
                rw [hbal, hdrop, mul_add, add_comm]
                exact add_le_add_left h4 _
              rcases createTransaction_cases (f.createTransaction wallet.id) (clock i)
                tx.transactions
                (prizeTransaction t i wallet.id (pot * p) (wallet.balance + pot * p)) with hc | hc
              · rw [hc] at h1 h5
                refine ⟨rows, h1, h2, ?_, hbound, ?_⟩
                · rw [hbal]
                  exact le_trans h3 (le_add_of_nonneg_right (le_of_lt hpos))
                · intro hcreate hfresh _
                  exfalso
                  have hacc := createTransaction_accepted (clock i) tx.transactions
                    (prizeTransaction t i wallet.id (pot * p) (wallet.balance + pot * p))
                    (numberTaken_eq_false _ _ (by
                      intro r hr
                      rw [hnumber]
                      exact hfresh wallet hmem (by rw [hwu]; exact List.mem_cons_self _ _)
                        i hi r hr))
                  rw [hcreate wallet.id] at hc
                  rw [hc] at hacc
                  have := congrArg List.length hacc
                  simp at this
              · rw [hc] at h1 h5
                have e1 : amountSum (Transaction.BeforeCreate (clock i)
                    (prizeTransaction t i wallet.id (pot * p) (wallet.balance + pot * p)) :: rows)
                    = pot * p + amountSum rows := by
                  simp only [amountSum, List.map_cons, List.sum_cons, hrow.1]
                  rfl
                refine ⟨Transaction.BeforeCreate (clock i)
                  (prizeTransaction t i wallet.id (pot * p) (wallet.balance + pot * p)) :: rows,
                  ?_, ?_, ?_, hbound, ?_⟩
                · rw [h1]
                  simp only [List.append_assoc, List.singleton_append]
                · intro r hr
                  rcases List.mem_cons.1 hr with hr | hr
                  · rw [hr, hrow.2]
                    rfl
                  · exact h2 r hr
                · rw [e1, hbal, add_comm]
                  exact add_le_add_right h3 _
                · intro hcreate hfresh hinj
                  rw [e1, hbal, add_comm]
                  congr 1
                  apply h5 hcreate
                  · intro x hx hxu j hj r hr
                    obtain ⟨hx1, hx2⟩ := hkeep x hx hxu
                    rcases List.mem_append.1 hr with hr | hr
                    · exact hfresh x hx1 (List.mem_cons_of_mem _ hxu) j hj r hr
                    · rw [List.mem_singleton] at hr
                      rw [hr, hnumber]
                      intro heq
                      apply hx2
                      exact (hinj wallet.id (List.mem_map.2 ⟨wallet, hmem, rfl⟩) x.id
                        (List.mem_map.2 ⟨x, hx1, rfl⟩) i hi j hj heq).symm
                  · show ∀ a ∈ rows1.map (fun r => r.id), ∀ b ∈ rows1.map (fun r => r.id), _
                    rw [hids1]
                    exact hinj
      · simp only [if_neg hpos] at h
        obtain ⟨rows, h1, h2, h3, h4, h5⟩ := ih (i + 1) tx tx2 h hnd hndu hndw.2
          (hexrest tx.wallets (fun x hx _ => hx))
        refine ⟨rows, h1, h2, h3, ?_, ?_⟩
        · rw [hdrop, mul_add]
          exact le_trans h4 (le_add_of_nonneg_left (mul_nonneg hpot hp0))
        · intro hcreate hfresh hinj
          exact h5 hcreate
            (fun x hx hxu j hj r hr => hfresh x hx (List.mem_cons_of_mem _ hxu) j hj r hr) hinj

theorem saveTournament_transactions (mkSlug : String → String) (b : Bool) (tx : Store)
    (t : Tournament) : (saveTournament mkSlug b tx t).transactions = tx.transactions := by
  unfold saveTournament
  split
  · rfl
  · split <;> rfl

theorem saveTournament_balanceSum (mkSlug : String → String) (b : Bool) (tx : Store)
    (t : Tournament) : balanceSum (saveTournament mkSlug b tx t) = balanceSum tx := by
  unfold balanceSum
  rw [saveTournament_wallets]

/-- C28, counterexample: prizes are added as `float64`.  The pot is the float
nearest to 0.2, all of it for the first rank, and the wallet of the winner
holds the float nearest to 0.1: the balance becomes the float
0.30000000000000004, so the amount credited is above the pot and differs from
the amount of the prize row, which is the pot. -/
theorem UpdateTournamentStatus_credit_above_pot :
    dimeTournament.prizePool + dimeTournament.prizeBonus = float02 ∧ 0 ≤ float02 ∧
    dimeTournament.settings.prizeDistribution = [1] ∧
    balanceSum
        (UpdateTournamentStatus id sampleClock PrizeFaults.none dimeStore 1 ⟨"finished"⟩).2
      - balanceSum dimeStore = 7205759403792795 / 36028797018963968 ∧
    (UpdateTournamentStatus id sampleClock PrizeFaults.none dimeStore 1
        ⟨"finished"⟩).2.transactions.map (fun r => (r.type, r.amount))
      = [("prize", float02)] ∧
    float02 < 7205759403792795 / 36028797018963968 := by
  refine ⟨by decide!, by decide!, by decide!, by decide!, by decide!, by decide!⟩

/-- C28 (amended): one request to `UpdateTournamentStatus` on a tournament
whose schedule has only non-negative fractions that add up to at most 1 and
whose pot is at least 0, for every set of participants and every requested
status, when the float operations of the distribution are exact (the pot, its
product with every fraction, and the sum of every balance with such a
product): the rows it appends are prize rows, the sum of their amounts is at
most what the balances of all wallets gained, that gain is at most the pot,
and the two sums are equal when the store accepts every prize row (no
creation fails, the numbers of the rows are not stored yet and differ from
wallet to wallet).  The unique indexes on (user, tournament), on the wallet id
and on the wallet user are hypotheses. -/
theorem UpdateTournamentStatus_prize_total (mkSlug : String → String) (clock : Nat → String)
    (f : PrizeFaults) (db : Store) (tid : Nat) (input : UpdateStatusRequest) (t : Tournament)
    (ht : db.tournaments.find? (fun r => decide (r.id = tid)) = some t)
    (hids : (db.wallets.map (fun r => r.id)).Nodup)
    (huids : (db.wallets.map (fun r => r.userID)).Nodup)
    (hpart : ((db.participants.filter (fun p => decide (p.tournamentID = tid))).map
      (fun p => p.userID)).Nodup)
    (hfs : ∀ p ∈ t.settings.prizeDistribution, 0 ≤ p)
    (hsum : t.settings.prizeDistribution.sum ≤ 1)
    (hpot : 0 ≤ t.prizePool + t.prizeBonus)
    (hexpot : roundFloat64 (t.prizePool + t.prizeBonus) = t.prizePool + t.prizeBonus)
    (hexprod : ∀ p ∈ t.settings.prizeDistribution,
      roundFloat64 ((t.prizePool + t.prizeBonus) * p) = (t.prizePool + t.prizeBonus) * p)
    (hexsum : ∀ w ∈ db.wallets, ∀ p ∈ t.settings.prizeDistribution,
      roundFloat64 (w.balance + (t.prizePool + t.prizeBonus) * p)
        = w.balance + (t.prizePool + t.prizeBonus) * p) :
    ∃ rows : List Transaction,
      (UpdateTournamentStatus mkSlug clock f db tid input).2.transactions
        = db.transactions ++ rows ∧
      (∀ r ∈ rows, r.type = "prize") ∧
      amountSum rows
        ≤ balanceSum (UpdateTournamentStatus mkSlug clock f db tid input).2 - balanceSum db ∧
      balanceSum (UpdateTournamentStatus mkSlug clock f db tid input).2 - balanceSum db
        ≤ t.prizePool + t.prizeBonus ∧
      ((∀ id : Nat, f.createTransaction id = false) →
        (∀ w ∈ db.wallets, ∀ j < t.settings.prizeDistribution.length, ∀ r ∈ db.transactions,
          r.transactionNumber ≠ prizeNumber clock j w.id) →
        (∀ a ∈ db.wallets.map (fun r => r.id), ∀ b ∈ db.wallets.map (fun r => r.id),
          ∀ j < t.settings.prizeDistribution.length,
          ∀ k < t.settings.prizeDistribution.length,
            prizeNumber clock j a = prizeNumber clock k b → a = b) →
        amountSum rows
          = balanceSum (UpdateTournamentStatus mkSlug clock f db tid input).2
            - balanceSum db) := by
  have hid := find_tournament_id _ _ _ ht
  have hnothing : ∀ out : Store, out.transactions = db.transactions →
      balanceSum out = balanceSum db →
      ∃ rows : List Transaction, out.transactions = db.transactions ++ rows ∧
        (∀ r ∈ rows, r.type = "prize") ∧
        amountSum rows ≤ balanceSum out - balanceSum db ∧
        balanceSum out - balanceSum db ≤ t.prizePool + t.prizeBonus ∧
        ((∀ id : Nat, f.createTransaction id = false) →
          (∀ w ∈ db.wallets, ∀ j < t.settings.prizeDistribution.length, ∀ r ∈ db.transactions,
            r.transactionNumber ≠ prizeNumber clock j w.id) →
          (∀ a ∈ db.wallets.map (fun r => r.id), ∀ b ∈ db.wallets.map (fun r => r.id),
            ∀ j < t.settings.prizeDistribution.length,
            ∀ k < t.settings.prizeDistribution.length,
              prizeNumber clock j a = prizeNumber clock k b → a = b) →
          amountSum rows = balanceSum out - balanceSum db) := by
    intro out h1 h2
    refine ⟨[], by rw [h1]; simp, by simp, by rw [h2]; simp [amountSum], ?_,
      fun _ _ _ => by rw [h2]; simp [amountSum]⟩
    rw [h2, sub_self]
    exact hpot
  unfold UpdateTournamentStatus
  simp only [ht, hexpot]
  split_ifs with hb hc hl hfw
  · exact hnothing db rfl rfl
  · exact hnothing db rfl rfl
  · cases hd : distributePrizes f clock t (t.prizePool + t.prizeBonus) 0
        ((rankParticipants db.participants t.id).take t.settings.prizeDistribution.length)
        db with
    | error msg => exact hnothing db rfl rfl
    | ok tx =>
      have hndw : (((rankParticipants db.participants t.id).take
          t.settings.prizeDistribution.length).map (fun p => p.userID)).Nodup := by
        rw [hid]
        exact ((List.take_sublist _ _).map _).nodup
          (nodup_rankParticipants db.participants tid hpart)
      obtain ⟨rows, h1, h2, h3, h4, h5⟩ :=
        distributePrizes_total f clock t _ hpot hfs hexprod _ 0 db tx hd hids huids hndw
          (fun x hx _ p hp => hexsum x hx p hp)
      simp only []
      refine ⟨rows, ?_, h2, ?_, ?_, ?_⟩
      · rw [saveTournament_transactions, h1]
      · rw [saveTournament_balanceSum]; exact h3
      · rw [saveTournament_balanceSum]
        refine le_trans h4 ?_
        rw [List.drop_zero]
        calc (t.prizePool + t.prizeBonus) * t.settings.prizeDistribution.sum
            ≤ (t.prizePool + t.prizeBonus) * 1 := mul_le_mul_of_nonneg_left hsum hpot
          _ = t.prizePool + t.prizeBonus := mul_one _
      · intro hcreate hfresh hinj
        rw [saveTournament_balanceSum]
        exact h5 hcreate (fun x hx _ j hj r hr => hfresh x hx j hj r hr) hinj
  · exact hnothing _ (saveTournament_transactions _ _ _ _) (saveTournament_balanceSum _ _ _ _)
  · exact hnothing _ (saveTournament_transactions _ _ _ _) (saveTournament_balanceSum _ _ _ _)

/-- Witness of C28: the finalization of the sample tournament with the
schedule 0.5, 0.25, 0.25 (pot 100) credits 100 in all, in three prize rows of
50, 25 and 25. -/
theorem UpdateTournamentStatus_prize_total_witness :
    balanceSum
        (UpdateTournamentStatus id sampleClock PrizeFaults.none dyadicStore 1 ⟨"finished"⟩).2
      - balanceSum dyadicStore = 100 ∧
    (UpdateTournamentStatus id sampleClock PrizeFaults.none dyadicStore 1
        ⟨"finished"⟩).2.transactions.map (fun r => (r.type, r.amount))
      = [("prize", 50), ("prize", 25), ("prize", 25)] ∧
    ∃ rows : List Transaction,
      (UpdateTournamentStatus id sampleClock PrizeFaults.none dyadicStore 1
          ⟨"finished"⟩).2.transactions = dyadicStore.transactions ++ rows ∧
      (∀ r ∈ rows, r.type = "prize") ∧
      amountSum rows
        = balanceSum
            (UpdateTournamentStatus id sampleClock PrizeFaults.none dyadicStore 1
              ⟨"finished"⟩).2
          - balanceSum dyadicStore ∧
      balanceSum
          (UpdateTournamentStatus id sampleClock PrizeFaults.none dyadicStore 1 ⟨"finished"⟩).2
        - balanceSum dyadicStore
        ≤ dyadicTournament.prizePool + dyadicTournament.prizeBonus := by
  obtain ⟨rows, h1, h2, _, h4, h5⟩ :=
    UpdateTournamentStatus_prize_total id sampleClock PrizeFaults.none dyadicStore 1
      ⟨"finished"⟩ dyadicTournament (by decide!) (by decide) (by decide) (by decide)
      (by decide!) (by decide!) (by decide!) (by decide!) (by decide!) (by decide!)
  exact ⟨by decide!, by decide!, rows, h1, h2,
    h5 (fun _ => rfl) (by decide!) (by decide!), h4⟩

/-! ## What a successful submission stores (C29) -/

/-- After the loop of step 7 every submitted id that names a selection has a
pick of the participant in the session. -/
theorem storePicks_ok_stored (f : PickFaults) (clock : Nat → Int) (tid : Nat)
    (participant : TournamentParticipant) (session : Session) (ids : List Nat) :
    ∀ (i : Nat) (tx tx2 : Store),
      storePicks f clock tid participant session i ids tx = .ok tx2 →
      ∀ id ∈ ids, ∀ sel : PickableSelection,
        tx.selections.find? (fun s => decide (s.id = id)) = some sel →
        ∃ k ∈ tx2.picks, k.participantID = participant.id ∧ k.selectionID = id ∧
          k.sessionID = session.id := by
  induction ids with
  | nil => intro i tx tx2 _ id hid; cases hid
  | cons a rest ih =>
    intro i tx tx2 h id hid sel hsel
    simp only [storePicks] at h
    cases hs : tx.selections.find? (fun s => decide (s.id = a)) with
    | none =>
      simp only [hs] at h
      rcases List.mem_cons.1 hid with hia | hir
      · rw [hia, hs] at hsel
        cases hsel
      · exact ih _ _ _ h id hir sel hsel
    | some sa =>
      simp only [hs] at h
      have hsa : sa.id = a := by
        have := List.find?_some hs
        simpa using this
      by_cases ht : (owningEvent tx sa).tournamentID = tid
      · simp only [ht, ne_eq, not_true_eq_false, if_false] at h
        by_cases hc : clock i > (owningEvent tx sa).startTime
        · simp [if_pos hc] at h
        · simp only [if_neg hc] at h
          cases hp : tx.picks.find? (fun p => decide (p.participantID = participant.id ∧
              p.selectionID = sa.id ∧ p.sessionID = session.id)) with
          | some k0 =>
            simp only [hp] at h
            rcases List.mem_cons.1 hid with hia | hir
            · obtain ⟨added, hadd⟩ := storePicks_ok_frame f clock tid participant session rest
                _ _ _ h
              have hk := List.find?_some hp
              simp only [decide_eq_true_eq] at hk
              refine ⟨k0, ?_, hk.1, ?_, hk.2.2⟩
              · rw [hadd]
                exact List.mem_append_left _ (List.mem_of_find?_eq_some hp)
              · rw [hk.2.1, hsa, hia]
            · exact ih _ _ _ h id hir sel hsel
          | none =>
            simp only [hp] at h
            cases hf : f.createPick sa.id with
            | true => simp [hf] at h
            | false =>
              simp only [hf, Bool.false_eq_true, if_false] at h
              rcases List.mem_cons.1 hid with hia | hir
              · obtain ⟨added, hadd⟩ := storePicks_ok_frame f clock tid participant session
                  rest _ _ _ h
                refine ⟨⟨nextPickID tx.picks, participant.id, sa.id, session.id, "pending", 0⟩,
                  ?_, rfl, ?_, rfl⟩
                · rw [hadd]
                  simp only [List.append_assoc, List.mem_append, List.mem_singleton, true_or,
                    or_true, List.singleton_append, List.mem_cons]
                · show sa.id = id
                  rw [hsa, hia]
              · exact ih _ _ _ h id hir sel hsel
      · simp [ht] at h

/-- When the loop of step 6 runs to its end every submitted id names a
selection. -/
theorem checkRequiredTypes_exists (db : Store) (required : List String) (ids : List Nat) :
    ∀ i : Nat, checkRequiredTypes db required i ids = none →
      ∀ id ∈ ids, ∃ sel : PickableSelection,
        db.selections.find? (fun s => decide (s.id = id)) = some sel := by
  induction ids with
  | nil => intro i _ id hid; cases hid
  | cons a rest ih =>
    intro i h id hid
    simp only [checkRequiredTypes] at h
    cases hs : db.selections.find? (fun s => decide (s.id = a)) with
    | none => simp [hs] at h
    | some sa =>
      simp only [hs] at h
      rcases List.mem_cons.1 hid with hia | hir
      · exact ⟨sa, by rw [hia]; exact hs⟩
      · cases hr : required[i]? with
        | none =>
          simp only [hr] at h
          exact ih _ h id hir
        | some ta =>
          simp only [hr] at h
          by_cases hta : sa.selectionType = ta
          · simp only [hta, ne_eq, not_true_eq_false, if_false] at h
            exact ih _ h id hir
          · simp [hta] at h

/-- C29, as stated, fails: in a tournament without required selection types a
submission of selection 1 and of the id 99, which names no selection, succeeds
and stores one pick. -/
theorem SubmitPicksBySession_missing_selection_skipped :
    freeStore.selections.find? (fun s => decide (s.id = 99)) = none ∧
    (SubmitPicksBySession 100 (fun _ => 100) PickFaults.none freeStore 2 70 ⟨1, [1, 99]⟩).1
      = picksSavedResponse ∧
    pickKeys (SubmitPicksBySession 100 (fun _ => 100) PickFaults.none freeStore 2 70
      ⟨1, [1, 99]⟩).2 = [(1, 1, 1)] := by
  decide!

/-- C29, amended: whenever `SubmitPicksBySession` succeeds, every submitted id
that names a selection has a stored pick of the submitting participant in the
given session afterwards; and when the tournament has required selection
types, every submitted id names a selection, so that a submission with an id
of a selection that does not exist does not succeed. -/
theorem SubmitPicksBySession_stored (now : Int) (clock : Nat → Int) (f : PickFaults)
    (db : Store) (tid uid : Nat) (input : SubmitPicksBySessionRequest)
    (hok : (SubmitPicksBySession now clock f db tid uid input).1 = picksSavedResponse) :
    (∃ participant : TournamentParticipant,
      db.participants.find? (fun p => decide (p.userID = uid ∧ p.tournamentID = tid))
        = some participant ∧
      ∀ id ∈ input.selectionIDs, ∀ sel : PickableSelection,
        db.selections.find? (fun s => decide (s.id = id)) = some sel →
        ∃ k ∈ (SubmitPicksBySession now clock f db tid uid input).2.picks,
          k.participantID = participant.id ∧ k.selectionID = id ∧
            k.sessionID = input.sessionID) ∧
    (∀ t : Tournament, db.tournaments.find? (fun r => decide (r.id = tid)) = some t →
      t.settings.requiredSelectionTypes ≠ [] →
      ∀ id ∈ input.selectionIDs, ∃ sel : PickableSelection,
        db.selections.find? (fun s => decide (s.id = id)) = some sel) := by
  rcases SubmitPicksBySession_cases now clock f db tid uid input with h | h
  · exact absurd (picksSaved_status _ hok) h.1
  · obtain ⟨_, p, s, t, _, hp, hs, _, _, _, ht, _, hreq, hsp⟩ := h
    have hsid : s.id = input.sessionID := by
      have := List.find?_some hs
      simpa using this
    constructor
    · refine ⟨p, hp, ?_⟩
      intro id hid sel hsel
      obtain ⟨k, hk, h1, h2, h3⟩ :=
        storePicks_ok_stored f clock tid p s input.selectionIDs 0 db _ hsp id hid sel hsel
      exact ⟨k, hk, h1, h2, h3.trans hsid⟩
    · intro t2 ht2 hne
      rw [ht] at ht2
      cases ht2
      have hlen : t.settings.requiredSelectionTypes.length > 0 :=
        List.length_pos.2 hne
      exact checkRequiredTypes_exists db _ _ 0 (hreq hlen)

/-- Witness of C29 amended: after the sample submission the selections 1 and 3
each have a pick of participant 1 in session 1. -/
theorem SubmitPicksBySession_stored_witness :
    pickKeys (SubmitPicksBySession 100 (fun _ => 100) PickFaults.none pickStore 2 70
      pickRequest).2 = [(1, 1, 1), (1, 3, 1)] ∧
    ∀ id ∈ pickRequest.selectionIDs, ∃ sel : PickableSelection,
      pickStore.selections.find? (fun s => decide (s.id = id)) = some sel :=
  ⟨by decide!, (SubmitPicksBySession_stored 100 (fun _ => 100) PickFaults.none pickStore 2 70
    pickRequest (by decide!)).2 openTournament (by decide!) (by decide)⟩

/-! ## Total points against awarded points (C30) -/

/-- C30, as stated, fails: in the store reached by the two sample submissions
participant 1 holds picks on the selections 1 and 3 in two sessions; the
settlement of the event adds 3 + 5 = 8 to the total of the participant, while
the four picks carry 3 + 5 + 3 + 5 = 16 awarded points. -/
theorem SettleEvent_two_sessions_points :
    pickKeys afterTwoSessions = [(1, 1, 1), (1, 3, 1), (1, 1, 2), (1, 3, 2)] ∧
    (SettleEvent id Faults.none afterTwoSessions 1 sampleRequest).1 = settledResponse ∧
    participantPoints afterTwoSessions 1 = some 0 ∧
    participantPoints (SettleEvent id Faults.none afterTwoSessions 1 sampleRequest).2 1
      = some 8 ∧
    awardedOnEvent (SettleEvent id Faults.none afterTwoSessions 1 sampleRequest).2 1 1 = 16 := by
  decide!

theorem sum_indicator (x : Nat) (c : Int) (picks : List UserPick)
    (hnd : (picks.map (fun k => k.selectionID)).Nodup) :
    (picks.map (fun k => if k.selectionID = x then c else 0)).sum
      = if x ∈ picks.map (fun k => k.selectionID) then c else 0 := by
  induction picks with
  | nil => simp
  | cons a rest ih =>
    simp only [List.map_cons, List.nodup_cons] at hnd
    simp only [List.map_cons, List.sum_cons, ih hnd.2, List.mem_cons]
    by_cases ha : a.selectionID = x
    · have hnot : x ∉ rest.map (fun k => k.selectionID) := by
        rw [← ha]
        exact hnd.1
      simp [ha, hnot]
    · have hne : ¬ x = a.selectionID := fun h => ha h.symm
      simp [ha, hne]

theorem awardFor_cons (ev : PickableSelection → String × Int) (e : PickableSelection)
    (rest : List PickableSelection) (h : e.id ∉ rest.map (fun e => e.id)) (k : UserPick) :
    awardFor ev (e :: rest) k
      = (if e.id = k.selectionID ∧ (ev e).2 > 0 then (ev e).2 else 0) + awardFor ev rest k := by
  unfold awardFor
  by_cases hc : e.id = k.selectionID ∧ (ev e).2 > 0
  · have hnone : rest.find? (fun e1 => decide (e1.id = k.selectionID ∧ (ev e1).2 > 0)) = none :=
      find_id_eq_none rest k.selectionID (by rw [← hc.1]; exact h) (fun e1 => (ev e1).2 > 0)
    rw [List.find?_cons, decide_eq_true hc, hnone, if_pos hc]
    simp
  · rw [List.find?_cons, decide_eq_false hc, if_neg hc, zero_add]

theorem any_iff_mem_filter (picks : List UserPick) (x pid : Nat) :
    picks.any (fun k => decide (k.selectionID = x ∧ k.participantID = pid)) = true ↔
      x ∈ (picks.filter (fun k => decide (k.participantID = pid))).map
        (fun k => k.selectionID) := by
  simp only [List.any_eq_true, decide_eq_true_eq, List.mem_map, List.mem_filter]
  constructor
  · rintro ⟨k, hk, h1, h2⟩
    exact ⟨k, ⟨hk, h2⟩, h1⟩
  · rintro ⟨k, ⟨hk, h2⟩, h1⟩
    exact ⟨k, hk, h1, h2⟩

theorem nodup_selections_of_pairs (picks : List UserPick) (pid : Nat)
    (h : (picks.map (fun p => (p.participantID, p.selectionID))).Nodup) :
    ((picks.filter (fun k => decide (k.participantID = pid))).map
      (fun k => k.selectionID)).Nodup := by
  have h1 : ((picks.filter (fun k => decide (k.participantID = pid))).map
      (fun p => (p.participantID, p.selectionID))).Nodup :=
    ((List.filter_sublist picks).map _).nodup h
  have h2 : (picks.filter (fun k => decide (k.participantID = pid))).map
      (fun p => (p.participantID, p.selectionID))
      = ((picks.filter (fun k => decide (k.participantID = pid))).map
          (fun k => k.selectionID)).map (fun s => (pid, s)) := by
    rw [List.map_map]
    apply List.map_congr_left
    intro k hk
    have := (List.mem_filter.1 hk).2
    simp only [decide_eq_true_eq] at this
    simp [this]
  rw [h2] at h1
  exact List.Nodup.of_map _ h1

/-- The points written into the picks of a participant add up to the points
that the participant gains, when the participant holds at most one pick on
each selection. -/
theorem awardFor_sum (ev : PickableSelection → String × Int) (picks : List UserPick)
    (pid : Nat)
    (hone : ((picks.filter (fun k => decide (k.participantID = pid))).map
      (fun k => k.selectionID)).Nodup) :
    ∀ sels : List PickableSelection, (sels.map (fun e => e.id)).Nodup →
      ((picks.filter (fun k => decide (k.participantID = pid))).map (awardFor ev sels)).sum
        = pointsGained ev sels picks pid := by
  intro sels
  induction sels with
  | nil =>
    intro _
    have hz : awardFor ev [] = fun _ => 0 := by
      funext k
      simp [awardFor]
    rw [hz]
    simp [pointsGained]
  | cons e rest ih =>
    intro hnd
    simp only [List.map_cons, List.nodup_cons] at hnd
    rw [pointsGained_cons, ← ih hnd.2]
    have hfun : (fun k => awardFor ev (e :: rest) k)
        = fun k => (if e.id = k.selectionID ∧ (ev e).2 > 0 then (ev e).2 else 0)
            + awardFor ev rest k := by
      funext k
      exact awardFor_cons ev e rest hnd.1 k
    have heta : awardFor ev (e :: rest) = fun k => awardFor ev (e :: rest) k := rfl
    rw [heta, hfun, List.sum_map_add]
    congr 1
    by_cases hpos : (ev e).2 > 0
    · have hind : (fun k : UserPick =>
          if e.id = k.selectionID ∧ (ev e).2 > 0 then (ev e).2 else 0)
          = fun k => if k.selectionID = e.id then (ev e).2 else 0 := by
        funext k
        by_cases hk : k.selectionID = e.id
        · rw [if_pos ⟨hk.symm, hpos⟩, if_pos hk]
        · rw [if_neg (fun h => hk h.1.symm), if_neg hk]
      rw [hind, sum_indicator e.id (ev e).2 _ hone]
      by_cases hany : picks.any
          (fun k => decide (k.selectionID = e.id ∧ k.participantID = pid)) = true
      · rw [if_pos ((any_iff_mem_filter picks e.id pid).1 hany), if_pos ⟨hpos, hany⟩]
      · rw [if_neg (fun h => hany ((any_iff_mem_filter picks e.id pid).2 h)),
          if_neg (fun h => hany h.2)]
    · have hind : (fun k : UserPick =>
          if e.id = k.selectionID ∧ (ev e).2 > 0 then (ev e).2 else 0) = fun _ => 0 := by
        funext k
        rw [if_neg (fun h => hpos h.2)]
      rw [hind, if_neg (fun h => hpos h.1)]
      simp
theorem sum_filter_and (picks : List UserPick) (p q : UserPick → Bool) (g : UserPick → Int)
    (h : ∀ k ∈ picks, p k = true → q k = false → g k = 0) :
    ((picks.filter (fun k => p k && q k)).map g).sum = ((picks.filter p).map g).sum := by
  induction picks with
  | nil => rfl
  | cons a rest ih =>
    have ih2 := ih (fun k hk => h k (List.mem_cons_of_mem _ hk))
    cases hp : p a with
    | false =>
      simp only [List.filter_cons, hp, Bool.false_and, Bool.false_eq_true, if_false]
      exact ih2
    | true =>
      cases hq : q a with
      | true =>
        simp only [List.filter_cons, hp, hq, Bool.and_self, if_true, List.map_cons,
          List.sum_cons, ih2]
      | false =>
        simp only [List.filter_cons, hp, hq, Bool.and_false, Bool.false_eq_true, if_false,
          if_true, List.map_cons, List.sum_cons, ih2, h a (List.mem_cons_self _ _) hp hq,
          zero_add]

theorem selectionRowAfter_eventID (ev : PickableSelection → String × Int)
    (sels : List PickableSelection) (s : PickableSelection) :
    (selectionRowAfter ev sels s).eventID = s.eventID := by
  unfold selectionRowAfter
  split <;> rfl

theorem picksAfter_eq_map (ev : PickableSelection → String × Int)
    (sels : List PickableSelection) (rows : List UserPick) :
    picksAfter ev sels rows = rows.map (pickRowAfter ev sels) := rfl

theorem pickRowAfter_keys (ev : PickableSelection → String × Int)
    (sels : List PickableSelection) (p : UserPick) :
    (pickRowAfter ev sels p).participantID = p.participantID ∧
    (pickRowAfter ev sels p).selectionID = p.selectionID := by
  unfold pickRowAfter
  split <;> exact ⟨rfl, rfl⟩

/-- The sum of the awarded points of a participant on the event after the
loops of a settlement, when the picks on the event carried no points before. -/
theorem awardedOnEvent_after (ev : PickableSelection → String × Int) (db out : Store)
    (eventID pid : Nat)
    (hpicks : out.picks = picksAfter ev
      (db.selections.filter (fun s => decide (s.eventID = eventID))) db.picks)
    (hsels : out.selections = selectionsAfter ev
      (db.selections.filter (fun s => decide (s.eventID = eventID))) db.selections)
    (hzero : ∀ k ∈ db.picks,
      (∃ s ∈ db.selections, s.id = k.selectionID ∧ s.eventID = eventID) →
      k.awardedPoints = 0) :
    awardedOnEvent out eventID pid =
      ((db.picks.filter (fun k => decide (k.participantID = pid))).map
        (awardFor ev (db.selections.filter (fun s => decide (s.eventID = eventID))))).sum := by
  have hany : ∀ x : Nat,
      (selectionsAfter ev (db.selections.filter (fun s => decide (s.eventID = eventID)))
        db.selections).any (fun s => decide (s.id = x ∧ s.eventID = eventID))
      = db.selections.any (fun s => decide (s.id = x ∧ s.eventID = eventID)) := by
    intro x
    unfold selectionsAfter
    rw [List.any_map]
    congr 1
    funext s
    simp only [Function.comp, selectionRowAfter_id, selectionRowAfter_eventID]
  have hstep : awardedOnEvent out eventID pid =
      ((db.picks.filter (fun k => decide (k.participantID = pid) &&
          db.selections.any (fun s => decide (s.id = k.selectionID ∧ s.eventID = eventID)))).map
        (awardFor ev (db.selections.filter (fun s => decide (s.eventID = eventID))))).sum := by
    unfold awardedOnEvent
    rw [hpicks, hsels, picksAfter_eq_map, List.filter_map, List.map_map]
    have hfilter : db.picks.filter
        ((fun k => decide (k.participantID = pid) &&
          (selectionsAfter ev (db.selections.filter (fun s => decide (s.eventID = eventID)))
            db.selections).any
            (fun s => decide (s.id = k.selectionID ∧ s.eventID = eventID))) ∘
          pickRowAfter ev (db.selections.filter (fun s => decide (s.eventID = eventID))))
        = db.picks.filter (fun k => decide (k.participantID = pid) &&
          db.selections.any
            (fun s => decide (s.id = k.selectionID ∧ s.eventID = eventID))) := by
      apply List.filter_congr
      intro k _
      simp only [Function.comp, hany, (pickRowAfter_keys ev _ k).1, (pickRowAfter_keys ev _ k).2]
    rw [hfilter]
    congr 1
    apply List.map_congr_left
    intro k hk
    have hk1 := (List.mem_filter.1 hk).1
    have hk2 := (List.mem_filter.1 hk).2
    simp only [Bool.and_eq_true, decide_eq_true_eq, List.any_eq_true] at hk2
    have hz : k.awardedPoints = 0 := hzero k hk1 hk2.2
    simp only [Function.comp]
    unfold pickRowAfter awardFor
    split
    · rfl
    · exact hz
  rw [hstep]
  apply sum_filter_and
  intro k _ _ hq
  unfold awardFor
  have hnone : (db.selections.filter (fun s => decide (s.eventID = eventID))).find?
      (fun e => decide (e.id = k.selectionID ∧ (ev e).2 > 0)) = none := by
    rw [List.find?_eq_none]
    intro e he
    simp only [decide_eq_true_eq, not_and]
    intro hid
    have hmem := List.mem_filter.1 he
    have hev : e.eventID = eventID := by simpa using hmem.2
    have : db.selections.any
        (fun s => decide (s.id = k.selectionID ∧ s.eventID = eventID)) = true :=
      List.any_eq_true.2 ⟨e, hmem.1, decide_eq_true ⟨hid, hev⟩⟩
    rw [this] at hq
    cases hq
  rw [hnone]

/-- C30, amended: after a successful `SettleEvent` on a store that does not
fail, when no participant holds two picks on the same selection and the picks
on the selections of the event carried no awarded points before, the increase
of `total_points` of every participant equals the sum of `awarded_points` over
the picks of the participant that reference selections of the event. -/
theorem SettleEvent_awarded_points (mkSlug : String → String) (db : Store) (eventID : Nat)
    (input : SetEventResultRequest) (event : Event)
    (hbind : bindSetEventResultRequest input = true)
    (hev : db.events.find? (fun e => decide (e.id = eventID)) = some event)
    (hst : event.status ≠ "completed")
    (hnote : 5 ≤ event.resultNote.utf8ByteSize)
    (hpk : (db.selections.map (fun s => s.id)).Nodup)
    (hone : (pickPairs db).Nodup)
    (hzero : ∀ k ∈ db.picks,
      (∃ s ∈ db.selections, s.id = k.selectionID ∧ s.eventID = eventID) →
      k.awardedPoints = 0) :
    (SettleEvent mkSlug Faults.none db eventID input).1 = settledResponse ∧
    (SettleEvent mkSlug Faults.none db eventID input).2.participants =
      db.participants.map (fun p =>
        { p with totalPoints := (p.totalPoints +
            awardedOnEvent (SettleEvent mkSlug Faults.none db eventID input).2 eventID p.id) }) := by
  have hnone := SettleEvent_none mkSlug db eventID input event hbind hev hst hnote hpk
  refine ⟨by rw [hnone], ?_⟩
  have haw : ∀ pid : Nat,
      awardedOnEvent (SettleEvent mkSlug Faults.none db eventID input).2 eventID pid
        = pointsGained (settlementOutcome db eventID input)
            (db.selections.filter (fun s => decide (s.eventID = eventID))) db.picks pid := by
    intro pid
    rw [awardedOnEvent_after (settlementOutcome db eventID input) db _ eventID pid
      (by rw [hnone]) (by rw [hnone]) hzero]
    exact awardFor_sum _ db.picks pid (nodup_selections_of_pairs db.picks pid hone) _
      (nodup_filter_ids _ hpk _)
  simp only [haw]
  rw [hnone]
  rfl

/-- Witness of C30 amended: in the sample store each participant holds at
most one pick per selection; participant 1 goes from 4 to 12 and the picks on
the selections 1 and 3 carry 3 and 5 awarded points. -/
theorem SettleEvent_awarded_points_witness :
    (SettleEvent id Faults.none sampleStore 1 sampleRequest).2.participants.map
        (fun p => (p.id, p.totalPoints)) = [(1, 12), (2, 6)] ∧
    awardedOnEvent (SettleEvent id Faults.none sampleStore 1 sampleRequest).2 1 1 = 8 ∧
    (SettleEvent id Faults.none sampleStore 1 sampleRequest).2.participants =
      sampleStore.participants.map (fun p =>
        { p with totalPoints := (p.totalPoints +
            awardedOnEvent (SettleEvent id Faults.none sampleStore 1 sampleRequest).2 1 p.id) }) :=
  ⟨by decide!, by decide!,
    (SettleEvent_awarded_points id sampleStore 1 sampleRequest sampleEvent (by decide)
      (by decide!) (by decide) (by decide) (by decide!) (by decide) (by
        intro k hk _
        have hk2 : k ∈ sampleStore.picks := hk
        simp only [sampleStore, List.mem_cons, List.mem_singleton, List.not_mem_nil,
          or_false] at hk2
        rcases hk2 with h | h | h <;> rw [h])).2⟩

end BetsBackend
